import Mathlib

/-!
Verification of the Orbit day-planner against its specification.

This file shallowly embeds the relevant parts of the source
(`src/orbit/services/{routing,optimizer,resolver,planner}.py`, `src/orbit/app.py`,
`src/orbit/models.py`, `src/orbit/services/tasks.py`) in Lean 4 and proves or
refutes the frozen claims about them.

Modelling conventions, used throughout:

* Python floats are modelled as real numbers (`ℝ`) wherever transcendental
  arithmetic (haversine) is involved, and as rationals (`ℚ`) where the code is
  executed on concrete inputs (scheduler, URL builder, cache keys).  Binary
  floating point rounding error is not modelled.
* `round(x, n)` is modelled by `roundTo n x` (round half away from ties is
  modelled as round-half-up; no claim here depends on behaviour at exact ties).
* `int(x)` (truncation towards zero) is modelled by `pyInt`.
* Network / database / LLM effects are modelled by explicit oracle parameters:
  the theorems quantify over all possible responses of the external world.
* Python `list.sort` (stable) is modelled with `List.insertionSort`, which is
  also stable; claims proved here do not depend on the order of key-equal
  elements.
* Mutation of a candidate/plan object that is shared between a list and a
  `selected` field is modelled by rewriting both occurrences functionally.
-/

namespace Orbit

/-- Model of Python `round(x, n)`: round to `n` decimal digits. -/
def roundTo {α : Type} [LinearOrderedField α] [FloorRing α] (n : ℕ) (x : α) : α :=
  (round (x * 10 ^ n) : ℤ) / 10 ^ n

/-- Model of Python `int(q)` on a rational: truncation towards zero. -/
def pyInt (q : ℚ) : ℤ :=
  q.num / (q.den : ℤ)

/-- Lower-case a string (ASCII, as used by the source's `.lower()` calls). -/
def strLower (s : String) : String :=
  String.mk (s.data.map Char.toLower)

/-- Check whether `pat` occurs as a contiguous sublist of `hay`. -/
def listContainsSub {β : Type} [DecidableEq β] (hay pat : List β) : Bool :=
  match hay with
  | [] => pat.isEmpty
  | _ :: tl => pat.isPrefixOf hay || listContainsSub tl pat

/-- Model of Python `needle in hay` on strings (substring containment). -/
def strContains (hay needle : String) : Bool :=
  listContainsSub hay.data needle.data

/-- An apostrophe character, used when the source builds quoted messages. -/
def apos : String :=
  String.singleton (Char.ofNat 39)

/-! ### Routing service (`services/routing.py`)

The two coordinates of a point are latitude and longitude in degrees.
-/

/-- Model of Python `math.atan2 y x`.  Only the `x ≥ 0` branch is ever reached
by the haversine formula, but the full definition is given. -/
noncomputable def atan2 (y x : ℝ) : ℝ :=
  if 0 < x then Real.arctan (y / x)
  else if x = 0 then
    (if 0 < y then Real.pi / 2 else if y < 0 then -(Real.pi / 2) else 0)
  else
    (if 0 ≤ y then Real.arctan (y / x) + Real.pi else Real.arctan (y / x) - Real.pi)

/-- Source `routing.haversine_distance`: great-circle distance in km between
two (lat, lon) points in degrees, Earth radius 6371 km. -/
noncomputable def haversine_distance (lat1 lon1 lat2 lon2 : ℝ) : ℝ :=
  let lat1_rad := lat1 * Real.pi / 180
  let lat2_rad := lat2 * Real.pi / 180
  let delta_lat := (lat2 - lat1) * Real.pi / 180
  let delta_lon := (lon2 - lon1) * Real.pi / 180
  let a := Real.sin (delta_lat / 2) ^ 2
    + Real.cos lat1_rad * Real.cos lat2_rad * Real.sin (delta_lon / 2) ^ 2
  let c := 2 * atan2 (Real.sqrt a) (Real.sqrt (1 - a))
  6371 * c

/-- Source `models.RouteResult`, generic in the numeric type used for the
coordinate/metric fields (`ℝ` for the routing service itself, `ℚ` for the
scheduler's route oracle). -/
structure RouteResult (γ : Type) where
  origin_lat : γ
  origin_lon : γ
  dest_lat : γ
  dest_lon : γ
  distance_km : γ
  duration_minutes : γ
  geometry : Option String
  source : String
deriving DecidableEq

/-- Config `DEFAULT_CITY_SPEED_KMH = 40`. -/
def DEFAULT_CITY_SPEED_KMH : ℝ := 40

/-- Source `routing.get_route_fallback`: haversine distance scaled by the
road factor 1.4, duration from the configured average city speed. -/
noncomputable def get_route_fallback (origin_lat origin_lon dest_lat dest_lon : ℝ)
    (avg_speed_kmh : ℝ := DEFAULT_CITY_SPEED_KMH) : RouteResult ℝ :=
  let straight_distance := haversine_distance origin_lat origin_lon dest_lat dest_lon
  let road_distance := straight_distance * 1.4
  let duration_minutes := road_distance / avg_speed_kmh * 60
  { origin_lat := origin_lat
    origin_lon := origin_lon
    dest_lat := dest_lat
    dest_lon := dest_lon
    distance_km := roundTo 2 road_distance
    duration_minutes := roundTo 1 duration_minutes
    geometry := none
    source := "fallback" }

/-- Source `routing._get_route_cache_key`: the key is an MD5 hash (truncated)
of the JSON serialisation of the list of the four raw coordinates.  The JSON
serialisation is injective on the list of coordinates and the hash is a
deterministic function of it, so the key is modelled by its pre-hash content,
the four-element coordinate list itself.  Note that the source applies NO
rounding to the coordinates before hashing. -/
def routeCacheKeyContent (lat1 lon1 lat2 lon2 : ℝ) : List ℝ :=
  [lat1, lon1, lat2, lon2]

/-- The route cache is a partial map from key contents to previously stored
results (`db.get_cache` / `db.set_cache`; TTL expiry is not modelled, an entry
present in the map stands for a stored, unexpired entry; JSON
serialisation of the stored `RouteResult` is modelled as the identity). -/
def RouteCache : Type :=
  List ℝ → Option (RouteResult ℝ)

open Classical in
/-- Store a value in the cache (`db.set_cache`). -/
noncomputable def cacheInsert (c : RouteCache) (k : List ℝ) (v : RouteResult ℝ) : RouteCache :=
  fun k' => if k' = k then some v else c k'

/-- Source `routing.get_route`.  The OSRM call is modelled by the oracle
`osrm : Option (RouteResult ℝ)` (`none` models any network/HTTP/payload
failure, which `get_route_osrm` turns into `None`).  Returns the result, the
updated cache, and whether the provider (OSRM oracle) was consulted. -/
noncomputable def get_route (osrm : Option (RouteResult ℝ)) (cache : RouteCache)
    (origin_lat origin_lon dest_lat dest_lon : ℝ) (use_cache : Bool := true) :
    RouteResult ℝ × RouteCache × Bool :=
  let key := routeCacheKeyContent origin_lat origin_lon dest_lat dest_lon
  match (if use_cache then cache key else none) with
  | some cached => (cached, cache, false)
  | none =>
    let result := match osrm with
      | some r => r
      | none => get_route_fallback origin_lat origin_lon dest_lat dest_lon
    if use_cache then (result, cacheInsert cache key result, true)
    else (result, cache, true)

/-! ### Google Maps URL builder (`app.build_google_maps_url`) -/

/-- Structured model of the assembled Google Maps directions URL: the base
URL, `api=1` and `travelmode=driving` are constants, so only origin,
destination and the (possibly empty, then omitted) waypoint list carry
information.  String formatting/percent-encoding of the parameters is not
modelled. -/
structure MapsUrl where
  origin : ℚ × ℚ
  destination : ℚ × ℚ
  waypoints : List (ℚ × ℚ)
deriving DecidableEq

/-- Source `app.build_google_maps_url` line 57: keep a waypoint iff both of
its components are truthy, i.e. non-`None` AND non-zero (`if lat and lon`). -/
def validWaypoints (waypoints : List (Option ℚ × Option ℚ)) : List (ℚ × ℚ) :=
  waypoints.filterMap fun p =>
    match p with
    | (some lat, some lon) => if lat ≠ 0 ∧ lon ≠ 0 then some (lat, lon) else none
    | _ => none

/-- Source `app.build_google_maps_url`. -/
def build_google_maps_url (origin_lat origin_lon : ℚ)
    (waypoints : List (Option ℚ × Option ℚ))
    (destination_lat destination_lon : Option ℚ) (return_home : Bool := true) :
    Option MapsUrl :=
  let valid := validWaypoints waypoints
  if valid.isEmpty then none
  else
    match destination_lat, destination_lon with
    | some dlat, some dlon =>
      some { origin := (origin_lat, origin_lon)
             destination := (dlat, dlon)
             waypoints := valid }
    | _, _ =>
      if return_home then
        some { origin := (origin_lat, origin_lon)
               destination := (origin_lat, origin_lon)
               waypoints := valid }
      else
        some { origin := (origin_lat, origin_lon)
               destination := valid.getLastD (0, 0)
               waypoints := valid.dropLast }

/-! ### Route optimizer (`services/optimizer.py`)

The optimizer calls `routing.haversine_distance` for every edge.  The
algorithms are defined once, generic over a linearly ordered field `α` and an
explicit edge-distance function `d`; the source functions are the
instantiations at `α = ℝ`, `d = haversineD`, 2-opt epsilon `0.001`.  The
generic form is what lets the nearest-neighbour/2-opt run be executed exactly
over `ℚ` for equatorial inputs (where the haversine distance is a fixed
multiple of an exactly computable arc length, see `haversine_equator`).
-/

section OptimizerDefs

variable {α : Type} [LinearOrderedRing α]

/-- Placeholder point used for (unreachable) out-of-range list indexing. -/
def zeroPt : α × α := (0, 0)

/-- Sum of `d` over consecutive elements of the ordered stop list
(the `for i in range(len(order) - 1)` loop of `calculate_route_distance`). -/
def chainDist (d : α × α → α × α → α) (stops : List (α × α)) : List ℕ → α
  | [] => 0
  | [_] => 0
  | a :: b :: rest => d (stops.getD a zeroPt) (stops.getD b zeroPt) + chainDist d stops (b :: rest)

/-- Source `optimizer.calculate_route_distance`, generic in the distance. -/
def calcRouteDist (d : α × α → α × α → α) (start : α × α) (stops : List (α × α))
    (order : List ℕ) (ret : Bool) : α :=
  match order with
  | [] => 0
  | o0 :: _ =>
    d start (stops.getD o0 zeroPt) + chainDist d stops order
      + (if ret then d (stops.getD (order.getLastD 0) zeroPt) start else 0)

/-- Model of Python `itertools.permutations` on a list, with fuel equal to the
list length: all permutations, picking first elements left to right (which for
`range n` is lexicographic order, as `itertools` produces). -/
def pyPermsF : ℕ → List ℕ → List (List ℕ)
  | 0, _ => [[]]
  | f + 1, l =>
    if l.isEmpty then [[]]
    else (List.range l.length).flatMap fun k =>
      (pyPermsF f (l.eraseIdx k)).map fun p => l.getD k 0 :: p

/-- All permutations of a list of indices, in the order Python enumerates
them. -/
def pyPerms (l : List ℕ) : List (List ℕ) :=
  pyPermsF l.length l

/-- The accumulator loop of `optimize_brute_force`: keep the strictly better
permutation, so ties keep the earliest one seen. -/
def bruteFold (d : α × α → α × α → α) (start : α × α) (stops : List (α × α)) (ret : Bool) :
    List (List ℕ) → List ℕ × α → List ℕ × α
  | [], acc => acc
  | p :: ps, (bo, bd) =>
    let dist := calcRouteDist d start stops p ret
    if dist < bd then bruteFold d start stops ret ps (p, dist)
    else bruteFold d start stops ret ps (bo, bd)

/-- Source `optimizer.optimize_brute_force`, generic in the distance. -/
def bruteForceG (d : α × α → α × α → α) (start : α × α) (stops : List (α × α)) (ret : Bool) :
    List ℕ × α :=
  let n := stops.length
  if n = 0 then ([], 0)
  else if n = 1 then ([0], calcRouteDist d start stops [0] ret)
  else
    let init := List.range n
    bruteFold d start stops ret (pyPerms (List.range n)) (init, calcRouteDist d start stops init ret)

/-- One step of the inner `for i in range(n)` scan of
`optimize_nearest_neighbor`: keep the strictly nearer unvisited stop. -/
def nnStep (d : α × α → α × α → α) (cur : α × α) (stops : List (α × α)) (visited : List ℕ)
    (acc : Option (ℕ × α)) (i : ℕ) : Option (ℕ × α) :=
  if i ∈ visited then acc
  else
    let dist := d cur (stops.getD i zeroPt)
    match acc with
    | none => some (i, dist)
    | some (bi, bd) => if dist < bd then some (i, dist) else some (bi, bd)

/-- The inner `for i in range(n)` scan of `optimize_nearest_neighbor`: the
nearest unvisited stop (strict improvement, so the lowest index wins ties;
`none` models the `best_idx = -1` initial state, reached only when every index
is visited). -/
def nnPick (d : α × α → α × α → α) (cur : α × α) (stops : List (α × α)) (visited : List ℕ) :
    Option (ℕ × α) :=
  (List.range stops.length).foldl (nnStep d cur stops visited) none

/-- The `while len(visited) < n` loop of `optimize_nearest_neighbor`; fuel is
the number of stops still to visit. -/
def nnLoop (d : α × α → α × α → α) (stops : List (α × α)) :
    ℕ → α × α → List ℕ → List ℕ
  | 0, _, _ => []
  | fuel + 1, cur, visited =>
    match nnPick d cur stops visited with
    | none => []
    | some (bi, _) => bi :: nnLoop d stops fuel (stops.getD bi zeroPt) (bi :: visited)

/-- Source `optimizer.optimize_nearest_neighbor`, generic in the distance. -/
def nearestNeighborG (d : α × α → α × α → α) (start : α × α) (stops : List (α × α))
    (ret : Bool) : List ℕ × α :=
  let n := stops.length
  if n = 0 then ([], 0)
  else if n = 1 then ([0], calcRouteDist d start stops [0] ret)
  else
    let order := nnLoop d stops n start []
    (order, calcRouteDist d start stops order ret)

/-- Reversal `order[:i+1] + order[i+1:j+1][::-1] + order[j+1:]` of the 2-opt
move `(i, j)`. -/
def reverseSegment (order : List ℕ) (i j : ℕ) : List ℕ :=
  order.take (i + 1) ++ ((order.drop (i + 1)).take (j - i)).reverse ++ order.drop (j + 1)

/-- The move enumeration `for i in range(n-1): for j in range(i+2, n)` of
`optimize_2opt`, in scan order (`List.range' (i+2) (n-(i+2))` is the list
`[i+2, ..., n-1]`, i.e. Python's `range(i+2, n)`). -/
def movePairs (n : ℕ) : List (ℕ × ℕ) :=
  (List.range (n - 1)).flatMap fun i => (List.range' (i + 2) (n - (i + 2))).map fun j => (i, j)

/-- One pass of the 2-opt scan: the first move (in scan order) improving the
current best distance by more than `eps`, together with the new order and
distance; `none` when no move qualifies (then the `improved` flag stays
false and the `while` loop exits). -/
def twoOptScan (d : α × α → α × α → α) (eps : α) (start : α × α) (stops : List (α × α))
    (ret : Bool) (order : List ℕ) (best : α) : Option (List ℕ × α) :=
  (movePairs stops.length).findSome? fun m =>
    let newOrder := reverseSegment order m.1 m.2
    let newDist := calcRouteDist d start stops newOrder ret
    if newDist < best - eps then some (newOrder, newDist) else none

/-- The `while improved and iterations < max_iterations` loop of
`optimize_2opt`; each fuel step is one scan pass. -/
def twoOptLoop (d : α × α → α × α → α) (eps : α) (start : α × α) (stops : List (α × α))
    (ret : Bool) : ℕ → List ℕ → α → List ℕ × α
  | 0, order, best => (order, best)
  | fuel + 1, order, best =>
    match twoOptScan d eps start stops ret order best with
    | none => (order, best)
    | some (newOrder, newDist) => twoOptLoop d eps start stops ret fuel newOrder newDist

/-- Source `optimizer.optimize_2opt`, generic in the distance and epsilon. -/
def twoOptG (d : α × α → α × α → α) (eps : α) (start : α × α) (stops : List (α × α))
    (initial_order : List ℕ) (ret : Bool) (max_iterations : ℕ := 1000) : List ℕ × α :=
  if stops.length ≤ 2 then (initial_order, calcRouteDist d start stops initial_order ret)
  else twoOptLoop d eps start stops ret max_iterations initial_order
    (calcRouteDist d start stops initial_order ret)

/-- Source `optimizer.OptimizedRoute`, generic in the numeric type. -/
structure OptimizedRoute (α : Type) where
  stop_order : List ℕ
  total_distance_km : α
  naive_distance_km : α
  savings_km : α
  method : String

end OptimizerDefs

section OptimizerRoundDefs

variable {α : Type} [LinearOrderedField α]

/-- Source `optimizer.optimize_route`, generic in the distance and epsilon.
Requires `FloorRing` for the `round(_, 2)` of the output fields. -/
def optimizeRouteG [FloorRing α] (d : α × α → α × α → α) (eps : α) (start : α × α)
    (stops : List (α × α)) (ret : Bool) : OptimizedRoute α :=
  let n := stops.length
  if n = 0 then
    { stop_order := [], total_distance_km := 0, naive_distance_km := 0
      savings_km := 0, method := "none" }
  else
    let naive_order := List.range n
    let naive_distance := calcRouteDist d start stops naive_order ret
    if n = 1 then
      { stop_order := [0], total_distance_km := naive_distance
        naive_distance_km := naive_distance, savings_km := 0, method := "single_stop" }
    else
      let (best_order, best_distance) :=
        if n ≤ 6 then bruteForceG d start stops ret
        else
          let (nn_order, _) := nearestNeighborG d start stops ret
          twoOptG d eps start stops nn_order ret 1000
      let method := if n ≤ 6 then "brute_force" else "nearest_neighbor_2opt"
      { stop_order := best_order
        total_distance_km := roundTo 2 best_distance
        naive_distance_km := roundTo 2 naive_distance
        savings_km := roundTo 2 (max 0 (naive_distance - best_distance))
        method := method }

end OptimizerRoundDefs

/-- The haversine distance as an edge-distance function on (lat, lon) points. -/
noncomputable def haversineD : ℝ × ℝ → ℝ × ℝ → ℝ :=
  fun p q => haversine_distance p.1 p.2 q.1 q.2

/-- Source `optimizer.calculate_route_distance` (haversine instantiation). -/
noncomputable def calculate_route_distance (start_lat start_lon : ℝ) (stops : List (ℝ × ℝ))
    (order : List ℕ) (return_to_start : Bool := true) : ℝ :=
  calcRouteDist haversineD (start_lat, start_lon) stops order return_to_start

/-- Source `optimizer.optimize_brute_force` (haversine instantiation). -/
noncomputable def optimize_brute_force (start_lat start_lon : ℝ) (stops : List (ℝ × ℝ))
    (return_to_start : Bool := true) : List ℕ × ℝ :=
  bruteForceG haversineD (start_lat, start_lon) stops return_to_start

/-- Source `optimizer.optimize_nearest_neighbor` (haversine instantiation). -/
noncomputable def optimize_nearest_neighbor (start_lat start_lon : ℝ) (stops : List (ℝ × ℝ))
    (return_to_start : Bool := true) : List ℕ × ℝ :=
  nearestNeighborG haversineD (start_lat, start_lon) stops return_to_start

/-- Source `optimizer.optimize_2opt` (haversine instantiation, epsilon
`0.001` km). -/
noncomputable def optimize_2opt (start_lat start_lon : ℝ) (stops : List (ℝ × ℝ))
    (initial_order : List ℕ) (return_to_start : Bool := true)
    (max_iterations : ℕ := 1000) : List ℕ × ℝ :=
  twoOptG haversineD (1 / 1000) (start_lat, start_lon) stops initial_order
    return_to_start max_iterations

/-- Source `optimizer.optimize_route` (haversine instantiation). -/
noncomputable def optimize_route (start_lat start_lon : ℝ) (stops : List (ℝ × ℝ))
    (return_to_start : Bool := true) : OptimizedRoute ℝ :=
  optimizeRouteG haversineD (1 / 1000) (start_lat, start_lon) stops return_to_start

/-- Exact circle distance in degrees between two integer longitudes on the
equator: the arc length (in degrees) of the shorter way round.  For points on
the equator the haversine distance is exactly `6371 * π / 180` times this
value (`haversine_equator` below). -/
def cdegZ (a b : ℤ) : ℤ :=
  min |a - b| (360 - |a - b|)

/-- Equatorial edge distance over `ℤ`, in degrees of arc: the computable
counterpart of `haversineD` on points of latitude 0 with integer-degree
longitudes. -/
def eqDistZ : ℤ × ℤ → ℤ × ℤ → ℤ :=
  fun p q => cdegZ p.2 q.2

/-- Kilometres of great-circle arc per degree at the Earth radius the source
uses: `6371 * π / 180 ≈ 111.19`. -/
noncomputable def kmPerDeg : ℝ :=
  6371 * Real.pi / 180

/-- Embedding of integer-coordinate points into the real plane. -/
def castPtZ (p : ℤ × ℤ) : ℝ × ℝ :=
  ((p.1 : ℝ), (p.2 : ℝ))

/-! ### Place resolver (`services/resolver.py`)

Metric quantities (distances, fuzzy scores) are modelled over `ℝ`.  The
`rapidfuzz` library is external to the repository, so its four scorers are an
oracle (`FuzzOracle`).  All provider calls (OSM, Google Places, Gemini,
Tavily) and the availability flags are an explicit environment; adapter
failures surface as empty/`none` oracle answers, matching the adapters'
exception handling.  Python float formatting in the decision-reason string is
abstracted by the `floatRepr` oracle.
-/

section ResolverSection

open Classical

/-- Source `models.Settings`, generic in the coordinate type (`ℝ` for the
resolver, `ℚ` for the scheduler run on concrete inputs).  Fields not read by
the embedded code (`id`, `default_timezone`) are omitted. -/
structure Settings (γ : Type) where
  home_name : String := "Home"
  home_address : Option String := none
  home_lat : Option γ := none
  home_lon : Option γ := none
  default_work_start : String := "09:00"
  default_work_end : String := "18:00"

/-- Source `Settings.has_home_location`. -/
def Settings.has_home_location {γ : Type} (s : Settings γ) : Bool :=
  s.home_lat.isSome && s.home_lon.isSome

/-- Source `models.PlaceSearchResult`. -/
structure PlaceSearchResult where
  name : String
  address : String
  lat : ℝ
  lon : ℝ
  source : String := "nominatim"
  osm_id : Option String := none
  place_type : Option String := none

/-- Source `resolver.ResolutionDecision`. -/
inductive ResolutionDecision where
  | auto_best
  | user_selected
  | no_match
  | pending
deriving DecidableEq

/-- Source `resolver.SelectionReason`. -/
inductive SelectionReason where
  | closest_to_home
  | best_overall_score
  | clear_winner
  | only_match
  | user_selected
  | best_for_route
deriving DecidableEq

/-- Source `resolver.ScoredCandidate` (display helpers omitted). -/
structure ScoredCandidate where
  place : PlaceSearchResult
  distance_miles : ℝ
  name_similarity : ℝ
  combined_score : ℝ
  selection_reason : Option SelectionReason := none

/-- Source `ScoredCandidate.get_reason_text`. -/
def getReasonText (c : ScoredCandidate) : String :=
  match c.selection_reason with
  | some SelectionReason.closest_to_home => "Closest to home"
  | some SelectionReason.best_overall_score => "Best overall match"
  | some SelectionReason.clear_winner => "Clear best match"
  | some SelectionReason.only_match => "Only match found"
  | some SelectionReason.user_selected => "User selected"
  | some SelectionReason.best_for_route => "Best for route (min total distance)"
  | none => "Auto-selected"

/-- Source `resolver.ResolvedPlace`. -/
structure ResolvedPlace where
  query : String
  selected : Option ScoredCandidate
  candidates : List ScoredCandidate
  decision : ResolutionDecision
  decision_reason : String

/-- Source `ResolvedPlace.needs_disambiguation`. -/
def ResolvedPlace.needs_disambiguation (r : ResolvedPlace) : Bool :=
  r.decision = ResolutionDecision.pending

/-- Source `ResolvedPlace.is_resolved`. -/
def ResolvedPlace.is_resolved (r : ResolvedPlace) : Bool :=
  r.decision = ResolutionDecision.auto_best || r.decision = ResolutionDecision.user_selected

/-- Source `resolver.normalize_text`: lower-case, strip characters that are
neither word characters nor whitespace, collapse whitespace runs to a single
space, trim.  Word characters are modelled as ASCII alphanumerics plus
underscore. -/
def collapseWS : Bool → List Char → List Char
  | _, [] => []
  | prevWS, c :: rest =>
    if c.isWhitespace then
      if prevWS then collapseWS true rest else ' ' :: collapseWS true rest
    else c :: collapseWS false rest

/-- Source `resolver.normalize_text`. -/
def normalize_text (s : String) : String :=
  let kept := (strLower s).data.filter fun c => c.isAlphanum || c = '_' || c.isWhitespace
  (String.mk (collapseWS false kept)).trim

/-- The four `rapidfuzz.fuzz` scorers, external to the repository, as an
oracle.  Each scores a pair of strings in `[0, 100]`. -/
structure FuzzOracle where
  fullScore : String → String → ℝ
  partScore : String → String → ℝ
  tokenSortScore : String → String → ℝ
  tokenSetScore : String → String → ℝ

/-- Source `resolver.calculate_name_similarity`: maximum of the four fuzzy
scores on normalized strings; 0 when either normalizes to empty. -/
noncomputable def calculate_name_similarity (fz : FuzzOracle) (query candidate_name : String) : ℝ :=
  let q := normalize_text query
  let n := normalize_text candidate_name
  if q = "" ∨ n = "" then 0
  else
    max (max (fz.fullScore q n) (fz.partScore q n))
      (max (fz.tokenSortScore q n) (fz.tokenSetScore q n))

/-- Source `resolver.km_to_miles` (also `app.km_to_miles`). -/
noncomputable def km_to_miles (km : ℝ) : ℝ :=
  km * 0.621371

/-- Source `resolver.calculate_distance_miles`. -/
noncomputable def calculate_distance_miles (lat1 lon1 lat2 lon2 : ℝ) : ℝ :=
  km_to_miles (haversine_distance lat1 lon1 lat2 lon2)

/-- Source `resolver.calculate_combined_score`. -/
noncomputable def calculate_combined_score (distance_miles name_similarity : ℝ)
    (max_distance : ℝ := 25) : ℝ :=
  (if distance_miles ≥ max_distance then 0 else 50 * (1 - distance_miles / max_distance))
    + name_similarity / 2

/-- Source `resolver.are_same_brand`: fuzzy similarity of the two candidates'
own (normalized) names is at least the threshold. -/
noncomputable def are_same_brand (fz : FuzzOracle) (c1 c2 : ScoredCandidate)
    (threshold : ℝ := 70) : Prop :=
  calculate_name_similarity fz (normalize_text c1.place.name) (normalize_text c2.place.name)
    ≥ threshold

/-- Source `resolver.score_candidates`: score each candidate, then sort by
combined score descending (Python's stable sort with `reverse=True`). -/
noncomputable def score_candidates (fz : FuzzOracle) (query : String)
    (candidates : List PlaceSearchResult) (home_lat home_lon : ℝ) : List ScoredCandidate :=
  let scored := candidates.map fun candidate =>
    let distance := calculate_distance_miles home_lat home_lon candidate.lat candidate.lon
    let similarity := calculate_name_similarity fz query candidate.name
    let combined := calculate_combined_score distance similarity
    { place := candidate
      distance_miles := roundTo 1 distance
      name_similarity := roundTo 1 similarity
      combined_score := roundTo 1 combined
      selection_reason := none : ScoredCandidate }
  scored.insertionSort fun a b => b.combined_score ≤ a.combined_score

/-- Source `resolver.apply_home_proximity_tiebreak`. -/
noncomputable def apply_home_proximity_tiebreak (fz : FuzzOracle)
    (candidates : List ScoredCandidate) (similarity_threshold : ℝ := 70) :
    List ScoredCandidate :=
  match candidates with
  | [] => candidates
  | [_] => candidates
  | top :: rest =>
    let isSame := fun c : ScoredCandidate =>
      c.name_similarity ≥ similarity_threshold ∧ top.name_similarity ≥ similarity_threshold
        ∧ are_same_brand fz top c
    let same_brand := top :: rest.filter fun c => isSame c
    let others := rest.filter fun c => ¬ isSame c
    let same_sorted := same_brand.insertionSort fun a b => a.distance_miles ≤ b.distance_miles
    let same_marked :=
      if 1 < same_sorted.length then
        match same_sorted with
        | [] => same_sorted
        | s0 :: srest => { s0 with selection_reason := some SelectionReason.closest_to_home } :: srest
      else same_sorted
    same_marked ++ others

/-- First element of a list minimizing a measure (Python `min(..., key=...)`,
which keeps the earliest minimum); junk default on the empty list. -/
noncomputable def minByDist (candidates : List ScoredCandidate) (dflt : ScoredCandidate) :
    ScoredCandidate :=
  match candidates with
  | [] => dflt
  | c0 :: rest => rest.foldl (fun acc c => if c.distance_miles < acc.distance_miles then c else acc) c0

/-- Python truthiness of an optional float (`None` and `0.0` are falsy). -/
def pyTruthyR (o : Option ℝ) : Prop :=
  ∃ x, o = some x ∧ x ≠ 0

/-- Source `resolver.select_best_for_route`.  The in-place mutation of the
chosen candidate's `selection_reason` (visible through the list as well) is
modelled by replacing its occurrence functionally. -/
noncomputable def select_best_for_route (fz : FuzzOracle) (candidates : List ScoredCandidate)
    (prev_stop_lat prev_stop_lon : Option ℝ) (home_lat home_lon : ℝ)
    (is_last_stop : Bool := false) (return_home : Bool := true) : List ScoredCandidate :=
  if candidates.length ≤ 1 then candidates
  else if ¬ (is_last_stop = true ∧ return_home = true
      ∧ pyTruthyR prev_stop_lat ∧ pyTruthyR prev_stop_lon) then candidates
  else
    let plat := prev_stop_lat.getD 0
    let plon := prev_stop_lon.getD 0
    let route_scores := candidates.map fun c =>
      let dist_from_prev := calculate_distance_miles plat plon c.place.lat c.place.lon
      let dist_to_home := calculate_distance_miles c.place.lat c.place.lon home_lat home_lon
      (c, dist_from_prev + dist_to_home)
    match candidates with
    | [] => candidates
    | top :: _ =>
      let same_brand := route_scores.filter fun cs =>
        cs.1.name_similarity ≥ 70 ∧ are_same_brand fz top cs.1
      if 1 < same_brand.length then
        let same_sorted := same_brand.insertionSort fun a b => a.2 ≤ b.2
        let chosen := same_sorted.getD 0 (top, 0)
        let closest := minByDist candidates top
        let best :=
          if chosen.1 ≠ closest then
            { chosen.1 with selection_reason := some SelectionReason.best_for_route }
          else chosen.1
        let k := route_scores.findIdx fun cs => cs = chosen
        let after_mutation := (route_scores.map Prod.fst).set k best
        best :: after_mutation.filter fun c => ¬ c = best
      else candidates

/-- Source `resolver.should_auto_select`. -/
noncomputable def should_auto_select (fz : FuzzOracle) (candidates : List ScoredCandidate) :
    Bool × SelectionReason :=
  match candidates with
  | [] => (false, SelectionReason.only_match)
  | [c] =>
    if c.name_similarity ≥ 50 then (true, SelectionReason.only_match)
    else (false, SelectionReason.only_match)
  | top :: second :: _ =>
    if top.combined_score - second.combined_score ≥ 15 then (true, SelectionReason.clear_winner)
    else if top.name_similarity ≥ 80 ∧ top.distance_miles ≤ 10 then
      (true, SelectionReason.best_overall_score)
    else if top.name_similarity ≥ 70 ∧ second.name_similarity ≥ 70
        ∧ are_same_brand fz top second ∧ top.distance_miles < second.distance_miles then
      (true, SelectionReason.closest_to_home)
    else (false, SelectionReason.best_overall_score)

/-- Source `resolver.filter_osm_results`.  Note that the source's country
filter compares the candidate's own lowercased address on BOTH sides of the
inner test (lines 466-469), so the inner `not any(...)` is false whenever the
outer `any(...)` is true and no candidate is ever dropped for mentioning a
foreign country; the embedding reproduces this literally. -/
noncomputable def filter_osm_results (candidates : List PlaceSearchResult)
    (home_lat home_lon : ℝ) (max_distance_miles : ℝ := 25) : List PlaceSearchResult :=
  let other_countries := ["ireland", "united kingdom", "canada", "mexico", "australia"]
  candidates.filter fun candidate =>
    let distance_km := haversine_distance home_lat home_lon candidate.lat candidate.lon
    let distance_miles := km_to_miles distance_km
    if max_distance_miles < distance_miles then false
    else
      let address_lower := strLower candidate.address
      if other_countries.any fun country => strContains address_lower country then
        -- skip unless ... : the inner test re-checks the same condition
        if ¬ other_countries.any fun country => strContains (strLower candidate.address) country
        then false
        else true
      else true

/-- Source `google_places.should_use_google_places` (pure helper). -/
def retail_chains : List String :=
  ["target", "walmart", "costco", "cvs", "walgreens", "safeway",
   "kroger", "whole foods", "trader joe", "carter", "gap",
   "old navy", "kohls", "macy", "nordstrom", "best buy",
   "home depot", "lowes", "bed bath", "starbucks", "mcdonalds",
   "burger king", "taco bell", "chipotle", "panera", "babies",
   "kids", "clothing", "store", "shop", "market", "pharmacy"]

/-- Street-type words used by the Tier B suspicion check. -/
def street_indicators : List String :=
  ["drive", "street", "road", "avenue", "lane", "boulevard", "way", "court"]

/-- Source `google_places.should_use_google_places`. -/
def should_use_google_places (query : String) (osm_results : List PlaceSearchResult) : Bool :=
  if osm_results.isEmpty then true
  else if osm_results.length ≤ 2 then true
  else
    let query_lower := strLower query
    if retail_chains.any fun chain => strContains query_lower chain then true
    else
      match osm_results with
      | [] => false
      | first :: _ =>
        let result_name_lower := strLower first.name
        (street_indicators.any fun ind => strContains result_name_lower ind)
          && ¬ (street_indicators.any fun ind => strContains query_lower ind)

/-- Result of the Gemini validation call (a parsed JSON object in the source);
`none` for the whole record models parse/API failure. -/
structure LLMValidation where
  best_index : Option ℤ
  confidence : String
  reasoning : String

/-- Source `gemini_resolver.should_use_web_search` (pure helper). -/
def should_use_web_search (osm_results : List PlaceSearchResult)
    (llm_validation : Option LLMValidation) : Bool :=
  if osm_results.isEmpty then true
  else if (match llm_validation with
      | some v => v.best_index.isNone && (v.confidence = "low" || v.confidence = "")
      | none => false) then true
  else if osm_results.length < 2 then true
  else false

/-- The external world of one `resolve_place` call: availability flags,
provider answers and helper oracles.  The provider functions are total:
adapter-level failures are already folded into empty/`none` answers. -/
structure ResolverEnv where
  geminiAvailable : Bool
  googleAvailable : Bool
  tavilyAvailable : Bool
  extractLocation : String → String × String
  searchNearby : String → ℝ → ℝ → ℝ → ℕ → List PlaceSearchResult
  geocodeAddress : String → Option PlaceSearchResult
  googleSearch : String → ℝ → ℝ → ℝ → Option PlaceSearchResult
  llmValidate : String → List PlaceSearchResult → String → String → ℝ → Option LLMValidation
  tavilySearch : String → String → String → Option PlaceSearchResult
  fuzz : FuzzOracle
  floatRepr : ℝ → String

/-- Move the element at (valid) index `i` to the front: `lst.pop(i)` followed
by `lst.insert(0, x)`. -/
def moveToFront {β : Type} (l : List β) (i : ℕ) (dflt : β) : List β :=
  l.getD i dflt :: l.eraseIdx i

/-- The final decision of `resolve_place` on the truncated scored candidate
list (source lines 659-692): auto-select or fall to pending. -/
noncomputable def resolveDecide (env : ResolverEnv) (query : String)
    (llm : Option LLMValidation) (scored : List ScoredCandidate) : ResolvedPlace :=
  let autoReason := should_auto_select env.fuzz scored
  let llmHigh :=
    match llm with
    | some v => v.confidence = "high" ∧ ¬ scored.isEmpty
    | none => False
  let should_auto := if llmHigh then true else autoReason.1
  let reason := if llmHigh then SelectionReason.best_overall_score else autoReason.2
  if should_auto then
    match scored with
    | [] =>
      -- unreachable: should_auto implies a nonempty scored list
      { query := query, selected := none, candidates := scored
        decision := ResolutionDecision.pending
        decision_reason := "Multiple matches found - please select" }
    | top :: rest =>
      let top' :=
        if top.selection_reason = none then { top with selection_reason := some reason }
        else top
      let reason_text := getReasonText top'
      let reason_text' :=
        match llm with
        | some v => if v.reasoning ≠ "" then reason_text ++ " - " ++ v.reasoning else reason_text
        | none => reason_text
      { query := query, selected := some top', candidates := top' :: rest
        decision := ResolutionDecision.auto_best
        decision_reason := env.floatRepr top'.distance_miles ++ " mi (" ++ reason_text' ++ ")" }
  else
    { query := query, selected := none, candidates := scored
      decision := ResolutionDecision.pending
      decision_reason := "Multiple matches found - please select" }

/-- The tail of `resolve_place` from the `if not candidates` check on
(source lines 623-692): scoring, tie-breaks, truncation and the final
decision.  Factored out of `resolve_place` so the output shapes can be
analysed in isolation; `resolve_place` below calls it on the tier cascade's
candidate list. -/
noncomputable def resolveFinish (env : ResolverEnv) (query : String)
    (home_lat home_lon : ℝ) (limit : ℕ) (prev_stop_lat prev_stop_lon : Option ℝ)
    (is_last_stop return_home : Bool) (llm : Option LLMValidation)
    (c7 : List PlaceSearchResult) : ResolvedPlace :=
  if c7.isEmpty then
    { query := query, selected := none, candidates := []
      decision := ResolutionDecision.no_match
      decision_reason := "No places found for " ++ apos ++ query ++ apos }
  else
    let scored0 := score_candidates env.fuzz query c7 home_lat home_lon
    let scored1 := apply_home_proximity_tiebreak env.fuzz scored0
    let scored2 :=
      if is_last_stop ∧ return_home then
        select_best_for_route env.fuzz scored1 prev_stop_lat prev_stop_lon
          home_lat home_lon true true
      else scored1
    resolveDecide env query llm (scored2.take limit)

/-- Source `resolver.resolve_place`.  Returns the `ResolvedPlace`; no code
path of the source raises (the missing-home precondition is answered with a
`no_match` result, line 508-515). -/
noncomputable def resolve_place (env : ResolverEnv) (query : String) (settings : Settings ℝ)
    (search_radius_miles : ℝ := 10) (expand_radius_miles : ℝ := 25) (limit : ℕ := 10)
    (prev_stop_lat : Option ℝ := none) (prev_stop_lon : Option ℝ := none)
    (is_last_stop : Bool := false) (return_home : Bool := true) : ResolvedPlace :=
  if ¬ settings.has_home_location then
    { query := query, selected := none, candidates := []
      decision := ResolutionDecision.no_match
      decision_reason := "Home location not set" }
  else
    let home_lat := settings.home_lat.getD 0
    let home_lon := settings.home_lon.getD 0
    -- location context; an exception inside the helper yields ("", "")
    let cityState :=
      if env.geminiAvailable then
        match settings.home_address with
        | some addr => env.extractLocation addr
        | none => ("", "")
      else ("", "")
    let user_city := cityState.1
    let user_state := cityState.2
    -- Tier 1: OSM search, expanded radius, then plain geocoding
    let c1 := env.searchNearby query home_lat home_lon (search_radius_miles / 0.621371) limit
    let c2 :=
      if c1.isEmpty then
        env.searchNearby query home_lat home_lon (expand_radius_miles / 0.621371) limit
      else c1
    let c3 :=
      if c2.isEmpty then
        match env.geocodeAddress query with
        | some r => [r]
        | none => []
      else c2
    let c4 := filter_osm_results c3 home_lat home_lon expand_radius_miles
    -- Tier 2: Google Places
    let c5 :=
      if env.googleAvailable ∧ should_use_google_places query c4 then
        match env.googleSearch query home_lat home_lon expand_radius_miles with
        | some g => g :: c4
        | none => c4
      else c4
    -- Tier 3: Gemini validation and reorder
    let llm :=
      if env.geminiAvailable ∧ ¬ c5.isEmpty ∧ user_city ≠ "" ∧ user_state ≠ "" then
        env.llmValidate query c5 user_city user_state expand_radius_miles
      else none
    let c6 :=
      match llm with
      | some v =>
        match v.best_index with
        | some bi =>
          if 0 ≤ bi ∧ bi < (c5.length : ℤ) then
            moveToFront c5 bi.toNat { name := "", address := "", lat := 0, lon := 0 }
          else c5
        | none => c5
      | none => c5
    -- Tier 4: Tavily web search
    let c7 :=
      if env.geminiAvailable ∧ env.tavilyAvailable ∧ should_use_web_search c6 llm then
        if user_city ≠ "" ∧ user_state ≠ "" then
          match env.tavilySearch query user_city user_state with
          | some t => t :: c6
          | none => c6
        else c6
      else c6
    resolveFinish env query home_lat home_lon limit prev_stop_lat prev_stop_lon
      is_last_stop return_home llm c7

/-- Source `resolver.select_candidate`.  The mutation of the shared candidate
object is modelled by updating it both in `selected` and in the list. -/
noncomputable def select_candidate (resolved : ResolvedPlace) (candidate_index : ℤ) :
    ResolvedPlace :=
  if candidate_index < 0 ∨ (resolved.candidates.length : ℤ) ≤ candidate_index then resolved
  else
    let i := candidate_index.toNat
    match resolved.candidates.get? i with
    | none => resolved
    | some cand =>
      let sel := { cand with selection_reason := some SelectionReason.user_selected }
      { query := resolved.query
        selected := some sel
        candidates := resolved.candidates.set i sel
        decision := ResolutionDecision.user_selected
        decision_reason := "User selected" }

end ResolverSection

/-! ### Scheduler (`services/planner.py`, with `services/tasks.py` helpers)

Datetimes are modelled as rational minutes on a linear time axis; a calendar
date is an integer day number, and `combine_date_time` places a wall-clock
time on a date via `1440` minutes per day.  `timedelta(minutes=m)` is
addition, `(a - b).total_seconds() / 60` is subtraction.  The weekday name
`plan_date.strftime("%a")` is an oracle parameter.  Database state
(`db.get_fixed_blocks`, `db.get_tasks(status="todo")`) is passed explicitly,
and `routing.get_route` is the `route` oracle.  The `db.save_*` calls have no
effect on the returned `PlanResult` and are not modelled; neither is the
string rendering of suggestions (kept as structured values). -/

/-- A wall-clock time (hour, minute), the result of `parse_time`. -/
structure TimeHM where
  hour : ℕ
  minute : ℕ
deriving DecidableEq

/-- Python `int` on a string of decimal digits. -/
def digitsToNat (cs : List Char) : ℕ :=
  cs.foldl (fun acc c => acc * 10 + (c.toNat - 48)) 0

/-- Source `planner.parse_time`: `time_str.split(":")` and `int(...)` on the
two parts.  (On malformed input Python `int` would raise; the model defaults
to 0, no claim involves malformed time strings.) -/
def parse_time (s : String) : TimeHM :=
  let parts := s.data.splitOn ':'
  { hour := digitsToNat (parts.getD 0 [])
    minute := digitsToNat (parts.getD 1 []) }

/-- Source `planner.combine_date_time`: minutes on the global time axis. -/
def combine_date_time (d : ℤ) (t : TimeHM) : ℚ :=
  (d : ℚ) * 1440 + (t.hour : ℚ) * 60 + (t.minute : ℚ)

/-- Source `planner.TimeWindow`. -/
structure TimeWindow where
  start : ℚ
  endT : ℚ
deriving DecidableEq

/-- Source `TimeWindow.duration_minutes`. -/
def TimeWindow.duration_minutes (w : TimeWindow) : ℚ :=
  w.endT - w.start

/-- Source `TimeWindow.overlaps` (strict half-open interval overlap). -/
def TimeWindow.overlapsW (w other : TimeWindow) : Prop :=
  w.start < other.endT ∧ other.start < w.endT

/-- Overlap of windows is decidable. -/
instance (w other : TimeWindow) : Decidable (w.overlapsW other) := by
  unfold TimeWindow.overlapsW
  exact inferInstance

/-- Source `models.Task` (scheduler view, over `ℚ`; persistence-only fields
`status`, `notes`, `place_id`, packing fields and timestamps are omitted,
UUIDs are modelled as naturals). -/
structure Task where
  id : ℕ
  title : String
  category : String := "errand"
  priority : ℤ := 2
  duration_minutes : ℤ := 30
  due_date : Option ℤ := none
  earliest_start : Option ℚ := none
  latest_end : Option ℚ := none
  location_name : Option String := none
  address : Option String := none
  lat : Option ℚ := none
  lon : Option ℚ := none
  open_time_local : Option String := none
  close_time_local : Option String := none
  days_open : Option String := none
deriving DecidableEq

/-- Source `Task.has_location`. -/
def Task.has_location (t : Task) : Bool :=
  t.lat.isSome && t.lon.isSome

/-- Source `Task.is_location_based`. -/
def Task.is_location_based (t : Task) : Bool :=
  t.category ∈ ["errand", "appointment", "shopping", "health", "financial"]

/-- Source `models.FixedBlock` (UUID as ℕ, `notes` omitted). -/
structure FixedBlock where
  id : ℕ
  date : ℤ
  start_dt : ℚ
  endT_dt : ℚ
  title : String
deriving DecidableEq

/-- Source `models.OverflowTask`. -/
structure OverflowTask where
  task : Task
  reason : String
deriving DecidableEq

/-- Source `tasks.get_tasks_for_date` applied to the db's todo tasks;
`day_name` is the oracle for `plan_date.strftime("%a")`. -/
def get_tasks_for_date (all_todo : List Task) (plan_date : ℤ) (day_name : String) : List Task :=
  all_todo.filter fun task =>
    (match task.due_date with
      | some d => decide (¬ d < plan_date)
      | none => true)
    && (match task.days_open with
      | some s =>
        if s = "" then true
        else decide (day_name ∈ (s.splitOn ",").map String.trim)
      | none => true)

/-- Source `tasks.get_location_based_tasks`. -/
def get_location_based_tasks (tasks : List Task) : List Task :=
  tasks.filter fun t => t.has_location && t.is_location_based

/-- Source `tasks.get_home_based_tasks`. -/
def get_home_based_tasks (tasks : List Task) : List Task :=
  tasks.filter fun t => !t.is_location_based || !t.has_location

/-- Source `db.get_fixed_blocks(date_filter=plan_date)`: filter by date,
ordered by start. -/
def get_fixed_blocks_for_date (db_blocks : List FixedBlock) (plan_date : ℤ) : List FixedBlock :=
  (db_blocks.filter fun b => b.date = plan_date).insertionSort fun a b => a.start_dt ≤ b.start_dt

/-- Source `planner.get_task_feasible_window`. -/
def get_task_feasible_window (task : Task) (plan_date : ℤ) (work_start work_end : TimeHM) :
    Option TimeWindow :=
  let window_start := combine_date_time plan_date work_start
  let window_end := combine_date_time plan_date work_end
  let window_start :=
    match task.open_time_local with
    | some s => if s = "" then window_start
        else max window_start (combine_date_time plan_date (parse_time s))
    | none => window_start
  let window_end :=
    match task.close_time_local with
    | some s => if s = "" then window_end
        else min window_end (combine_date_time plan_date (parse_time s))
    | none => window_end
  let window_start :=
    match task.earliest_start with
    | some e => max window_start e
    | none => window_start
  let window_end :=
    match task.latest_end with
    | some e => min window_end e
    | none => window_end
  if window_end ≤ window_start then none
  else if window_end - window_start < (task.duration_minutes : ℚ) then none
  else some { start := window_start, endT := window_end }

/-- Source `planner.calculate_priority_score`. -/
def calculate_priority_score (task : Task) (plan_date : ℤ) : ℚ :=
  ((task.priority * 10 : ℤ) : ℚ) +
    match task.due_date with
    | some due =>
      let days := due - plan_date
      if days ≤ 0 then 100 else if days = 1 then 50 else if days ≤ 3 then 20 else 0
    | none => 0

/-- Source `planner.ScheduledItem` (the Python field `end` is a Lean keyword
and is called `endT` here). -/
structure ScheduledItem where
  type : String
  start : ℚ
  endT : ℚ
  title : String
  task : Option Task := none
  from_place : Option String := none
  to_place : Option String := none
  distance_km : Option ℚ := none
  travel_minutes : Option ℤ := none
  lat : Option ℚ := none
  lon : Option ℚ := none
deriving DecidableEq

/-- Default item used for (unreachable) out-of-range list accesses. -/
def defaultItem : ScheduledItem :=
  { type := "", start := 0, endT := 0, title := "" }

/-- Default task used for (unreachable) `Option.getD` eliminations. -/
def defaultTask : Task :=
  { id := 0, title := "" }

/-- Python `a or b` on optional strings (both `None` and `""` are falsy). -/
def pyOrStr (a b : Option String) : Option String :=
  match a with
  | some s => if s = "" then b else some s
  | none => b

/-- Python f-string rendering of an optional string (`None` prints as
"None"). -/
def strOfOptStr (o : Option String) : String :=
  o.getD "None"

/-- Structured model of the suggestion strings produced by
`generate_suggestions` (time formatting is not modelled). -/
inductive Suggestion where
  | leaveEarlier (minutes : ℤ) (newStart : ℚ)
  | extendReturn (minutes : ℤ) (newEnd : ℚ)
  | dropTask (title : String) (priority : ℤ) (timeSaved : ℤ)
  | reduceLong (titles : List String)
  | closerLocation (title : String) (travelMinutes : ℤ)
deriving DecidableEq

/-- Structured model of the plan's `assumptions_json` blob. -/
structure Assumptions where
  work_start : String
  work_end : String
  return_home : Bool
  home_address : Option String
deriving DecidableEq

/-- Source `models.Plan` (id/generated_at omitted). -/
structure Plan where
  plan_date : ℤ
  assumptions : Assumptions
deriving DecidableEq

/-- Source `planner.PlanResult`. -/
structure PlanResult where
  plan : Plan
  items : List ScheduledItem
  overflow : List OverflowTask
  total_travel_km : ℚ
  total_travel_minutes : ℚ
  fits_in_window : Bool
  schedule_end_time : Option ℚ
  window_end_time : Option ℚ
  window_start_time : Option ℚ
  overtime_minutes : ℚ
  buffer_minutes : ℚ
  suggestions : List Suggestion
deriving DecidableEq

/-- The routing oracle used by the scheduler (`routing.get_route`, network
and cache folded into one deterministic response per coordinate pair). -/
def RouteOracle : Type :=
  ℚ → ℚ → ℚ → ℚ → RouteResult ℚ

/-- Source `planner.generate_suggestions`. -/
def generate_suggestions (scheduled : List ScheduledItem) (window_start window_end : ℚ)
    (overtime_mins : ℚ) : List Suggestion :=
  let s1 :=
    if overtime_mins ≤ 60 then
      let m : ℤ := ⌈overtime_mins / 15⌉ * 15
      [Suggestion.leaveEarlier m (window_start - (m : ℚ))]
    else []
  let s2 :=
    if overtime_mins ≤ 60 then
      let m : ℤ := ⌈overtime_mins / 15⌉ * 15
      [Suggestion.extendReturn m (window_end + (m : ℚ))]
    else []
  let scheduled_tasks := scheduled.filter fun item => item.type = "task" ∧ item.task.isSome
  let task_savings := scheduled_tasks.map fun item =>
    let t := item.task.getD defaultTask
    let idx := scheduled.findIdx fun it => it = item
    let fromPrev :=
      if 0 < idx ∧ (scheduled.getD (idx - 1) defaultItem).type = "travel" then
        ((scheduled.getD (idx - 1) defaultItem).travel_minutes).getD 0
      else 0
    let fromNext :=
      if idx < scheduled.length - 1 ∧ (scheduled.getD (idx + 1) defaultItem).type = "travel" then
        ((scheduled.getD (idx + 1) defaultItem).travel_minutes).getD 0
      else 0
    (t, t.duration_minutes + fromPrev + fromNext)
  let task_savings := task_savings.insertionSort fun a b =>
    a.1.priority < b.1.priority ∨ (a.1.priority = b.1.priority ∧ b.2 ≤ a.2)
  let s3 := task_savings.filterMap fun ts =>
    if overtime_mins * (7 / 10) ≤ (ts.2 : ℚ) then
      some (Suggestion.dropTask ts.1.title ts.1.priority ts.2)
    else none
  let long_tasks := scheduled_tasks.filter fun item =>
    30 < (item.task.getD defaultTask).duration_minutes
  let s4 :=
    if long_tasks.isEmpty then []
    else [Suggestion.reduceLong ((long_tasks.take 3).map fun it => (it.task.getD defaultTask).title)]
  let long_travels := ((List.range scheduled.length).drop 1).filterMap fun i =>
    let prev := scheduled.getD (i - 1) defaultItem
    let cur := scheduled.getD i defaultItem
    if cur.type = "task" ∧ prev.type = "travel" ∧ 15 < prev.travel_minutes.getD 0 then
      some (prev, cur)
    else none
  let s5 := (long_travels.take 2).map fun pc =>
    Suggestion.closerLocation pc.2.title (pc.1.travel_minutes.getD 0)
  (s1 ++ s2 ++ s3 ++ s4 ++ s5).take 5

/-- The candidate recorded by the greedy scan (`best_task`,
`best_arrival_time`, `best_travel_time`, `best_travel_km`, `best_score`). -/
structure BestChoice where
  task : Task
  score : ℚ
  arrival : ℚ
  travel_minutes : ℚ
  travel_km : ℚ

/-- State of the greedy insertion loop. -/
structure GreedyState where
  scheduled : List ScheduledItem
  current_time : ℚ
  current_lat : ℚ
  current_lon : ℚ
  current_place : Option String
  scheduled_ids : List ℕ
  total_km : ℚ
  total_min : ℚ

/-- Insert-or-replace into the `errand_windows` dict (keyed by task id). -/
def upsertWindow (l : List (ℕ × TimeWindow)) (k : ℕ) (w : TimeWindow) : List (ℕ × TimeWindow) :=
  if l.any fun p => p.1 = k then l.map fun p => if p.1 = k then (k, w) else p
  else l ++ [(k, w)]

/-- Dict lookup for `errand_windows`. -/
def lookupWindow (l : List (ℕ × TimeWindow)) (k : ℕ) : Option TimeWindow :=
  (l.find? fun p => p.1 = k).map Prod.snd

/-- The feasibility pre-pass of `generate_plan`: feasible windows per errand
id, plus the initial overflow entries. -/
def errandPrepass (errand_tasks : List Task) (plan_date : ℤ) (work_start work_end : TimeHM) :
    List (ℕ × TimeWindow) × List OverflowTask :=
  errand_tasks.foldl
    (fun acc task =>
      if ¬ task.has_location then
        (acc.1, acc.2 ++ [{ task := task, reason := "Missing location" }])
      else
        match get_task_feasible_window task plan_date work_start work_end with
        | some w => (upsertWindow acc.1 task.id w, acc.2)
        | none => (acc.1, acc.2 ++ [{ task := task, reason := "No feasible time window" }]))
    ([], [])

/-- The `for task in errand_tasks` scan inside the greedy loop: the feasible
errand with the highest score (strict improvement, so the earliest such task
wins ties). -/
def findBestStep (route : RouteOracle) (plan_date : ℤ) (day_end : ℚ)
    (fixed_blocks : List FixedBlock) (windows : List (ℕ × TimeWindow)) (s : GreedyState)
    (acc : Option BestChoice) (task : Task) : Option BestChoice :=
  if task.id ∈ s.scheduled_ids then acc
  else
    match lookupWindow windows task.id with
    | none => acc
    | some w =>
      let r := route s.current_lat s.current_lon (task.lat.getD 0) (task.lon.getD 0)
      let travel_minutes := r.duration_minutes
      let arrival_time := s.current_time + travel_minutes
      if w.endT < arrival_time then acc
      else
        let actual_start := max arrival_time w.start
        let task_end := actual_start + (task.duration_minutes : ℚ)
        if w.endT < task_end then acc
        else if day_end < task_end then acc
        else
          let tw : TimeWindow := { start := actual_start, endT := task_end }
          let conflict :=
            (fixed_blocks.any fun block =>
              tw.overlapsW { start := block.start_dt, endT := block.endT_dt })
            ∨ (s.scheduled.any fun item =>
              tw.overlapsW { start := item.start, endT := item.endT })
          if conflict then acc
          else
            let score := calculate_priority_score task plan_date - travel_minutes * 2
            let cand : BestChoice :=
              { task := task
                score := score
                arrival := arrival_time
                travel_minutes := travel_minutes
                travel_km := r.distance_km }
            match acc with
            | none => some cand
            | some b => if b.score < score then some cand else acc

/-- The `for task in errand_tasks` scan inside the greedy loop, as a fold of
the step above. -/
def findBest (route : RouteOracle) (plan_date : ℤ) (day_end : ℚ)
    (fixed_blocks : List FixedBlock) (windows : List (ℕ × TimeWindow))
    (errand_tasks : List Task) (s : GreedyState) : Option BestChoice :=
  errand_tasks.foldl (findBestStep route plan_date day_end fixed_blocks windows s) none

/-- Commit the chosen errand: append travel / wait / task items and advance
the state. -/
def applyBest (windows : List (ℕ × TimeWindow)) (s : GreedyState) (best : BestChoice) :
    GreedyState :=
  let w := (lookupWindow windows best.task.id).getD { start := 0, endT := 0 }
  let actual_start := max best.arrival w.start
  let toName := pyOrStr best.task.location_name best.task.address
  let s1 :=
    if 0 < best.travel_minutes then
      { s with
        scheduled := s.scheduled ++
          [{ type := "travel", start := s.current_time, endT := best.arrival
             title := "Drive to " ++ strOfOptStr toName
             from_place := s.current_place, to_place := toName
             distance_km := some best.travel_km
             travel_minutes := some (pyInt best.travel_minutes) }]
        total_km := s.total_km + best.travel_km
        total_min := s.total_min + best.travel_minutes }
    else s
  let s2 :=
    if best.arrival < actual_start then
      { s1 with
        scheduled := s1.scheduled ++
          [{ type := "break", start := best.arrival, endT := actual_start
             title := "Wait for " ++ strOfOptStr (pyOrStr best.task.location_name (some "location"))
               ++ " to open" }] }
    else s1
  let task_end := actual_start + (best.task.duration_minutes : ℚ)
  { s2 with
    scheduled := s2.scheduled ++
      [{ type := "task", start := actual_start, endT := task_end
         title := best.task.title, task := some best.task
         lat := best.task.lat, lon := best.task.lon }]
    current_time := task_end
    current_lat := best.task.lat.getD 0
    current_lon := best.task.lon.getD 0
    current_place := toName
    scheduled_ids := s.scheduled_ids ++ [best.task.id] }

/-- The `while True` greedy loop; each accepted errand adds a fresh id to
`scheduled_ids`, so `errand_tasks.length` iterations of fuel always reach the
no-candidate exit. -/
def greedyLoop (route : RouteOracle) (plan_date : ℤ) (day_end : ℚ)
    (fixed_blocks : List FixedBlock) (windows : List (ℕ × TimeWindow))
    (errand_tasks : List Task) : ℕ → GreedyState → GreedyState
  | 0, s => s
  | fuel + 1, s =>
    match findBest route plan_date day_end fixed_blocks windows errand_tasks s with
    | none => s
    | some best =>
      greedyLoop route plan_date day_end fixed_blocks windows errand_tasks fuel
        (applyBest windows s best)

/-- Merge overlapping busy windows (the `merged_busy` fold of
`generate_plan`), input sorted by start. -/
def mergeStep (m : List TimeWindow) (w : TimeWindow) : List TimeWindow :=
  match m.getLast? with
  | some lst =>
    if w.start ≤ lst.endT then
      m.dropLast ++ [{ start := lst.start, endT := max lst.endT w.endT }]
    else m ++ [w]
  | none => [w]

/-- Merge overlapping busy windows (the `merged_busy` fold of
`generate_plan`), input sorted by start. -/
def mergeBusy (ws : List TimeWindow) : List TimeWindow :=
  ws.foldl mergeStep []

/-- Free gaps of the day around the merged busy windows. -/
def gapStep (acc : List TimeWindow × ℚ) (busy : TimeWindow) : List TimeWindow × ℚ :=
  let acc1 := if acc.2 < busy.start then acc.1 ++ [{ start := acc.2, endT := busy.start }]
    else acc.1
  (acc1, max acc.2 busy.endT)

/-- Free gaps of the day around the merged busy windows. -/
def freeGaps (day_start day_end : ℚ) (merged : List TimeWindow) : List TimeWindow :=
  let step := merged.foldl gapStep ([], day_start)
  if step.2 < day_end then step.1 ++ [{ start := step.2, endT := day_end }]
  else step.1

/-- Encoding of the sort key `(due_date or date.max, -priority)`: dated tasks
come before undated ones, then by date. -/
def dueKey (t : Task) : ℤ × ℤ :=
  match t.due_date with
  | some d => (0, d)
  | none => (1, 0)

/-- Sort key order for home tasks: `(due_date or date.max, -priority)`
ascending (lexicographic). -/
def homeTaskLE (t1 t2 : Task) : Prop :=
  (dueKey t1).1 < (dueKey t2).1
    ∨ ((dueKey t1).1 = (dueKey t2).1
      ∧ ((dueKey t1).2 < (dueKey t2).2
        ∨ ((dueKey t1).2 = (dueKey t2).2 ∧ t2.priority ≤ t1.priority)))

/-- The home-task order is decidable. -/
instance (t1 t2 : Task) : Decidable (homeTaskLE t1 t2) := by
  unfold homeTaskLE
  exact inferInstance

/-- State of the home-task backfill fold. -/
structure HomeState where
  gaps : List TimeWindow
  scheduled : List ScheduledItem
  scheduled_ids : List ℕ
  overflow : List OverflowTask

/-- Place one home task in the earliest gap wide enough, shrinking or
consuming the gap (`free_gaps.remove(gap)` removes the first value-equal gap,
which is the found one: the gap list never contains duplicates). -/
def placeHomeTask (home_lat home_lon : Option ℚ) (hs : HomeState) (task : Task) : HomeState :=
  match hs.gaps.findIdx? fun gap => (task.duration_minutes : ℚ) ≤ gap.duration_minutes with
  | some gi =>
    let gap := hs.gaps.getD gi { start := 0, endT := 0 }
    let task_start := gap.start
    let task_end := task_start + (task.duration_minutes : ℚ)
    { gaps :=
        if task_end < gap.endT then hs.gaps.set gi { start := task_end, endT := gap.endT }
        else hs.gaps.eraseIdx gi
      scheduled := hs.scheduled ++
        [{ type := "task", start := task_start, endT := task_end
           title := task.title, task := some task, lat := home_lat, lon := home_lon }]
      scheduled_ids := hs.scheduled_ids ++ [task.id]
      overflow := hs.overflow }
  | none =>
    if task.id ∈ hs.scheduled_ids then hs
    else
      { hs with overflow := hs.overflow ++ [{ task := task, reason := "No free time slot available" }] }

/-- Source `planner.generate_plan`.  Raising `ValueError` is modelled by the
`Except.error` branch. -/
def generate_plan (plan_date : ℤ) (settings : Settings ℚ) (return_home : Bool)
    (day_name : String) (db_fixed_blocks : List FixedBlock) (db_todo_tasks : List Task)
    (route : RouteOracle) : Except String PlanResult :=
  if ¬ settings.has_home_location then Except.error "Home location not set"
  else
    let work_start := parse_time settings.default_work_start
    let work_end := parse_time settings.default_work_end
    let day_start := combine_date_time plan_date work_start
    let day_end := combine_date_time plan_date work_end
    let fixed_blocks := get_fixed_blocks_for_date db_fixed_blocks plan_date
    let all_tasks := get_tasks_for_date db_todo_tasks plan_date day_name
    let errand_tasks := get_location_based_tasks all_tasks
    let home_tasks := get_home_based_tasks all_tasks
    let fixed_items := fixed_blocks.map fun block =>
      ({ type := "fixed", start := block.start_dt, endT := block.endT_dt
         title := block.title } : ScheduledItem)
    let pre := errandPrepass errand_tasks plan_date work_start work_end
    let windows := pre.1
    let overflow0 := pre.2
    let s0 : GreedyState :=
      { scheduled := fixed_items
        current_time := day_start
        current_lat := settings.home_lat.getD 0
        current_lon := settings.home_lon.getD 0
        current_place := some settings.home_name
        scheduled_ids := []
        total_km := 0
        total_min := 0 }
    let s1 := greedyLoop route plan_date day_end fixed_blocks windows errand_tasks
      (errand_tasks.length + 1) s0
    let overflow1 := overflow0 ++
      (errand_tasks.filter fun task =>
        task.id ∉ s1.scheduled_ids ∧ (lookupWindow windows task.id).isSome).map
        fun task => { task := task, reason := "Insufficient time in schedule" }
    let s2 :=
      if return_home
          ∧ (s1.current_lat ≠ settings.home_lat.getD 0 ∨ s1.current_lon ≠ settings.home_lon.getD 0)
          ∧ s1.current_time < day_end then
        let r := route s1.current_lat s1.current_lon (settings.home_lat.getD 0)
          (settings.home_lon.getD 0)
        let travel_end := s1.current_time + r.duration_minutes
        { s1 with
          scheduled := s1.scheduled ++
            [{ type := "travel", start := s1.current_time, endT := travel_end
               title := "Return to " ++ settings.home_name
               from_place := s1.current_place, to_place := some settings.home_name
               distance_km := some r.distance_km
               travel_minutes := some (pyInt r.duration_minutes) }]
          total_km := s1.total_km + r.distance_km
          total_min := s1.total_min + r.duration_minutes
          current_time := travel_end }
      else s1
    let all_busy := (s2.scheduled.map fun item => ({ start := item.start, endT := item.endT } :
      TimeWindow)).insertionSort fun a b => a.start ≤ b.start
    let merged := mergeBusy all_busy
    let gaps := freeGaps day_start day_end merged
    let home_sorted := home_tasks.insertionSort homeTaskLE
    let hs := home_sorted.foldl (placeHomeTask settings.home_lat settings.home_lon)
      { gaps := gaps, scheduled := s2.scheduled, scheduled_ids := s2.scheduled_ids
        overflow := overflow1 }
    let items := hs.scheduled.insertionSort fun a b => a.start ≤ b.start
    let plan : Plan :=
      { plan_date := plan_date
        assumptions :=
          { work_start := settings.default_work_start
            work_end := settings.default_work_end
            return_home := return_home
            home_address := settings.home_address } }
    let schedule_end_time := (items.map fun item => item.endT).max?
    let fitsData : Bool × ℚ × ℚ :=
      match schedule_end_time with
      | some se =>
        if day_end < se then (false, se - day_end, 0)
        else (true, 0, day_end - se)
      | none => (true, 0, 0)
    let suggestions :=
      if fitsData.1 then []
      else generate_suggestions items day_start day_end fitsData.2.1
    Except.ok
      { plan := plan
        items := items
        overflow := hs.overflow
        total_travel_km := roundTo 2 s2.total_km
        total_travel_minutes := roundTo 1 s2.total_min
        fits_in_window := fitsData.1
        schedule_end_time := schedule_end_time
        window_end_time := some day_end
        window_start_time := some day_start
        overtime_minutes := roundTo 1 fitsData.2.1
        buffer_minutes := roundTo 1 fitsData.2.2
        suggestions := suggestions }

/-! ### Definitions used only to state claims -/

/-- The invariant of claim C6 on a `ResolvedPlace`. -/
def ResolvedInvariant (r : ResolvedPlace) : Prop :=
  (r.is_resolved = true ↔
    (r.decision = ResolutionDecision.auto_best ∨ r.decision = ResolutionDecision.user_selected))
  ∧ (r.needs_disambiguation = true ↔ r.decision = ResolutionDecision.pending)
  ∧ (r.is_resolved = true → ∃ c, r.selected = some c ∧ c ∈ r.candidates)

/-- Claim C8's reading of the cache key: derived from the four coordinates
after rounding to `p` decimal digits, i.e. requests that agree after rounding
share a key. -/
def RoundedKeyProp (p : ℕ) : Prop :=
  ∀ a b c d a' b' c' d' : ℝ,
    roundTo p a = roundTo p a' → roundTo p b = roundTo p b' →
    roundTo p c = roundTo p c' → roundTo p d = roundTo p d' →
    routeCacheKeyContent a b c d = routeCacheKeyContent a' b' c' d'

/-- Overlap of two scheduled items' half-open `[start, end)` intervals. -/
def itemOverlap (a b : ScheduledItem) : Prop :=
  a.start < b.endT ∧ b.start < a.endT

/-- The only overlaps `generate_plan` can produce: a fixed block against an
unchecked travel or wait segment. -/
def fixedTravelPair (a b : ScheduledItem) : Prop :=
  (a.type = "fixed" ∧ (b.type = "travel" ∨ b.type = "break"))
    ∨ (b.type = "fixed" ∧ (a.type = "travel" ∨ a.type = "break"))

/-- Disjointness of two time windows. -/
def winDisj (w1 w2 : TimeWindow) : Prop :=
  w1.endT ≤ w2.start ∨ w2.endT ≤ w1.start

def overlapOK (a b : ScheduledItem) : Prop :=
  itemOverlap a b → fixedTravelPair a b

def GoodState (s : GreedyState) : Prop :=
  (∀ i ∈ s.scheduled, i.start ≤ i.endT)
  ∧ (∀ i ∈ s.scheduled, i.type ≠ "fixed" → i.endT ≤ s.current_time)
  ∧ s.scheduled.Pairwise overlapOK

def blockDisj (b1 b2 : FixedBlock) : Prop :=
  b1.endT_dt ≤ b2.start_dt ∨ b2.endT_dt ≤ b1.start_dt

def CandOK (route : RouteOracle) (windows : List (ℕ × TimeWindow)) (F : List FixedBlock)
    (E : List Task) (s : GreedyState) (b : BestChoice) : Prop :=
  b.task ∈ E
  ∧ b.travel_minutes =
      (route s.current_lat s.current_lon (b.task.lat.getD 0) (b.task.lon.getD 0)).duration_minutes
  ∧ b.arrival = s.current_time + b.travel_minutes
  ∧ ∃ w, lookupWindow windows b.task.id = some w
      ∧ (∀ bl ∈ F, ¬ TimeWindow.overlapsW
          { start := max b.arrival w.start
            endT := max b.arrival w.start + (b.task.duration_minutes : ℚ) }
          { start := bl.start_dt, endT := bl.endT_dt })
      ∧ (∀ it ∈ s.scheduled, ¬ TimeWindow.overlapsW
          { start := max b.arrival w.start
            endT := max b.arrival w.start + (b.task.duration_minutes : ℚ) }
          { start := it.start, endT := it.endT })

def HGood (hs : HomeState) : Prop :=
  (∀ i ∈ hs.scheduled, i.start ≤ i.endT)
  ∧ hs.scheduled.Pairwise overlapOK
  ∧ (∀ g ∈ hs.gaps, ∀ i ∈ hs.scheduled, i.endT ≤ g.start ∨ g.endT ≤ i.start)
  ∧ hs.gaps.Pairwise winDisj

instance : IsTotal ScheduledItem (fun a b => a.start ≤ b.start) :=
  ⟨fun _ _ => le_total _ _⟩

instance : IsTrans ScheduledItem (fun a b => a.start ≤ b.start) :=
  ⟨fun _ _ _ h1 h2 => le_trans h1 h2⟩

instance : IsTotal TimeWindow (fun a b => a.start ≤ b.start) :=
  ⟨fun _ _ => le_total _ _⟩

instance : IsTrans TimeWindow (fun a b => a.start ≤ b.start) :=
  ⟨fun _ _ _ h1 h2 => le_trans h1 h2⟩

def cxSettings : Settings ℚ :=
  { home_name := "Home", home_address := none, home_lat := some 0, home_lon := some 0
    default_work_start := "09:00", default_work_end := "17:00" }

def cxBlock : FixedBlock :=
  { id := 1, date := 0, start_dt := 540, endT_dt := 600, title := "Meeting" }

def cxTask : Task :=
  { id := 1, title := "Errand", lat := some 1, lon := some 1, location_name := some "Shop" }

def cxRoute : RouteOracle := fun a b c d =>
  { origin_lat := a, origin_lon := b, dest_lat := c, dest_lon := d
    distance_km := 10, duration_minutes := 90, geometry := none, source := "fallback" }

def cxFixedItem : ScheduledItem :=
  { type := "fixed", start := 540, endT := 600, title := "Meeting" }

def cxTravel1 : ScheduledItem :=
  { type := "travel", start := 540, endT := 630, title := "Drive to Shop"
    from_place := some "Home", to_place := some "Shop"
    distance_km := some 10, travel_minutes := some 90 }

def cxTaskItem : ScheduledItem :=
  { type := "task", start := 630, endT := 660, title := "Errand", task := some cxTask
    lat := some 1, lon := some 1 }

def cxTravel2 : ScheduledItem :=
  { type := "travel", start := 660, endT := 750, title := "Return to Home"
    from_place := some "Shop", to_place := some "Home"
    distance_km := some 10, travel_minutes := some 90 }

def cxS0 : GreedyState :=
  { scheduled := [cxFixedItem], current_time := 540, current_lat := 0, current_lon := 0
    current_place := some "Home", scheduled_ids := [], total_km := 0, total_min := 0 }

def cxS1 : GreedyState :=
  { scheduled := [cxFixedItem, cxTravel1, cxTaskItem], current_time := 660
    current_lat := 1, current_lon := 1, current_place := some "Shop"
    scheduled_ids := [1], total_km := 10, total_min := 90 }

/-- A resolver environment with no provider results, used to instantiate
universally quantified theorems at a concrete input. -/
noncomputable def trivialEnv : ResolverEnv :=
  { geminiAvailable := false
    googleAvailable := false
    tavilyAvailable := false
    extractLocation := fun _ => ("", "")
    searchNearby := fun _ _ _ _ _ => []
    geocodeAddress := fun _ => none
    googleSearch := fun _ _ _ _ => none
    llmValidate := fun _ _ _ _ _ => none
    tavilySearch := fun _ _ _ => none
    fuzz := { fullScore := fun _ _ => 0, partScore := fun _ _ => 0
              tokenSortScore := fun _ _ => 0, tokenSetScore := fun _ _ => 0 }
    floatRepr := fun _ => "" }

/-! ## Theorems -/

section UrlTheorems

/-- A zero coordinate never survives the waypoint filter. -/
theorem validWaypoints_no_zero (wps : List (Option ℚ × Option ℚ)) (x y : ℚ)
    (hxy : x = 0 ∨ y = 0) : (x, y) ∉ validWaypoints wps := by
  intro hmem
  unfold validWaypoints at hmem
  simp only [List.mem_filterMap] at hmem
  obtain ⟨p, _, hp⟩ := hmem
  rcases p with ⟨pa, pb⟩
  cases pa with
  | none => simp at hp
  | some a =>
    cases pb with
    | none => simp at hp
    | some b =>
      simp only at hp
      split at hp
      · rename_i hcond
        cases hp
        rcases hxy with h0 | h0 <;> simp_all
      · simp at hp

/-- The URL is assembled from `validWaypoints` only. -/
theorem build_url_waypoints_sub (origin_lat origin_lon : ℚ)
    (wps : List (Option ℚ × Option ℚ)) (dl dl' : Option ℚ) (rh : Bool) (u : MapsUrl)
    (h : build_google_maps_url origin_lat origin_lon wps dl dl' rh = some u) :
    ∀ w ∈ u.waypoints, w ∈ validWaypoints wps := by
  unfold build_google_maps_url at h
  by_cases he : (validWaypoints wps).isEmpty
  · simp [he] at h
  · simp only [he, if_neg, Bool.false_eq_true, not_false_iff] at h
    rcases dl with _ | dlat <;> rcases dl' with _ | dlon <;>
      simp only at h <;>
      first
      | (rcases rh with _ | _ <;> simp only [if_true, if_false, Bool.false_eq_true] at h <;>
          cases h <;> intro w hw <;>
          first
          | exact hw
          | exact List.dropLast_subset _ hw)
      | (cases h; intro w hw; exact hw)

end UrlTheorems

/-- C10: build_google_maps_url excludes every waypoint with a zero (falsy)
latitude or longitude — not only waypoints with a null component — and on a
list whose every entry has a zero latitude or longitude it returns null. -/
theorem C10_url_zero_waypoints :
    (∀ (wps : List (Option ℚ × Option ℚ)) (x y : ℚ), x = 0 ∨ y = 0 →
      (x, y) ∉ validWaypoints wps)
    ∧ (∀ (olat olon : ℚ) (wps : List (Option ℚ × Option ℚ)) (dl dl' : Option ℚ)
        (rh : Bool) (u : MapsUrl),
        build_google_maps_url olat olon wps dl dl' rh = some u →
        ∀ w ∈ u.waypoints, w ∈ validWaypoints wps)
    ∧ build_google_maps_url 30.5 (-97.5) [(some 0, some 10), (some 5, some 0)]
        none none true = none := by
  refine ⟨fun wps x y h => validWaypoints_no_zero wps x y h,
    fun olat olon wps dl dl' rh u h => build_url_waypoints_sub olat olon wps dl dl' rh u h,
    ?_⟩
  decide

/-- Witness for C10 at a concrete input. -/
theorem C10_url_zero_waypoints_witness :
    (((0 : ℚ) = 0 ∨ (10 : ℚ) = 0)
      ∧ ((0 : ℚ), (10 : ℚ)) ∉ validWaypoints [(some 0, some 10)])
    ∧ build_google_maps_url 30.5 (-97.5) [(some 0, some 10), (some 5, some 0)]
        none none true = none :=
  ⟨⟨Or.inl rfl, C10_url_zero_waypoints.1 [(some 0, some 10)] 0 10 (Or.inl rfl)⟩,
    C10_url_zero_waypoints.2.2⟩

/-- C5: select_candidate leaves the ResolvedPlace unchanged on an
out-of-range index; on an in-range index it selects the i-th candidate
(whose selection reason becomes user-selected), with decision user-selected
and reason "User selected". -/
theorem C5_select_candidate (r : ResolvedPlace) (i : ℤ) :
    ((i < 0 ∨ (r.candidates.length : ℤ) ≤ i) → select_candidate r i = r)
    ∧ (∀ c, 0 ≤ i → r.candidates.get? i.toNat = some c →
        select_candidate r i =
          { query := r.query
            selected := some { c with selection_reason := some SelectionReason.user_selected }
            candidates := r.candidates.set i.toNat
              { c with selection_reason := some SelectionReason.user_selected }
            decision := ResolutionDecision.user_selected
            decision_reason := "User selected" }) := by
  constructor
  · intro h
    unfold select_candidate
    rw [if_pos h]
  · intro c hi hc
    have hlt : i.toNat < r.candidates.length := List.get?_eq_some.mp hc |>.1
    have hnot : ¬ (i < 0 ∨ (r.candidates.length : ℤ) ≤ i) := by
      push_neg
      refine ⟨by omega, ?_⟩
      omega
    unfold select_candidate
    rw [if_neg hnot]
    simp only [hc]

/-- Witness for C5 at a concrete input (a single-candidate ResolvedPlace,
index 0 in range and index 5 out of range). -/
theorem C5_select_candidate_witness :
    (((5 : ℤ) < 0 ∨ (1 : ℤ) ≤ (5 : ℤ))
      ∧ select_candidate
        { query := "q", selected := none
          candidates := [{ place := { name := "A", address := "addr", lat := 1, lon := 2 }
                           distance_miles := 3, name_similarity := 90, combined_score := 80 }]
          decision := ResolutionDecision.pending
          decision_reason := "Multiple matches found - please select" } 5 =
        { query := "q", selected := none
          candidates := [{ place := { name := "A", address := "addr", lat := 1, lon := 2 }
                           distance_miles := 3, name_similarity := 90, combined_score := 80 }]
          decision := ResolutionDecision.pending
          decision_reason := "Multiple matches found - please select" })
    ∧ ((0 : ℤ) ≤ 0
      ∧ (select_candidate
        { query := "q", selected := none
          candidates := [{ place := { name := "A", address := "addr", lat := 1, lon := 2 }
                           distance_miles := 3, name_similarity := 90, combined_score := 80 }]
          decision := ResolutionDecision.pending
          decision_reason := "Multiple matches found - please select" } 0).decision =
        ResolutionDecision.user_selected) := by
  refine ⟨⟨by omega, (C5_select_candidate _ 5).1 (by norm_num)⟩, le_refl 0, ?_⟩
  rw [(C5_select_candidate
    { query := "q", selected := none
      candidates := [{ place := { name := "A", address := "addr", lat := 1, lon := 2 }
                       distance_miles := 3, name_similarity := 90, combined_score := 80 }]
      decision := ResolutionDecision.pending
      decision_reason := "Multiple matches found - please select" } 0).2
    { place := { name := "A", address := "addr", lat := 1, lon := 2 }
      distance_miles := 3, name_similarity := 90, combined_score := 80 }
    (le_refl 0) rfl]

/-- C4 (amended): with the home coordinate unset, resolve_place returns —
without raising and without consulting any provider — the no-match
ResolvedPlace with reason "Home location not set"; the ValueError for this
precondition is raised by generate_plan instead. -/
theorem C4_no_home_behavior :
    (∀ (env : ResolverEnv) (query : String) (settings : Settings ℝ)
      (sr er : ℝ) (lim : ℕ) (pla plo : Option ℝ) (il rh : Bool),
      settings.has_home_location = false →
      resolve_place env query settings sr er lim pla plo il rh =
        { query := query, selected := none, candidates := []
          decision := ResolutionDecision.no_match
          decision_reason := "Home location not set" })
    ∧ (∀ (pd : ℤ) (settings : Settings ℚ) (rh : Bool) (dn : String)
        (fb : List FixedBlock) (ts : List Task) (route : RouteOracle),
        settings.has_home_location = false →
        generate_plan pd settings rh dn fb ts route = Except.error "Home location not set") := by
  constructor
  · intro env query settings sr er lim pla plo il rh h
    unfold resolve_place
    rw [if_pos (by simp [h])]
  · intro pd settings rh dn fb ts route h
    unfold generate_plan
    rw [if_pos (by simp [h])]

/-- Counterexample to C4 as stated: at a concrete home-less Settings the
resolver RETURNS a no-match ResolvedPlace (decision no_match, empty
candidates) — it does not raise a "home not set" error; no code path of
resolve_place raises. -/
theorem C4_counterexample :
    resolve_place trivialEnv "DMV" {} =
      { query := "DMV", selected := none, candidates := []
        decision := ResolutionDecision.no_match
        decision_reason := "Home location not set" }
    ∧ (resolve_place trivialEnv "DMV" {}).decision = ResolutionDecision.no_match := by
  have h : ({} : Settings ℝ).has_home_location = false := by
    simp [Settings.has_home_location]
  constructor
  · unfold resolve_place
    rw [if_pos (by simp [h])]
  · unfold resolve_place
    rw [if_pos (by simp [h])]

/-- Witness for C4 at a concrete input. -/
theorem C4_no_home_behavior_witness :
    (({} : Settings ℝ).has_home_location = false
      ∧ resolve_place trivialEnv "q" {} 10 25 10 none none false true =
        { query := "q", selected := none, candidates := []
          decision := ResolutionDecision.no_match
          decision_reason := "Home location not set" })
    ∧ (({} : Settings ℚ).has_home_location = false
      ∧ generate_plan 0 {} true "Mon" [] []
          (fun a b c d => { origin_lat := a, origin_lon := b, dest_lat := c, dest_lon := d
                            distance_km := 0, duration_minutes := 0, geometry := none
                            source := "fallback" }) = Except.error "Home location not set") :=
  ⟨⟨by simp [Settings.has_home_location],
    C4_no_home_behavior.1 trivialEnv "q" {} 10 25 10 none none false true
      (by simp [Settings.has_home_location])⟩,
   ⟨by simp [Settings.has_home_location],
    C4_no_home_behavior.2 0 {} true "Mon" [] [] _ (by simp [Settings.has_home_location])⟩⟩

/-- Rounding a power of ten plus a small nonnegative fraction is exact. -/
theorem round_pow_add (p : ℕ) (q : ℝ) (h0 : 0 ≤ q) (h1 : q < 1 / 2) :
    round ((10 : ℝ) ^ p + q) = 10 ^ p := by
  rw [round_eq]
  refine Int.floor_eq_iff.mpr ⟨?_, ?_⟩ <;> push_cast <;> linarith

/-- Looking up the freshly inserted key hits. -/
theorem cacheInsert_hit (c : RouteCache) (k : List ℝ) (v : RouteResult ℝ) :
    cacheInsert c k v k = some v := by
  unfold cacheInsert
  rw [if_pos rfl]

/-- C8 counterexample: the route cache key is NOT invariant under rounding
the coordinates to any fixed precision — the source hashes the raw
coordinates.  For every precision p, the requests with first coordinate 1
and 1 + 1/(10·10^p) agree after rounding to p digits yet produce different
key contents. -/
theorem C8_counterexample : ¬ ∃ p : ℕ, RoundedKeyProp p := by
  rintro ⟨p, hp⟩
  have hpow : (0 : ℝ) < 10 ^ p := by positivity
  have hround : roundTo p (1 : ℝ) = roundTo p (1 + 1 / (10 * 10 ^ p)) := by
    unfold roundTo
    have e1 : (1 : ℝ) * 10 ^ p = (10 : ℝ) ^ p + 0 := by ring
    have e2 : (1 + 1 / (10 * 10 ^ p)) * 10 ^ p = (10 : ℝ) ^ p + 1 / 10 := by
      field_simp
      ring
    rw [e1, e2, round_pow_add p 0 le_rfl (by norm_num),
      round_pow_add p (1 / 10) (by norm_num) (by norm_num)]
  have h := hp 1 0 0 0 (1 + 1 / (10 * 10 ^ p)) 0 0 0 hround rfl rfl rfl
  unfold routeCacheKeyContent at h
  have h1 : (1 : ℝ) = 1 + 1 / (10 * 10 ^ p) := by
    have := List.head_eq_of_cons_eq h
    exact this
  have : (0 : ℝ) < 1 / (10 * 10 ^ p) := by positivity
  linarith

/-- C8 (amended): every successful result is cached under a stable key of
the EXACT (unrounded) four coordinates; a second get_route request with
identical coordinates is served from the cache without consulting the
provider, whatever the provider would now answer. -/
theorem C8_exact_key_cache :
    (∀ a b c d a' b' c' d' : ℝ, a = a' → b = b' → c = c' → d = d' →
      routeCacheKeyContent a b c d = routeCacheKeyContent a' b' c' d')
    ∧ (∀ (osrm osrm' : Option (RouteResult ℝ)) (cache : RouteCache) (a b c d : ℝ),
        get_route osrm' (get_route osrm cache a b c d true).2.1 a b c d true =
          ((get_route osrm cache a b c d true).1,
            (get_route osrm cache a b c d true).2.1, false)) := by
  constructor
  · intro a b c d a' b' c' d' ha hb hc hd
    rw [ha, hb, hc, hd]
  · intro osrm osrm' cache a b c d
    cases hk : cache (routeCacheKeyContent a b c d) with
    | some cached =>
      simp [get_route, hk]
    | none =>
      simp [get_route, hk, cacheInsert_hit]

/-- Witness for C8's amended claim at a concrete input. -/
theorem C8_exact_key_cache_witness :
    ((1 : ℝ) = 1
      ∧ routeCacheKeyContent 1 2 3 4 = routeCacheKeyContent 1 2 3 4)
    ∧ get_route none ((get_route none (fun _ => none) 1 2 3 4 true).2.1) 1 2 3 4 true =
      ((get_route none (fun _ => none) 1 2 3 4 true).1,
        (get_route none (fun _ => none) 1 2 3 4 true).2.1, false) :=
  ⟨⟨rfl, C8_exact_key_cache.1 1 2 3 4 1 2 3 4 rfl rfl rfl rfl⟩,
    C8_exact_key_cache.2 none none (fun _ => none) 1 2 3 4⟩

/-- C9: when the primary (OSRM) answer is unavailable and the cache does not
hold the segment, get_route returns the fallback segment, whose distance is
the haversine distance scaled by 1.4 (rounded to 2 digits) and whose duration
in minutes is that road distance divided by the configured city speed
(default 40 km/h), times 60 (rounded to 1 digit). -/
theorem C9_fallback_route :
    (∀ (cache : RouteCache) (a b c d : ℝ),
      cache (routeCacheKeyContent a b c d) = none →
      (get_route none cache a b c d true).1 = get_route_fallback a b c d)
    ∧ (∀ (cache : RouteCache) (a b c d : ℝ),
      (get_route none cache a b c d false).1 = get_route_fallback a b c d)
    ∧ (∀ (a b c d speed : ℝ),
        (get_route_fallback a b c d speed).distance_km =
          roundTo 2 (haversine_distance a b c d * 1.4)
        ∧ (get_route_fallback a b c d speed).duration_minutes =
          roundTo 1 (haversine_distance a b c d * 1.4 / speed * 60))
    ∧ DEFAULT_CITY_SPEED_KMH = 40 := by
  refine ⟨?_, ?_, ?_, rfl⟩
  · intro cache a b c d h
    simp [get_route, h]
  · intro cache a b c d
    simp [get_route]
  · intro a b c d speed
    unfold get_route_fallback
    exact ⟨rfl, rfl⟩

/-- Witness for C9 at a concrete input (empty cache). -/
theorem C9_fallback_route_witness :
    ((fun _ => none : RouteCache) (routeCacheKeyContent 1 2 3 4) = none
      ∧ (get_route none (fun _ => none) 1 2 3 4 true).1 = get_route_fallback 1 2 3 4)
    ∧ (get_route_fallback 1 2 3 4 40).distance_km =
        roundTo 2 (haversine_distance 1 2 3 4 * 1.4) :=
  ⟨⟨rfl, C9_fallback_route.1 (fun _ => none) 1 2 3 4 rfl⟩,
    (C9_fallback_route.2.2.1 1 2 3 4 40).1⟩

/-- The haversine distance from a point to itself is zero. -/
theorem haversine_self (lat lon : ℝ) : haversine_distance lat lon lat lon = 0 := by
  unfold haversine_distance atan2
  simp only [sub_self, zero_mul, zero_div, Real.sin_zero, ne_eq, OfNat.ofNat_ne_zero,
    not_false_eq_true, zero_pow, mul_zero, add_zero, Real.sqrt_zero, sub_zero, Real.sqrt_one]
  rw [if_pos (by norm_num : (0 : ℝ) < 1)]
  simp [Real.arctan_zero]

/-- C7 (code bug): a candidate whose address explicitly mentions a foreign
country ("Canada") and which passes the distance filter SURVIVES
filter_osm_results — the country check compares the candidate's own address
on both sides (resolver.py lines 466-469) and never drops anything. -/
theorem C7_country_filter_noop :
    filter_osm_results
      [{ name := "Tim Hortons", address := "123 Main St, Toronto, Ontario, Canada"
         lat := 30.5, lon := -97.5 }] 30.5 (-97.5) 25 =
      [{ name := "Tim Hortons", address := "123 Main St, Toronto, Ontario, Canada"
         lat := 30.5, lon := -97.5 }]
    ∧ strContains (strLower "123 Main St, Toronto, Ontario, Canada") "canada" = true := by
  constructor
  · unfold filter_osm_results
    have h0 : haversine_distance 30.5 (-97.5) 30.5 (-97.5) = 0 := haversine_self _ _
    have hm : km_to_miles 0 = 0 := by unfold km_to_miles; ring
    have houter :
        (["ireland", "united kingdom", "canada", "mexico", "australia"].any fun country =>
          strContains (strLower "123 Main St, Toronto, Ontario, Canada") country) = true := by
      decide
    simp [h0, hm, houter]
    right
    decide
  · decide

/-- The invariant holds for any unselected ResolvedPlace with a no_match or
pending decision. -/
theorem inv_no_selected (q : String) (cs : List ScoredCandidate) (reason : String)
    (d : ResolutionDecision)
    (h : d = ResolutionDecision.no_match ∨ d = ResolutionDecision.pending) :
    ResolvedInvariant { query := q, selected := none, candidates := cs
                        decision := d, decision_reason := reason } := by
  unfold ResolvedInvariant ResolvedPlace.is_resolved ResolvedPlace.needs_disambiguation
  rcases h with h | h <;> subst h <;> simp

/-- The invariant holds for a selected ResolvedPlace whose selected candidate
is in the candidate list and whose decision is auto_best or user_selected. -/
theorem inv_selected_mem (q : String) (c : ScoredCandidate) (cs : List ScoredCandidate)
    (reason : String) (d : ResolutionDecision)
    (h : d = ResolutionDecision.auto_best ∨ d = ResolutionDecision.user_selected)
    (hm : c ∈ cs) :
    ResolvedInvariant { query := q, selected := some c, candidates := cs
                        decision := d, decision_reason := reason } := by
  unfold ResolvedInvariant ResolvedPlace.is_resolved ResolvedPlace.needs_disambiguation
  rcases h with h | h <;> subst h <;>
    exact ⟨by simp, by simp, fun _ => ⟨c, rfl, hm⟩⟩

/-- The decision step always produces an invariant-satisfying ResolvedPlace:
its auto_best branch selects the head of the candidate list it returns. -/
theorem invariant_resolveDecide (env : ResolverEnv) (query : String)
    (llm : Option LLMValidation) (scored : List ScoredCandidate) :
    ResolvedInvariant (resolveDecide env query llm scored) := by
  unfold resolveDecide
  dsimp only
  repeat' first
  | exact inv_no_selected _ _ _ _ (Or.inr rfl)
  | exact inv_selected_mem _ _ _ _ _ (Or.inl rfl) (List.mem_cons_self _ _)
  | split

/-- The decision tail always produces an invariant-satisfying ResolvedPlace. -/
theorem invariant_resolveFinish (env : ResolverEnv) (query : String)
    (home_lat home_lon : ℝ) (limit : ℕ) (pla plo : Option ℝ) (il rh : Bool)
    (llm : Option LLMValidation) (c7 : List PlaceSearchResult) :
    ResolvedInvariant (resolveFinish env query home_lat home_lon limit pla plo il rh llm c7) := by
  unfold resolveFinish
  split
  · exact inv_no_selected _ _ _ _ (Or.inl rfl)
  · dsimp only
    apply invariant_resolveDecide

/-- C6: every ResolvedPlace produced by resolve_place, and every
select_candidate image of a ResolvedPlace satisfying the invariant, satisfies
it: is_resolved iff decision ∈ {auto_best, user_selected},
needs_disambiguation iff decision = pending, and a resolved place's selected
candidate is present and a member of its candidate list. -/
theorem C6_resolved_invariant :
    (∀ (env : ResolverEnv) (query : String) (settings : Settings ℝ)
      (sr er : ℝ) (lim : ℕ) (pla plo : Option ℝ) (il rh : Bool),
      ResolvedInvariant (resolve_place env query settings sr er lim pla plo il rh))
    ∧ (∀ (r : ResolvedPlace) (i : ℤ), ResolvedInvariant r →
        ResolvedInvariant (select_candidate r i)) := by
  constructor
  · intro env query settings sr er lim pla plo il rh
    unfold resolve_place
    split
    · exact inv_no_selected _ _ _ _ (Or.inl rfl)
    · dsimp only
      apply invariant_resolveFinish
  · intro r i h
    unfold select_candidate
    split
    · exact h
    · cases hg : r.candidates.get? i.toNat with
      | none => simp only [hg]; exact h
      | some cand =>
        simp only [hg]
        apply inv_selected_mem _ _ _ _ _ (Or.inr rfl)
        have hlt : i.toNat < r.candidates.length := (List.get?_eq_some.mp hg).1
        have hlen : i.toNat < (r.candidates.set i.toNat
            { cand with selection_reason := some SelectionReason.user_selected }).length := by
          simpa using hlt
        have hget : (r.candidates.set i.toNat
            { cand with selection_reason := some SelectionReason.user_selected }).get ⟨i.toNat, hlen⟩ =
            { cand with selection_reason := some SelectionReason.user_selected } := by
          simp [List.getElem_set]
        exact List.mem_iff_getElem.mpr ⟨i.toNat, hlen, hget⟩

/-- Witness for C6 at concrete inputs. -/
theorem C6_resolved_invariant_witness :
    ResolvedInvariant (resolve_place trivialEnv "q" {} 10 25 10 none none false true)
    ∧ (ResolvedInvariant
        { query := "q", selected := none, candidates := []
          decision := ResolutionDecision.no_match, decision_reason := "x" }
      ∧ ResolvedInvariant (select_candidate
        { query := "q", selected := none, candidates := []
          decision := ResolutionDecision.no_match, decision_reason := "x" } 0)) :=
  ⟨C6_resolved_invariant.1 trivialEnv "q" {} 10 25 10 none none false true,
   inv_no_selected _ _ _ _ (Or.inl rfl),
   C6_resolved_invariant.2 _ 0 (inv_no_selected _ _ _ _ (Or.inl rfl))⟩

section OptimizerTheorems

variable {α : Type} [LinearOrderedField α]

/-- Elements of `pyPermsF` are exactly the permutations, when the fuel covers
the length. -/
theorem mem_pyPermsF : ∀ (f : ℕ) (l σ : List ℕ), l.length ≤ f →
    (σ ∈ pyPermsF f l ↔ σ.Perm l) := by
  intro f
  induction f with
  | zero =>
    intro l σ h
    have hl : l = [] := List.eq_nil_of_length_eq_zero (Nat.le_zero.mp h)
    subst hl
    simp [pyPermsF, List.perm_nil]
  | succ f ih =>
    intro l σ h
    unfold pyPermsF
    by_cases hl : l.isEmpty
    · have : l = [] := List.isEmpty_iff.mp hl
      subst this
      simp [List.perm_nil]
    · rw [if_neg hl]
      have hlen : 0 < l.length := by
        cases l with
        | nil => simp at hl
        | cons a t => simp
      simp only [List.mem_flatMap, List.mem_map, List.mem_range]
      constructor
      · rintro ⟨k, hk, p, hp, rfl⟩
        have hek : (l.eraseIdx k).length ≤ f := by
          rw [List.length_eraseIdx_of_lt hk]
          omega
        have hperm : p.Perm (l.eraseIdx k) := (ih _ p hek).mp hp
        have hsplit : l.eraseIdx k = l.take k ++ l.drop (k + 1) :=
          List.eraseIdx_eq_take_drop_succ l k
        have hgd : l.getD k 0 = l.get ⟨k, hk⟩ := by
          rw [List.getD_eq_getElem?_getD, List.getElem?_eq_getElem hk]
          rfl
        have hl2 : l = l.take k ++ l.get ⟨k, hk⟩ :: l.drop (k + 1) := by
          conv_lhs => rw [← List.take_append_drop k l]
          congr 1
          rw [List.get_eq_getElem, List.drop_eq_getElem_cons hk]
        have s1 : (l.getD k 0 :: p).Perm (l.getD k 0 :: (l.take k ++ l.drop (k + 1))) := by
          rw [← hsplit]
          exact hperm.cons _
        have s2 : (l.take k ++ l.getD k 0 :: l.drop (k + 1)).Perm
            (l.getD k 0 :: (l.take k ++ l.drop (k + 1))) := List.perm_middle
        have s3 : l.take k ++ l.getD k 0 :: l.drop (k + 1) = l := by
          rw [hgd]
          exact hl2.symm
        exact (s1.trans s2.symm).trans (by rw [s3])
      · intro hperm
        have hσ : σ ≠ [] := by
          intro hnil
          subst hnil
          have := hperm.length_eq
          simp at this
          omega
        obtain ⟨x, σ', rfl⟩ := List.exists_cons_of_ne_nil hσ
        have hx : x ∈ l := hperm.mem_iff.mp (List.mem_cons_self x σ')
        have hidx : l.indexOf x < l.length := List.indexOf_lt_length.mpr hx
        refine ⟨l.indexOf x, hidx, σ', ?_, ?_⟩
        · have hperm' : σ'.Perm (l.erase x) := (List.cons_perm_iff_perm_erase.mp hperm).2
          have heq : l.erase x = l.eraseIdx (l.indexOf x) :=
            (List.eraseIdx_indexOf_eq_erase x l).symm
          have hek : (l.eraseIdx (l.indexOf x)).length ≤ f := by
            rw [List.length_eraseIdx_of_lt hidx]
            omega
          exact (ih _ σ' hek).mpr (heq ▸ hperm')
        · have : l.getD (l.indexOf x) 0 = x := by
            rw [List.getD_eq_getElem?_getD, List.getElem?_eq_getElem hidx]
            simp [List.getElem_indexOf]
          rw [this]

/-- Membership in the Python permutation enumeration is permutation. -/
theorem pyPerms_mem_iff (l σ : List ℕ) : σ ∈ pyPerms l ↔ σ.Perm l :=
  mem_pyPermsF l.length l σ le_rfl

/-- The enumeration starts with the identity arrangement (Python's
`itertools.permutations` yields the input order first). -/
theorem pyPermsF_head : ∀ (f : ℕ) (l : List ℕ), l.length ≤ f →
    ∃ t, pyPermsF f l = l :: t := by
  intro f
  induction f with
  | zero =>
    intro l h
    have hl : l = [] := List.eq_nil_of_length_eq_zero (Nat.le_zero.mp h)
    subst hl
    exact ⟨[], rfl⟩
  | succ f ih =>
    intro l h
    unfold pyPermsF
    by_cases hl : l.isEmpty
    · have : l = [] := List.isEmpty_iff.mp hl
      subst this
      exact ⟨[], by simp⟩
    · rw [if_neg hl]
      obtain ⟨a, t, rfl⟩ := List.exists_cons_of_ne_nil (by simpa using hl)
      have hrange : List.range (a :: t).length = 0 :: (List.range t.length).map Nat.succ := by
        simp [List.range_succ_eq_map]
      rw [hrange]
      simp only [List.flatMap_cons]
      have he0 : (a :: t).eraseIdx 0 = t := rfl
      obtain ⟨t', ht'⟩ := ih t (by simpa using h)
      rw [he0, ht']
      refine ⟨(t'.map fun p => a :: p) ++
        ((List.range t.length).map Nat.succ).flatMap
          (fun k => (pyPermsF f ((a :: t).eraseIdx k)).map fun p => (a :: t).getD k 0 :: p), ?_⟩
      simp [List.getD_cons_zero]

/-- Specification of the brute-force accumulator loop: the result records its
own distance, never worsens the incoming best, is a lower bound for every
scanned permutation, and is either the incoming best or the first scanned
permutation strictly better than everything before it. -/
theorem bruteFold_spec (d : α × α → α × α → α) (start : α × α) (stops : List (α × α))
    (ret : Bool) :
    ∀ (l : List (List ℕ)) (b bo : List ℕ) (bd : α),
    bruteFold d start stops ret l (b, calcRouteDist d start stops b ret) = (bo, bd) →
    bd = calcRouteDist d start stops bo ret
    ∧ bd ≤ calcRouteDist d start stops b ret
    ∧ (∀ q ∈ l, bd ≤ calcRouteDist d start stops q ret)
    ∧ (bo = b ∨ ∃ l1 l2, l = l1 ++ bo :: l2
        ∧ bd < calcRouteDist d start stops b ret
        ∧ ∀ q ∈ l1, bd < calcRouteDist d start stops q ret) := by
  intro l
  induction l with
  | nil =>
    intro b bo bd h
    unfold bruteFold at h
    cases h
    exact ⟨rfl, le_rfl, by simp, Or.inl rfl⟩
  | cons p ps ih =>
    intro b bo bd h
    unfold bruteFold at h
    dsimp only at h
    split at h
    · rename_i hlt
      obtain ⟨h1, h2, h3, h4⟩ := ih p bo bd h
      refine ⟨h1, le_trans h2 (le_of_lt hlt), ?_, ?_⟩
      · intro q hq
        rcases List.mem_cons.mp hq with rfl | hq'
        · exact h2
        · exact h3 q hq'
      · rcases h4 with rfl | ⟨l1, l2, hsplit, hstrict, hall⟩
        · exact Or.inr ⟨[], ps, rfl, lt_of_le_of_lt h2 hlt, by simp⟩
        · refine Or.inr ⟨p :: l1, l2, by rw [hsplit, List.cons_append], lt_trans hstrict hlt, ?_⟩
          intro q hq
          rcases List.mem_cons.mp hq with rfl | hq'
          · exact hstrict
          · exact hall q hq'
    · rename_i hnlt
      obtain ⟨h1, h2, h3, h4⟩ := ih b bo bd h
      refine ⟨h1, h2, ?_, ?_⟩
      · intro q hq
        rcases List.mem_cons.mp hq with rfl | hq'
        · exact le_trans h2 (le_of_not_lt hnlt)
        · exact h3 q hq'
      · rcases h4 with rfl | ⟨l1, l2, hsplit, hstrict, hall⟩
        · exact Or.inl rfl
        · refine Or.inr ⟨p :: l1, l2, by rw [hsplit, List.cons_append], hstrict, ?_⟩
          intro q hq
          rcases List.mem_cons.mp hq with rfl | hq'
          · exact lt_of_lt_of_le hstrict (le_of_not_lt hnlt)
          · exact hall q hq'

/-- The brute-force optimizer (n ≥ 2) computes a permutation of the stop
indices that minimizes the route distance over ALL permutations, recording
its distance, and ties are broken in favour of the earliest permutation in
Python's enumeration order. -/
theorem bruteForceG_opt (d : α × α → α × α → α) (start : α × α) (stops : List (α × α))
    (ret : Bool) (h2 : 2 ≤ stops.length) :
    (bruteForceG d start stops ret).2 =
      calcRouteDist d start stops (bruteForceG d start stops ret).1 ret
    ∧ (∀ σ : List ℕ, σ.Perm (List.range stops.length) →
        (bruteForceG d start stops ret).2 ≤ calcRouteDist d start stops σ ret)
    ∧ (bruteForceG d start stops ret).1.Perm (List.range stops.length)
    ∧ (∃ l1 l2, pyPerms (List.range stops.length) = l1 ++ (bruteForceG d start stops ret).1 :: l2
        ∧ ∀ q ∈ l1, (bruteForceG d start stops ret).2 < calcRouteDist d start stops q ret) := by
  have hne0 : stops.length ≠ 0 := by omega
  have hne1 : stops.length ≠ 1 := by omega
  have hbody : bruteForceG d start stops ret =
      bruteFold d start stops ret (pyPerms (List.range stops.length))
        (List.range stops.length,
          calcRouteDist d start stops (List.range stops.length) ret) := by
    unfold bruteForceG
    rw [if_neg hne0, if_neg hne1]
  rcases heq : bruteForceG d start stops ret with ⟨bo, bd⟩
  rw [hbody] at heq
  obtain ⟨h1, _, h3, h4⟩ := bruteFold_spec d start stops ret _ _ _ _ heq
  refine ⟨h1, ?_, ?_, ?_⟩
  · intro σ hσ
    exact h3 σ ((pyPerms_mem_iff _ σ).mpr hσ)
  · rcases h4 with rfl | ⟨l1, l2, hsplit, _, _⟩
    · exact List.Perm.refl _
    · exact (pyPerms_mem_iff _ bo).mp (hsplit ▸ List.mem_append_right l1 (List.mem_cons_self _ _))
  · rcases h4 with rfl | ⟨l1, l2, hsplit, _, hall⟩
    · obtain ⟨t, ht⟩ := pyPermsF_head (List.range stops.length).length (List.range stops.length)
        le_rfl
      exact ⟨[], t, ht, by simp⟩
    · exact ⟨l1, l2, hsplit, hall⟩

/-- A successful nearest-neighbour pick is an unvisited index scanned by the
fold. -/
theorem nnStep_fold_some (d : α × α → α × α → α) (cur : α × α) (stops : List (α × α))
    (visited : List ℕ) :
    ∀ (l : List ℕ) (acc : Option (ℕ × α)) (i : ℕ) (dst : α),
      l.foldl (nnStep d cur stops visited) acc = some (i, dst) →
      (∃ d0, acc = some (i, d0)) ∨ (i ∈ l ∧ i ∉ visited) := by
  intro l
  induction l with
  | nil =>
    intro acc i dst h
    exact Or.inl ⟨dst, h⟩
  | cons x xs ih =>
    intro acc i dst h
    rw [List.foldl_cons] at h
    rcases ih _ i dst h with ⟨d0, hacc⟩ | ⟨hmem, hnv⟩
    · unfold nnStep at hacc
      split at hacc
      · exact Or.inl ⟨d0, hacc⟩
      · rename_i hxv
        cases acc with
        | none =>
          simp only at hacc
          cases hacc
          exact Or.inr ⟨List.mem_cons_self _ _, hxv⟩
        | some p =>
          rcases p with ⟨bi, bd⟩
          simp only at hacc
          split at hacc
          · cases hacc
            exact Or.inr ⟨List.mem_cons_self _ _, hxv⟩
          · exact Or.inl ⟨d0, hacc⟩
    · exact Or.inr ⟨List.mem_cons_of_mem x hmem, hnv⟩

/-- A failed nearest-neighbour pick means every scanned index was visited. -/
theorem nnStep_fold_none (d : α × α → α × α → α) (cur : α × α) (stops : List (α × α))
    (visited : List ℕ) :
    ∀ (l : List ℕ) (acc : Option (ℕ × α)),
      l.foldl (nnStep d cur stops visited) acc = none →
      acc = none ∧ ∀ i ∈ l, i ∈ visited := by
  intro l
  induction l with
  | nil =>
    intro acc h
    exact ⟨h, by simp⟩
  | cons x xs ih =>
    intro acc h
    rw [List.foldl_cons] at h
    obtain ⟨hstep, hall⟩ := ih _ h
    unfold nnStep at hstep
    split at hstep
    · rename_i hxv
      refine ⟨hstep, ?_⟩
      intro i hi
      rcases List.mem_cons.mp hi with rfl | hi'
      · exact hxv
      · exact hall i hi'
    · cases acc with
      | none => simp at hstep
      | some p =>
        rcases p with ⟨bi, bd⟩
        simp only at hstep
        split at hstep <;> simp at hstep

/-- Excluding one more visited index from a duplicate-free list filters out
exactly that element. -/
theorem filter_notMem_cons_eq_erase :
    ∀ (l : List ℕ), l.Nodup → ∀ (a : ℕ) (vs : List ℕ),
      (l.filter fun i => decide (i ∉ a :: vs)) = (l.filter fun i => decide (i ∉ vs)).erase a := by
  intro l
  induction l with
  | nil =>
    intro _ a vs
    simp
  | cons x xs ih =>
    intro hnd a vs
    have hxnotin : x ∉ xs := (List.nodup_cons.mp hnd).1
    have hndxs : xs.Nodup := (List.nodup_cons.mp hnd).2
    by_cases hxa : x = a
    · subst hxa
      have hcongr : (xs.filter fun i => decide (i ∉ x :: vs)) =
          (xs.filter fun i => decide (i ∉ vs)) := by
        apply List.filter_congr
        intro y hy
        have hyx : y ≠ x := fun hEq => hxnotin (hEq ▸ hy)
        simp [List.mem_cons, hyx]
      by_cases hxv : x ∈ vs
      · have h1 : (x :: xs).filter (fun i => decide (i ∉ x :: vs)) =
            xs.filter fun i => decide (i ∉ x :: vs) := by
          simp [List.filter_cons]
        have h2 : (x :: xs).filter (fun i => decide (i ∉ vs)) =
            xs.filter fun i => decide (i ∉ vs) := by
          simp [List.filter_cons, hxv]
        rw [h1, h2, hcongr, List.erase_of_not_mem]
        intro hmem
        exact hxnotin (List.mem_of_mem_filter hmem)
      · have h1 : (x :: xs).filter (fun i => decide (i ∉ x :: vs)) =
            xs.filter fun i => decide (i ∉ x :: vs) := by
          simp [List.filter_cons]
        have h2 : (x :: xs).filter (fun i => decide (i ∉ vs)) =
            x :: (xs.filter fun i => decide (i ∉ vs)) := by
          simp [List.filter_cons, hxv]
        rw [h1, h2, hcongr, List.erase_cons_head]
    · by_cases hxv : x ∈ vs
      · have h1 : (x :: xs).filter (fun i => decide (i ∉ a :: vs)) =
            xs.filter fun i => decide (i ∉ a :: vs) := by
          simp [List.filter_cons, List.mem_cons, hxv]
        have h2 : (x :: xs).filter (fun i => decide (i ∉ vs)) =
            xs.filter fun i => decide (i ∉ vs) := by
          simp [List.filter_cons, hxv]
        rw [h1, h2, ih hndxs a vs]
      · have h1 : (x :: xs).filter (fun i => decide (i ∉ a :: vs)) =
            x :: (xs.filter fun i => decide (i ∉ a :: vs)) := by
          simp [List.filter_cons, List.mem_cons, hxv, hxa]
        have h2 : (x :: xs).filter (fun i => decide (i ∉ vs)) =
            x :: (xs.filter fun i => decide (i ∉ vs)) := by
          simp [List.filter_cons, hxv]
        rw [h1, h2, ih hndxs a vs, List.erase_cons_tail]
        simp [hxa]

/-- The nearest-neighbour loop visits exactly the unvisited indices (in some
order), given enough fuel. -/
theorem nnLoop_perm (d : α × α → α × α → α) (stops : List (α × α)) :
    ∀ (fuel : ℕ) (cur : α × α) (visited : List ℕ),
      ((List.range stops.length).filter fun i => decide (i ∉ visited)).length ≤ fuel →
      (nnLoop d stops fuel cur visited).Perm
        ((List.range stops.length).filter fun i => decide (i ∉ visited)) := by
  intro fuel
  induction fuel with
  | zero =>
    intro cur visited h
    have : ((List.range stops.length).filter fun i => decide (i ∉ visited)) = [] :=
      List.eq_nil_of_length_eq_zero (Nat.le_zero.mp h)
    rw [this]
    exact List.Perm.refl _
  | succ fuel ih =>
    intro cur visited h
    unfold nnLoop
    cases hpick : nnPick d cur stops visited with
    | none =>
      obtain ⟨_, hall⟩ := nnStep_fold_none d cur stops visited _ _ hpick
      have : ((List.range stops.length).filter fun i => decide (i ∉ visited)) = [] := by
        rw [List.filter_eq_nil_iff]
        intro i hi
        simp [hall i hi]
      rw [this]
    | some p =>
      rcases p with ⟨bi, dst⟩
      rcases nnStep_fold_some d cur stops visited _ _ _ _ hpick with ⟨d0, hacc⟩ | ⟨hmem, hnv⟩
      · simp at hacc
      · have hbif : bi ∈ (List.range stops.length).filter fun i => decide (i ∉ visited) := by
          rw [List.mem_filter]
          exact ⟨hmem, by simpa using hnv⟩
        have herase : ((List.range stops.length).filter fun i => decide (i ∉ bi :: visited)) =
            ((List.range stops.length).filter fun i => decide (i ∉ visited)).erase bi :=
          filter_notMem_cons_eq_erase _ (List.nodup_range _) bi visited
        have hlen : (((List.range stops.length).filter fun i =>
            decide (i ∉ visited)).erase bi).length ≤ fuel := by
          rw [List.length_erase_of_mem hbif]
          have hpos : 0 < ((List.range stops.length).filter fun i =>
              decide (i ∉ visited)).length := List.length_pos.mpr (List.ne_nil_of_mem hbif)
          omega
        have hrec := ih (stops.getD bi zeroPt) (bi :: visited) (herase ▸ hlen)
        rw [herase] at hrec
        exact ((hrec.cons bi).trans (List.perm_cons_erase hbif).symm)

/-- The nearest-neighbour order is a permutation of the stop indices. -/
theorem nearestNeighborG_perm (d : α × α → α × α → α) (start : α × α)
    (stops : List (α × α)) (ret : Bool) :
    (nearestNeighborG d start stops ret).1.Perm (List.range stops.length) := by
  unfold nearestNeighborG
  by_cases h0 : stops.length = 0
  · rw [if_pos h0, h0]
    exact List.Perm.refl _
  · rw [if_neg h0]
    by_cases h1 : stops.length = 1
    · rw [if_pos h1, h1]
      simp [List.range_succ]
    · rw [if_neg h1]
      have hfil : ((List.range stops.length).filter fun i => decide (i ∉ ([] : List ℕ))) =
          List.range stops.length := by
        apply List.filter_eq_self.mpr
        intro i _
        simp
      have := nnLoop_perm d stops stops.length start []
        (by rw [hfil, List.length_range])
      rw [hfil] at this
      exact this

/-- The 2-opt segment reversal is a permutation of the order. -/
theorem reverseSegment_perm (order : List ℕ) (i j : ℕ) (hij : i ≤ j) :
    (reverseSegment order i j).Perm order := by
  have hdd : order.drop (j + 1) = (order.drop (i + 1)).drop (j - i) := by
    rw [List.drop_drop]
    congr 1
    omega
  have hsplit : ((order.drop (i + 1)).take (j - i)) ++ order.drop (j + 1) =
      order.drop (i + 1) := by
    rw [hdd, List.take_append_drop]
  have h1 : (((order.drop (i + 1)).take (j - i)).reverse ++ order.drop (j + 1)).Perm
      ((order.drop (i + 1)).take (j - i) ++ order.drop (j + 1)) :=
    (List.reverse_perm _).append_right _
  rw [hsplit] at h1
  have h2 := h1.append_left (order.take (i + 1))
  unfold reverseSegment
  rw [List.append_assoc]
  exact h2.trans (by rw [List.take_append_drop])

/-- Moves scanned by 2-opt satisfy i + 2 ≤ j < n. -/
theorem movePairs_mem (n i j : ℕ) (h : (i, j) ∈ movePairs n) : i + 2 ≤ j ∧ j < n := by
  unfold movePairs at h
  simp only [List.mem_flatMap, List.mem_map, List.mem_range, List.mem_range'_1] at h
  obtain ⟨i', hi', j', hj', heq⟩ := h
  cases heq
  omega

/-- Inversion of a successful 2-opt scan. -/
theorem twoOptScan_some (d : α × α → α × α → α) (eps : α) (start : α × α)
    (stops : List (α × α)) (ret : Bool) (order : List ℕ) (best : α) (no : List ℕ) (nd : α)
    (h : twoOptScan d eps start stops ret order best = some (no, nd)) :
    (∃ i j, i + 2 ≤ j ∧ j < stops.length ∧ no = reverseSegment order i j)
    ∧ nd = calcRouteDist d start stops no ret ∧ nd < best - eps := by
  unfold twoOptScan at h
  obtain ⟨m, hm, hfm⟩ := List.exists_of_findSome?_eq_some h
  dsimp only at hfm
  split at hfm
  · rename_i hlt
    cases hfm
    obtain ⟨h1, h2⟩ := movePairs_mem stops.length m.1 m.2 hm
    exact ⟨⟨m.1, m.2, h1, h2, rfl⟩, rfl, hlt⟩
  · simp at hfm

/-- The 2-opt improvement loop preserves the permutation and never worsens
the distance. -/
theorem twoOptLoop_spec (d : α × α → α × α → α) (eps : α) (start : α × α)
    (stops : List (α × α)) (ret : Bool) (heps : 0 ≤ eps) :
    ∀ (fuel : ℕ) (order : List ℕ) (best : α),
      best = calcRouteDist d start stops order ret →
      (twoOptLoop d eps start stops ret fuel order best).1.Perm order
      ∧ (twoOptLoop d eps start stops ret fuel order best).2 =
        calcRouteDist d start stops (twoOptLoop d eps start stops ret fuel order best).1 ret
      ∧ (twoOptLoop d eps start stops ret fuel order best).2 ≤ best := by
  intro fuel
  induction fuel with
  | zero =>
    intro order best hbest
    exact ⟨List.Perm.refl _, hbest, le_rfl⟩
  | succ fuel ih =>
    intro order best hbest
    unfold twoOptLoop
    cases hscan : twoOptScan d eps start stops ret order best with
    | none => exact ⟨List.Perm.refl _, hbest, le_rfl⟩
    | some p =>
      rcases p with ⟨no, nd⟩
      obtain ⟨⟨i, j, hij, _, rfl⟩, hnd, hlt⟩ :=
        twoOptScan_some d eps start stops ret order best _ _ hscan
      obtain ⟨p1, p2, p3⟩ := ih _ _ hnd
      refine ⟨p1.trans (reverseSegment_perm order i j (by omega)), p2, ?_⟩
      have : nd ≤ best := le_of_lt (lt_of_lt_of_le hlt (by linarith))
      exact le_trans p3 this

/-- 2-opt output is a permutation of its initial order, reports its own
route distance, and is no worse than the initial order. -/
theorem twoOptG_spec (d : α × α → α × α → α) (eps : α) (start : α × α)
    (stops : List (α × α)) (init : List ℕ) (ret : Bool) (heps : 0 ≤ eps) :
    (twoOptG d eps start stops init ret 1000).1.Perm init
    ∧ (twoOptG d eps start stops init ret 1000).2 =
      calcRouteDist d start stops (twoOptG d eps start stops init ret 1000).1 ret
    ∧ (twoOptG d eps start stops init ret 1000).2 ≤
      calcRouteDist d start stops init ret := by
  unfold twoOptG
  split
  · exact ⟨List.Perm.refl _, rfl, le_rfl⟩
  · obtain ⟨p1, p2, p3⟩ := twoOptLoop_spec d eps start stops ret heps 1000 init
      (calcRouteDist d start stops init ret) rfl
    exact ⟨p1, p2, p3⟩

/-- Monotonicity of decimal rounding. -/
theorem roundTo_mono [FloorRing α] (n : ℕ) {x y : α} (h : x ≤ y) :
    roundTo n x ≤ roundTo n y := by
  unfold roundTo
  have hpow : (0 : α) < 10 ^ n := by positivity
  have hr : round (x * 10 ^ n) ≤ round (y * 10 ^ n) := by
    rw [round_eq, round_eq]
    exact Int.floor_mono (by nlinarith)
  exact (div_le_div_iff_of_pos_right hpow).mpr (by exact_mod_cast hr)

/-- Branch shape of optimize_routeG for n = 0. -/
theorem optimizeRouteG_branch0 [FloorRing α] (d : α × α → α × α → α) (eps : α)
    (start : α × α) (stops : List (α × α)) (ret : Bool) (h0 : stops.length = 0) :
    optimizeRouteG d eps start stops ret =
      { stop_order := [], total_distance_km := 0, naive_distance_km := 0
        savings_km := 0, method := "none" } := by
  unfold optimizeRouteG
  rw [if_pos h0]

/-- Branch shape of optimize_routeG for n = 1 (fields NOT rounded here,
matching the source). -/
theorem optimizeRouteG_branch1 [FloorRing α] (d : α × α → α × α → α) (eps : α)
    (start : α × α) (stops : List (α × α)) (ret : Bool) (h1 : stops.length = 1) :
    optimizeRouteG d eps start stops ret =
      { stop_order := [0]
        total_distance_km := calcRouteDist d start stops (List.range stops.length) ret
        naive_distance_km := calcRouteDist d start stops (List.range stops.length) ret
        savings_km := 0, method := "single_stop" } := by
  unfold optimizeRouteG
  rw [if_neg (by omega), if_pos h1]

/-- Branch shape of optimize_routeG for 2 ≤ n ≤ 6: brute force, rounded
fields. -/
theorem optimizeRouteG_branch6 [FloorRing α] (d : α × α → α × α → α) (eps : α)
    (start : α × α) (stops : List (α × α)) (ret : Bool)
    (h2 : 2 ≤ stops.length) (h6 : stops.length ≤ 6) :
    optimizeRouteG d eps start stops ret =
      { stop_order := (bruteForceG d start stops ret).1
        total_distance_km := roundTo 2 (bruteForceG d start stops ret).2
        naive_distance_km :=
          roundTo 2 (calcRouteDist d start stops (List.range stops.length) ret)
        savings_km := roundTo 2 (max 0 (calcRouteDist d start stops (List.range stops.length) ret
          - (bruteForceG d start stops ret).2))
        method := "brute_force" } := by
  have hne0 : stops.length ≠ 0 := by omega
  have hne1 : stops.length ≠ 1 := by omega
  unfold optimizeRouteG
  rw [if_neg hne0, if_neg hne1]
  dsimp only
  rw [if_pos h6, if_pos h6]

/-- Branch shape of optimize_routeG for n > 6: nearest neighbour plus 2-opt,
rounded fields. -/
theorem optimizeRouteG_branch_gt6 [FloorRing α] (d : α × α → α × α → α) (eps : α)
    (start : α × α) (stops : List (α × α)) (ret : Bool)
    (h6 : ¬ stops.length ≤ 6) :
    optimizeRouteG d eps start stops ret =
      { stop_order :=
          (twoOptG d eps start stops (nearestNeighborG d start stops ret).1 ret 1000).1
        total_distance_km :=
          roundTo 2 (twoOptG d eps start stops (nearestNeighborG d start stops ret).1 ret 1000).2
        naive_distance_km :=
          roundTo 2 (calcRouteDist d start stops (List.range stops.length) ret)
        savings_km := roundTo 2 (max 0 (calcRouteDist d start stops (List.range stops.length) ret
          - (twoOptG d eps start stops (nearestNeighborG d start stops ret).1 ret 1000).2))
        method := "nearest_neighbor_2opt" } := by
  have hne0 : stops.length ≠ 0 := by omega
  have hne1 : stops.length ≠ 1 := by omega
  unfold optimizeRouteG
  rw [if_neg hne0, if_neg hne1]
  dsimp only
  rw [if_neg h6, if_neg h6]

end OptimizerTheorems

/-- C3: for 2 ≤ N ≤ 6 stops optimize_route uses brute force over the full
permutation enumeration: the returned order's route distance is a lower bound
for the route distance of EVERY permutation of [0..N), the method tag is
brute_force, and the returned order is the first permutation in enumeration
order attaining the minimum (everything enumerated before it is strictly
worse). -/
theorem C3_brute_force_optimal (start_lat start_lon : ℝ) (stops : List (ℝ × ℝ)) (ret : Bool)
    (h2 : 2 ≤ stops.length) (h6 : stops.length ≤ 6) :
    (optimize_route start_lat start_lon stops ret).method = "brute_force"
    ∧ (∀ σ : List ℕ, σ.Perm (List.range stops.length) →
        calculate_route_distance start_lat start_lon stops
          (optimize_route start_lat start_lon stops ret).stop_order ret ≤
        calculate_route_distance start_lat start_lon stops σ ret)
    ∧ (∃ l1 l2, pyPerms (List.range stops.length) =
        l1 ++ (optimize_route start_lat start_lon stops ret).stop_order :: l2
        ∧ ∀ q ∈ l1, calculate_route_distance start_lat start_lon stops
            (optimize_route start_lat start_lon stops ret).stop_order ret <
          calculate_route_distance start_lat start_lon stops q ret) := by
  obtain ⟨h1, hopt, _, hfirst⟩ :=
    bruteForceG_opt haversineD (start_lat, start_lon) stops ret h2
  have hbr : optimize_route start_lat start_lon stops ret =
      optimizeRouteG haversineD (1 / 1000) (start_lat, start_lon) stops ret := rfl
  rw [hbr, optimizeRouteG_branch6 haversineD (1 / 1000) (start_lat, start_lon) stops ret h2 h6]
  refine ⟨rfl, ?_, ?_⟩
  · intro σ hσ
    have : calculate_route_distance start_lat start_lon stops
        (bruteForceG haversineD (start_lat, start_lon) stops ret).1 ret =
        (bruteForceG haversineD (start_lat, start_lon) stops ret).2 := h1.symm
    rw [show calculate_route_distance start_lat start_lon stops
        (bruteForceG haversineD (start_lat, start_lon) stops ret).1 ret =
        calcRouteDist haversineD (start_lat, start_lon) stops
          (bruteForceG haversineD (start_lat, start_lon) stops ret).1 ret from rfl,
      ← h1]
    exact hopt σ hσ
  · obtain ⟨l1, l2, hsplit, hall⟩ := hfirst
    refine ⟨l1, l2, hsplit, ?_⟩
    intro q hq
    rw [show calculate_route_distance start_lat start_lon stops
        (bruteForceG haversineD (start_lat, start_lon) stops ret).1 ret =
        calcRouteDist haversineD (start_lat, start_lon) stops
          (bruteForceG haversineD (start_lat, start_lon) stops ret).1 ret from rfl,
      ← h1]
    exact hall q hq

/-- Witness for C3 at a concrete two-stop input. -/
theorem C3_brute_force_optimal_witness :
    (2 ≤ ([((0 : ℝ), (1 : ℝ)), (0, 2)] : List (ℝ × ℝ)).length
      ∧ ([((0 : ℝ), (1 : ℝ)), (0, 2)] : List (ℝ × ℝ)).length ≤ 6)
    ∧ (optimize_route 0 0 [((0 : ℝ), (1 : ℝ)), (0, 2)] true).method = "brute_force"
    ∧ (∀ σ : List ℕ, σ.Perm (List.range 2) →
        calculate_route_distance 0 0 [((0 : ℝ), (1 : ℝ)), (0, 2)]
          (optimize_route 0 0 [((0 : ℝ), (1 : ℝ)), (0, 2)] true).stop_order true ≤
        calculate_route_distance 0 0 [((0 : ℝ), (1 : ℝ)), (0, 2)] σ true) :=
  ⟨⟨by decide, by decide⟩,
    (C3_brute_force_optimal 0 0 [((0 : ℝ), (1 : ℝ)), (0, 2)] true (by decide) (by decide)).1,
    (C3_brute_force_optimal 0 0 [((0 : ℝ), (1 : ℝ)), (0, 2)] true (by decide) (by decide)).2.1⟩

/-- The two-argument arctangent recovers angles in the first quadrant. -/
theorem atan2_sin_cos (t : ℝ) (h0 : 0 ≤ t) (h2 : t ≤ Real.pi / 2) :
    atan2 (Real.sin t) (Real.cos t) = t := by
  rcases lt_or_eq_of_le h2 with hlt | heq
  · have hcos : 0 < Real.cos t :=
      Real.cos_pos_of_mem_Ioo ⟨by linarith [Real.pi_pos], hlt⟩
    unfold atan2
    rw [if_pos hcos, ← Real.tan_eq_sin_div_cos]
    exact Real.arctan_tan (by linarith [Real.pi_pos]) hlt
  · rw [heq, Real.sin_pi_div_two, Real.cos_pi_div_two]
    unfold atan2
    rw [if_neg (by norm_num), if_pos rfl, if_pos (by norm_num)]

/-- On angles of magnitude at most π, the haversine core
`atan2 |sin θ| |cos θ|` is the distance of θ to the nearest multiple of π. -/
theorem atan2_abs_sin_cos (θ : ℝ) (h : |θ| ≤ Real.pi) :
    atan2 |Real.sin θ| |Real.cos θ| = min |θ| (Real.pi - |θ|) := by
  have key : ∀ t : ℝ, 0 ≤ t → t ≤ Real.pi →
      atan2 |Real.sin t| |Real.cos t| = min t (Real.pi - t) := by
    intro t ht0 htpi
    have hsin : |Real.sin t| = Real.sin t :=
      abs_of_nonneg (Real.sin_nonneg_of_nonneg_of_le_pi ht0 htpi)
    rcases le_total t (Real.pi / 2) with hle | hge
    · have hcos : |Real.cos t| = Real.cos t :=
        abs_of_nonneg (Real.cos_nonneg_of_mem_Icc ⟨by linarith [Real.pi_pos], hle⟩)
      rw [hsin, hcos, atan2_sin_cos t ht0 hle, min_eq_left (by linarith)]
    · have hu0 : 0 ≤ Real.pi - t := by linarith
      have hu2 : Real.pi - t ≤ Real.pi / 2 := by linarith
      have hs : Real.sin t = Real.sin (Real.pi - t) := (Real.sin_pi_sub t).symm
      have hc : |Real.cos t| = Real.cos (Real.pi - t) := by
        rw [Real.cos_pi_sub]
        exact abs_of_nonpos
          (Real.cos_nonpos_of_pi_div_two_le_of_le hge (by linarith [Real.pi_pos]))
      rw [hsin, hs, hc, atan2_sin_cos _ hu0 hu2, min_eq_right (by linarith)]
  rcases abs_choice θ with habs | habs
  · rw [habs]
    exact key θ (habs ▸ abs_nonneg θ) (habs ▸ h)
  · have h1 : 0 ≤ -θ := habs ▸ abs_nonneg θ
    have h2 : -θ ≤ Real.pi := habs ▸ h
    have := key (-θ) h1 h2
    rw [Real.sin_neg, abs_neg, Real.cos_neg] at this
    rw [habs]
    exact this

/-- On the equator the haversine distance is exactly `kmPerDeg` times the
shorter-way-round arc length in degrees. -/
theorem haversine_equator (x y : ℝ) (h : |y - x| ≤ 360) :
    haversine_distance 0 x 0 y = kmPerDeg * min |y - x| (360 - |y - x|) := by
  have hpi := Real.pi_pos
  have hz1 : ((0:ℝ) - 0) * Real.pi / 180 / 2 = 0 := by ring
  have hz2 : (0:ℝ) * Real.pi / 180 = 0 := by ring
  have hcore : Real.sin (((0:ℝ) - 0) * Real.pi / 180 / 2) ^ 2
      + Real.cos ((0:ℝ) * Real.pi / 180) * Real.cos ((0:ℝ) * Real.pi / 180)
        * Real.sin ((y - x) * Real.pi / 180 / 2) ^ 2
      = Real.sin ((y - x) * Real.pi / 180 / 2) ^ 2 := by
    rw [hz1, hz2, Real.sin_zero, Real.cos_zero]
    ring
  have habs : |(y - x) * Real.pi / 180 / 2| = |y - x| * (Real.pi / 360) := by
    rw [show (y - x) * Real.pi / 180 / 2 = (y - x) * (Real.pi / 360) by ring, abs_mul,
      abs_of_pos (show (0:ℝ) < Real.pi / 360 by positivity)]
  have hth : |(y - x) * Real.pi / 180 / 2| ≤ Real.pi := by
    rw [habs]
    nlinarith [abs_nonneg (y - x)]
  have hs2 : Real.sqrt (1 - Real.sin ((y - x) * Real.pi / 180 / 2) ^ 2)
      = |Real.cos ((y - x) * Real.pi / 180 / 2)| := by
    rw [show (1:ℝ) - Real.sin ((y - x) * Real.pi / 180 / 2) ^ 2
        = Real.cos ((y - x) * Real.pi / 180 / 2) ^ 2 by
      nlinarith [Real.sin_sq_add_cos_sq ((y - x) * Real.pi / 180 / 2)], Real.sqrt_sq_eq_abs]
  simp only [haversine_distance]
  rw [hcore, Real.sqrt_sq_eq_abs, hs2, atan2_abs_sin_cos _ hth, habs]
  rcases le_total |y - x| (360 - |y - x|) with hm | hm
  · rw [min_eq_left hm, min_eq_left (by nlinarith : |y - x| * (Real.pi / 360)
      ≤ Real.pi - |y - x| * (Real.pi / 360))]
    unfold kmPerDeg
    ring
  · rw [min_eq_right hm, min_eq_right (by nlinarith : Real.pi - |y - x| * (Real.pi / 360)
      ≤ |y - x| * (Real.pi / 360))]
    unfold kmPerDeg
    ring

/-- For integer-valued distances scaled by a factor larger than the 2-opt
epsilon, improvement-by-more-than-epsilon is exactly strict improvement. -/
theorem scale_lt_iff (K : ℝ) (hK : 1 / 1000 < K) (a b : ℤ) :
    K * (a : ℝ) < K * (b : ℝ) - 1 / 1000 ↔ a < b := by
  have hK0 : (0 : ℝ) < K := by linarith
  constructor
  · intro hlt
    by_contra hnot
    push_neg at hnot
    have hba : (b : ℝ) ≤ (a : ℝ) := by exact_mod_cast hnot
    have := mul_le_mul_of_nonneg_left hba (le_of_lt hK0)
    linarith
  · intro hlt
    have h1 : (a : ℝ) + 1 ≤ (b : ℝ) := by exact_mod_cast hlt
    have h2 := mul_le_mul_of_nonneg_left h1 (le_of_lt hK0)
    nlinarith

/-- Rounding to two decimals preserves strict inequalities with a gap of more
than one hundredth. -/
theorem roundTo_two_lt (x y : ℝ) (h : x + 1 / 100 < y) : roundTo 2 x < roundTo 2 y := by
  unfold roundTo
  have h1 := abs_sub_round (x * 10 ^ 2)
  have h2 := abs_sub_round (y * 10 ^ 2)
  rw [abs_le] at h1 h2
  apply (div_lt_div_iff_of_pos_right (by positivity : (0:ℝ) < 10 ^ 2)).mpr
  norm_num at h1 h2
  have hx : (round (x * 10 ^ 2) : ℝ) = (round (x * 100) : ℤ) := by norm_num
  have hy : (round (y * 10 ^ 2) : ℝ) = (round (y * 100) : ℤ) := by norm_num
  rw [hx, hy]
  linarith [h1.1, h1.2, h2.1, h2.2]

section EquatorSim

variable (dR : ℝ × ℝ → ℝ × ℝ → ℝ) (dZ : ℤ × ℤ → ℤ × ℤ → ℤ) (K : ℝ)
variable (s : ℤ × ℤ) (qs : List (ℤ × ℤ))

/-- The integer origin embeds to the real origin. -/
theorem castPtZ_zeroPt : castPtZ zeroPt = zeroPt := by
  simp [castPtZ, zeroPt]

/-- Indexing with default commutes with the point embedding. -/
theorem simGetD (i : ℕ) :
    (qs.map castPtZ).getD i zeroPt = castPtZ (qs.getD i zeroPt) := by
  rw [List.getD_eq_getElem?_getD, List.getD_eq_getElem?_getD, List.getElem?_map]
  cases h : qs[i]? <;> simp [castPtZ_zeroPt]

/-- Every indexed point (including the out-of-range default) is in the point
pool. -/
theorem mem_getD (i : ℕ) : qs.getD i zeroPt ∈ s :: zeroPt :: qs := by
  rw [List.getD_eq_getElem?_getD]
  cases h : qs[i]? with
  | none => simp
  | some v =>
    obtain ⟨hlt, rfl⟩ := List.getElem?_eq_some.mp h
    exact List.mem_cons_of_mem _ (List.mem_cons_of_mem _ (List.getElem_mem hlt))

/-- Consecutive-pair distance sums transport along the scaling. -/
theorem simChainDist
    (hd : ∀ p ∈ s :: zeroPt :: qs, ∀ q ∈ s :: zeroPt :: qs,
      dR (castPtZ p) (castPtZ q) = K * ((dZ p q : ℤ) : ℝ)) :
    ∀ order : List ℕ,
      chainDist dR (qs.map castPtZ) order = K * ((chainDist dZ qs order : ℤ) : ℝ) := by
  intro order
  induction order with
  | nil => simp [chainDist]
  | cons a rest ih =>
    cases rest with
    | nil => simp [chainDist]
    | cons b rest2 =>
      simp only [chainDist]
      rw [simGetD qs a, simGetD qs b, hd _ (mem_getD s qs a) _ (mem_getD s qs b), ih]
      push_cast
      ring

/-- Route distances transport along the scaling. -/
theorem simCalc
    (hd : ∀ p ∈ s :: zeroPt :: qs, ∀ q ∈ s :: zeroPt :: qs,
      dR (castPtZ p) (castPtZ q) = K * ((dZ p q : ℤ) : ℝ)) :
    ∀ (order : List ℕ) (ret : Bool),
      calcRouteDist dR (castPtZ s) (qs.map castPtZ) order ret
        = K * ((calcRouteDist dZ s qs order ret : ℤ) : ℝ) := by
  intro order ret
  cases order with
  | nil => simp [calcRouteDist]
  | cons o0 rest =>
    simp only [calcRouteDist]
    rw [simGetD qs o0, simGetD qs ((o0 :: rest).getLastD 0),
      hd s (List.mem_cons_self _ _) _ (mem_getD s qs o0),
      hd _ (mem_getD s qs ((o0 :: rest).getLastD 0)) s (List.mem_cons_self _ _),
      simChainDist dR dZ K s qs hd]
    cases ret
    · push_cast
      ring
    · push_cast
      simp only [if_true, if_false]
      ring

/-- One nearest-neighbour scan step transports along the scaling. -/
theorem simNNStep (hK0 : 0 < K)
    (hd : ∀ p ∈ s :: zeroPt :: qs, ∀ q ∈ s :: zeroPt :: qs,
      dR (castPtZ p) (castPtZ q) = K * ((dZ p q : ℤ) : ℝ)) :
    ∀ cur ∈ s :: zeroPt :: qs, ∀ (visited : List ℕ) (accZ : Option (ℕ × ℤ)) (i : ℕ),
      nnStep dR (castPtZ cur) (qs.map castPtZ) visited
          (accZ.map fun p => (p.1, K * ((p.2 : ℤ) : ℝ))) i
        = (nnStep dZ cur qs visited accZ i).map fun p => (p.1, K * ((p.2 : ℤ) : ℝ)) := by
  intro cur hcur visited accZ i
  simp only [nnStep]
  by_cases hv : i ∈ visited
  · rw [if_pos hv, if_pos hv]
  · rw [if_neg hv, if_neg hv,
      simGetD qs i, hd cur hcur _ (mem_getD s qs i)]
    cases accZ with
    | none => rfl
    | some p =>
      rcases p with ⟨bi, bd⟩
      simp only [Option.map_some']
      by_cases hlt : dZ cur (qs.getD i zeroPt) < bd
      · rw [if_pos hlt, if_pos (by
          have h2 : ((dZ cur (qs.getD i zeroPt) : ℤ) : ℝ) < ((bd : ℤ) : ℝ) := by
            exact_mod_cast hlt
          exact mul_lt_mul_of_pos_left h2 hK0)]
        rfl
      · rw [if_neg hlt, if_neg (by
          intro hc
          have h2 : ((dZ cur (qs.getD i zeroPt) : ℤ) : ℝ) < ((bd : ℤ) : ℝ) :=
            lt_of_mul_lt_mul_left hc (le_of_lt hK0)
          exact hlt (by exact_mod_cast h2))]
        rfl

/-- The nearest-neighbour fold transports along the scaling. -/
theorem simFoldNN (hK0 : 0 < K)
    (hd : ∀ p ∈ s :: zeroPt :: qs, ∀ q ∈ s :: zeroPt :: qs,
      dR (castPtZ p) (castPtZ q) = K * ((dZ p q : ℤ) : ℝ)) :
    ∀ cur ∈ s :: zeroPt :: qs, ∀ (visited : List ℕ) (l : List ℕ) (accZ : Option (ℕ × ℤ)),
      l.foldl (nnStep dR (castPtZ cur) (qs.map castPtZ) visited)
          (accZ.map fun p => (p.1, K * ((p.2 : ℤ) : ℝ)))
        = (l.foldl (nnStep dZ cur qs visited) accZ).map
            fun p => (p.1, K * ((p.2 : ℤ) : ℝ)) := by
  intro cur hcur visited l
  induction l with
  | nil => intro accZ; rfl
  | cons x xs ih =>
    intro accZ
    rw [List.foldl_cons, List.foldl_cons,
      simNNStep dR dZ K s qs hK0 hd cur hcur visited accZ x]
    exact ih _

/-- The nearest-neighbour loop transports along the scaling: the produced
index order is identical. -/
theorem simNNLoop (hK0 : 0 < K)
    (hd : ∀ p ∈ s :: zeroPt :: qs, ∀ q ∈ s :: zeroPt :: qs,
      dR (castPtZ p) (castPtZ q) = K * ((dZ p q : ℤ) : ℝ)) :
    ∀ (fuel : ℕ), ∀ cur ∈ s :: zeroPt :: qs, ∀ visited : List ℕ,
      nnLoop dR (qs.map castPtZ) fuel (castPtZ cur) visited
        = nnLoop dZ qs fuel cur visited := by
  intro fuel
  induction fuel with
  | zero => intro cur _ visited; rfl
  | succ fuel ih =>
    intro cur hcur visited
    have hpick : nnPick dR (castPtZ cur) (qs.map castPtZ) visited
        = (nnPick dZ cur qs visited).map fun p => (p.1, K * ((p.2 : ℤ) : ℝ)) := by
      unfold nnPick
      rw [List.length_map]
      simpa using simFoldNN dR dZ K s qs hK0 hd cur hcur visited
        (List.range qs.length) none
    simp only [nnLoop]
    rw [hpick]
    cases hz : nnPick dZ cur qs visited with
    | none => rfl
    | some p =>
      rcases p with ⟨bi, d⟩
      simp only [Option.map_some']
      rw [simGetD qs bi, ih _ (mem_getD s qs bi)]

/-- The nearest-neighbour orders coincide. -/
theorem simNN (hK0 : 0 < K)
    (hd : ∀ p ∈ s :: zeroPt :: qs, ∀ q ∈ s :: zeroPt :: qs,
      dR (castPtZ p) (castPtZ q) = K * ((dZ p q : ℤ) : ℝ)) (ret : Bool) :
    (nearestNeighborG dR (castPtZ s) (qs.map castPtZ) ret).1
      = (nearestNeighborG dZ s qs ret).1 := by
  by_cases h0 : qs.length = 0
  · simp [nearestNeighborG, List.length_map, h0]
  by_cases h1 : qs.length = 1
  · simp [nearestNeighborG, List.length_map, h0, h1]
  · simp only [nearestNeighborG, List.length_map, if_neg h0, if_neg h1]
    exact simNNLoop dR dZ K s qs hK0 hd qs.length s (List.mem_cons_self _ _) []

/-- findSome? commutes with a pointwise Option.map relation. -/
theorem findSome_map_rel {β γ δ : Type} (l : List β) (f₁ : β → Option γ)
    (f₂ : β → Option δ) (g : γ → δ) (h : ∀ m ∈ l, f₂ m = (f₁ m).map g) :
    l.findSome? f₂ = (l.findSome? f₁).map g := by
  induction l with
  | nil => rfl
  | cons x xs ih =>
    rw [List.findSome?_cons, List.findSome?_cons, h x (List.mem_cons_self _ _)]
    cases f₁ x with
    | none => exact ih fun m hm => h m (List.mem_cons_of_mem _ hm)
    | some v => rfl

/-- One 2-opt scan pass transports along the scaling, turning the real
epsilon `0.001` into exact strict comparison on the integer side. -/
theorem simScan (hK : 1 / 1000 < K)
    (hd : ∀ p ∈ s :: zeroPt :: qs, ∀ q ∈ s :: zeroPt :: qs,
      dR (castPtZ p) (castPtZ q) = K * ((dZ p q : ℤ) : ℝ)) (ret : Bool) :
    ∀ (order : List ℕ) (bd : ℤ),
      twoOptScan dR (1 / 1000) (castPtZ s) (qs.map castPtZ) ret order (K * ((bd : ℤ) : ℝ))
        = (twoOptScan dZ 0 s qs ret order bd).map
            fun p => (p.1, K * ((p.2 : ℤ) : ℝ)) := by
  intro order bd
  unfold twoOptScan
  rw [List.length_map]
  apply findSome_map_rel
  intro m _
  simp only
  rw [simCalc dR dZ K s qs hd]
  by_cases hlt : calcRouteDist dZ s qs (reverseSegment order m.1 m.2) ret < bd - 0
  · rw [if_pos hlt, if_pos ((scale_lt_iff K hK _ _).mpr (by omega))]
    rfl
  · rw [if_neg hlt, if_neg (fun hc => hlt (by
      have := (scale_lt_iff K hK _ _).mp hc
      omega))]
    rfl

/-- The 2-opt improvement loop transports along the scaling. -/
theorem simLoop (hK : 1 / 1000 < K)
    (hd : ∀ p ∈ s :: zeroPt :: qs, ∀ q ∈ s :: zeroPt :: qs,
      dR (castPtZ p) (castPtZ q) = K * ((dZ p q : ℤ) : ℝ)) (ret : Bool) :
    ∀ (fuel : ℕ) (order : List ℕ) (bd : ℤ),
      twoOptLoop dR (1 / 1000) (castPtZ s) (qs.map castPtZ) ret fuel order (K * ((bd : ℤ) : ℝ))
        = ((twoOptLoop dZ 0 s qs ret fuel order bd).1,
            K * (((twoOptLoop dZ 0 s qs ret fuel order bd).2 : ℤ) : ℝ)) := by
  intro fuel
  induction fuel with
  | zero => intro order bd; rfl
  | succ fuel ih =>
    intro order bd
    simp only [twoOptLoop]
    rw [simScan dR dZ K s qs hK hd ret order bd]
    cases hz : twoOptScan dZ 0 s qs ret order bd with
    | none => rfl
    | some p =>
      rcases p with ⟨no, nd⟩
      simp only [Option.map_some']
      exact ih no nd

/-- 2-opt transports along the scaling: identical order, scaled distance. -/
theorem simTwoOpt (hK : 1 / 1000 < K)
    (hd : ∀ p ∈ s :: zeroPt :: qs, ∀ q ∈ s :: zeroPt :: qs,
      dR (castPtZ p) (castPtZ q) = K * ((dZ p q : ℤ) : ℝ)) (init : List ℕ) (ret : Bool) :
    (twoOptG dR (1 / 1000) (castPtZ s) (qs.map castPtZ) init ret 1000).1
      = (twoOptG dZ 0 s qs init ret 1000).1
    ∧ (twoOptG dR (1 / 1000) (castPtZ s) (qs.map castPtZ) init ret 1000).2
      = K * (((twoOptG dZ 0 s qs init ret 1000).2 : ℤ) : ℝ) := by
  unfold twoOptG
  rw [List.length_map]
  split
  · exact ⟨rfl, simCalc dR dZ K s qs hd init ret⟩
  · rw [simCalc dR dZ K s qs hd init ret, simLoop dR dZ K s qs hK hd ret 1000 init
      (calcRouteDist dZ s qs init ret)]
    exact ⟨rfl, rfl⟩

end EquatorSim

/-- C2 (amended): for every optimize_route output, stop_order is a
permutation of [0..N); for N ≥ 2 the reported total is round(·, 2) of the
returned order's route distance, the reported naive distance is round(·, 2)
of the identity order's distance, and savings is round(·, 2) of
max(0, naive − best) computed on the UNROUNDED distances; the inequality
total_distance_km ≤ naive_distance_km is guaranteed only for N ≤ 6 (the
brute-force branch); for N ≤ 1 total equals naive and savings is 0.  The
claimed inequality fails for N > 6 (see the counterexample). -/
theorem C2_optimizer_invariants (start_lat start_lon : ℝ) (stops : List (ℝ × ℝ)) (ret : Bool) :
    (optimize_route start_lat start_lon stops ret).stop_order.Perm (List.range stops.length)
    ∧ (2 ≤ stops.length →
        (optimize_route start_lat start_lon stops ret).total_distance_km =
          roundTo 2 (calculate_route_distance start_lat start_lon stops
            (optimize_route start_lat start_lon stops ret).stop_order ret)
        ∧ (optimize_route start_lat start_lon stops ret).naive_distance_km =
          roundTo 2 (calculate_route_distance start_lat start_lon stops
            (List.range stops.length) ret)
        ∧ (optimize_route start_lat start_lon stops ret).savings_km =
          roundTo 2 (max 0 (calculate_route_distance start_lat start_lon stops
              (List.range stops.length) ret
            - calculate_route_distance start_lat start_lon stops
              (optimize_route start_lat start_lon stops ret).stop_order ret)))
    ∧ (stops.length ≤ 6 →
        (optimize_route start_lat start_lon stops ret).total_distance_km ≤
          (optimize_route start_lat start_lon stops ret).naive_distance_km)
    ∧ (stops.length ≤ 1 →
        (optimize_route start_lat start_lon stops ret).total_distance_km =
          (optimize_route start_lat start_lon stops ret).naive_distance_km
        ∧ (optimize_route start_lat start_lon stops ret).savings_km = 0) := by
  have hbr : optimize_route start_lat start_lon stops ret =
      optimizeRouteG haversineD (1 / 1000) (start_lat, start_lon) stops ret := rfl
  by_cases h0 : stops.length = 0
  · rw [hbr, optimizeRouteG_branch0 _ _ _ _ _ h0]
    exact ⟨by simp [h0], fun hc => absurd hc (by omega), fun _ => le_rfl, fun _ => ⟨rfl, rfl⟩⟩
  by_cases h1 : stops.length = 1
  · rw [hbr, optimizeRouteG_branch1 _ _ _ _ _ h1]
    exact ⟨by simp [h1, List.range_succ], fun hc => absurd hc (by omega), fun _ => le_rfl,
      fun _ => ⟨rfl, rfl⟩⟩
  have h2 : 2 ≤ stops.length := by omega
  by_cases h6 : stops.length ≤ 6
  · obtain ⟨hbf1, hbfopt, hbfperm, _⟩ :=
      bruteForceG_opt haversineD (start_lat, start_lon) stops ret h2
    rw [hbr, optimizeRouteG_branch6 _ _ _ _ _ h2 h6]
    dsimp only
    unfold calculate_route_distance
    refine ⟨hbfperm, fun _ => ⟨?_, rfl, ?_⟩, fun _ => ?_, fun hc => absurd hc (by omega)⟩
    · rw [hbf1]
    · rw [hbf1]
    · exact roundTo_mono 2 (hbfopt _ (List.Perm.refl _))
  · obtain ⟨ht1, ht2, _⟩ := twoOptG_spec haversineD (1 / 1000) (start_lat, start_lon) stops
      (nearestNeighborG haversineD (start_lat, start_lon) stops ret).1 ret (by norm_num)
    have hnn := nearestNeighborG_perm haversineD (start_lat, start_lon) stops ret
    rw [hbr, optimizeRouteG_branch_gt6 _ _ _ _ _ h6]
    dsimp only
    unfold calculate_route_distance
    refine ⟨ht1.trans hnn, fun _ => ⟨?_, rfl, ?_⟩, fun hc => absurd hc h6,
      fun hc => absurd hc (by omega)⟩
    · rw [ht2]
    · rw [ht2]

/-- C2 counterexample: on seven equatorial stops the nearest-neighbour plus
2-opt branch of optimize_route returns a route strictly WORSE than the naive
identity order, so total_distance_km > naive_distance_km (and consequently
savings_km = 0 does not equal naive − total).  The claimed invariant
`total_distance_km ≤ naive_distance_km` is false for N > 6. -/
theorem C2_counterexample :
    (optimize_route 0 0
        [((0:ℝ), 65), (0, 118), (0, 284), (0, 317), (0, 326), (0, 3), (0, 2)]
        true).naive_distance_km
    < (optimize_route 0 0
        [((0:ℝ), 65), (0, 118), (0, 284), (0, 317), (0, 326), (0, 3), (0, 2)]
        true).total_distance_km := by
  set zs : List (ℤ × ℤ) := [(0, 65), (0, 118), (0, 284), (0, 317), (0, 326), (0, 3), (0, 2)]
    with hzs
  have hK : 1 / 1000 < kmPerDeg := by
    unfold kmPerDeg
    nlinarith [Real.pi_gt_three]
  have hd : ∀ p ∈ ((0, 0) : ℤ × ℤ) :: (zeroPt : ℤ × ℤ) :: zs,
      ∀ q ∈ ((0, 0) : ℤ × ℤ) :: (zeroPt : ℤ × ℤ) :: zs,
      haversineD (castPtZ p) (castPtZ q) = kmPerDeg * ((eqDistZ p q : ℤ) : ℝ) := by
    intro p hp q hq
    rw [hzs] at hp hq
    have hbound : ∀ r ∈ ((0, 0) : ℤ × ℤ) :: (zeroPt : ℤ × ℤ) ::
        ([(0, 65), (0, 118), (0, 284), (0, 317), (0, 326), (0, 3), (0, 2)] : List (ℤ × ℤ)),
        r.1 = 0 ∧ 0 ≤ r.2 ∧ r.2 ≤ 360 := by decide
    obtain ⟨hp1, hp2, hp3⟩ := hbound p hp
    obtain ⟨hq1, hq2, hq3⟩ := hbound q hq
    have c1 : (0:ℝ) ≤ (p.2 : ℝ) := by exact_mod_cast hp2
    have c2 : (p.2 : ℝ) ≤ 360 := by exact_mod_cast hp3
    have c3 : (0:ℝ) ≤ (q.2 : ℝ) := by exact_mod_cast hq2
    have c4 : (q.2 : ℝ) ≤ 360 := by exact_mod_cast hq3
    have habs : |(q.2 : ℝ) - (p.2 : ℝ)| ≤ 360 := by
      rw [abs_le]
      constructor <;> linarith
    have e1 : haversineD (castPtZ p) (castPtZ q)
        = haversine_distance ((p.1 : ℝ)) ((p.2 : ℝ)) ((q.1 : ℝ)) ((q.2 : ℝ)) := rfl
    rw [e1, hp1, hq1, show ((0:ℤ) : ℝ) = 0 from Int.cast_zero,
      haversine_equator _ _ habs]
    congr 1
    rw [show eqDistZ p q = min |p.2 - q.2| (360 - |p.2 - q.2|) from rfl]
    push_cast
    rw [abs_sub_comm]
  have hstart : ((0:ℝ), (0:ℝ)) = castPtZ ((0, 0) : ℤ × ℤ) := by
    simp [castPtZ]
  have hstops : ([((0:ℝ), 65), (0, 118), (0, 284), (0, 317), (0, 326), (0, 3), (0, 2)] :
      List (ℝ × ℝ)) = zs.map castPtZ := by
    rw [hzs]
    simp [castPtZ]
  have hbr : optimize_route 0 0
      [((0:ℝ), 65), (0, 118), (0, 284), (0, 317), (0, 326), (0, 3), (0, 2)] true
      = optimizeRouteG haversineD (1 / 1000) (castPtZ ((0, 0) : ℤ × ℤ)) (zs.map castPtZ)
          true := by
    rw [show optimize_route 0 0
        [((0:ℝ), 65), (0, 118), (0, 284), (0, 317), (0, 326), (0, 3), (0, 2)] true
        = optimizeRouteG haversineD (1 / 1000) ((0:ℝ), (0:ℝ))
            [((0:ℝ), 65), (0, 118), (0, 284), (0, 317), (0, 326), (0, 3), (0, 2)] true
        from rfl, hstart, hstops]
  have h6 : ¬ (zs.map castPtZ).length ≤ 6 := by
    rw [List.length_map, hzs]
    decide
  rw [hbr, optimizeRouteG_branch_gt6 _ _ _ _ _ h6]
  dsimp only
  rw [List.length_map,
    simCalc haversineD eqDistZ kmPerDeg ((0, 0) : ℤ × ℤ) zs hd (List.range zs.length) true,
    simNN haversineD eqDistZ kmPerDeg ((0, 0) : ℤ × ℤ) zs (by linarith) hd true]
  obtain ⟨ht1, ht2⟩ := simTwoOpt haversineD eqDistZ kmPerDeg ((0, 0) : ℤ × ℤ) zs hK hd
    (nearestNeighborG eqDistZ ((0, 0) : ℤ × ℤ) zs true).1 true
  rw [ht2]
  have hv1 : calcRouteDist eqDistZ ((0, 0) : ℤ × ℤ) zs (List.range zs.length) true = 366 := by
    rw [hzs]
    decide
  have hv2 : (twoOptG eqDistZ 0 ((0, 0) : ℤ × ℤ) zs
      (nearestNeighborG eqDistZ ((0, 0) : ℤ × ℤ) zs true).1 true 1000).2 = 388 := by
    rw [hzs]
    decide
  rw [hv1, hv2]
  apply roundTo_two_lt
  push_cast
  linarith


theorem winDisj_symm : Symmetric winDisj := by
  intro w1 w2 h
  unfold winDisj at h ⊢
  tauto

theorem overlapOK_symm : Symmetric overlapOK := by
  intro a b h hov
  have := h ⟨hov.2, hov.1⟩
  unfold fixedTravelPair at this ⊢
  tauto

theorem not_overlapsW_iff (w1 w2 : TimeWindow) :
    ¬ w1.overlapsW w2 ↔ w2.endT ≤ w1.start ∨ w1.endT ≤ w2.start := by
  unfold TimeWindow.overlapsW
  constructor
  · intro h
    by_contra hc
    push_neg at hc
    exact h ⟨hc.1, hc.2⟩
  · intro h hc
    rcases h with h | h
    · exact absurd hc.1 (not_lt.mpr h)
    · exact absurd hc.2 (not_lt.mpr h)

theorem errand_mem_db (db : List Task) (pd : ℤ) (dn : String) (t : Task)
    (h : t ∈ get_location_based_tasks (get_tasks_for_date db pd dn)) : t ∈ db :=
  List.mem_of_mem_filter (List.mem_of_mem_filter h)

theorem home_mem_db (db : List Task) (pd : ℤ) (dn : String) (t : Task)
    (h : t ∈ get_home_based_tasks (get_tasks_for_date db pd dn)) : t ∈ db :=
  List.mem_of_mem_filter (List.mem_of_mem_filter h)

theorem fixedBlocks_mem (db : List FixedBlock) (pd : ℤ) (b : FixedBlock)
    (h : b ∈ get_fixed_blocks_for_date db pd) : b ∈ db := by
  unfold get_fixed_blocks_for_date at h
  exact List.mem_of_mem_filter ((List.perm_insertionSort _ _).mem_iff.mp h)

theorem blockDisj_symm : Symmetric blockDisj := by
  intro a b h
  unfold blockDisj at h ⊢
  tauto

theorem fixedBlocks_pairwise (db : List FixedBlock) (pd : ℤ)
    (h : db.Pairwise blockDisj) :
    (get_fixed_blocks_for_date db pd).Pairwise blockDisj := by
  unfold get_fixed_blocks_for_date
  exact (List.Perm.pairwise_iff (fun h12 => blockDisj_symm h12)
    (List.perm_insertionSort _ _)).mpr (h.filter _)

theorem findBestStep_spec (route : RouteOracle) (pd : ℤ) (day_end : ℚ)
    (F : List FixedBlock) (windows : List (ℕ × TimeWindow)) (s : GreedyState)
    (E : List Task) (acc : Option BestChoice) (t : Task)
    (hacc : ∀ b0, acc = some b0 → CandOK route windows F E s b0) (ht : t ∈ E) :
    ∀ b, findBestStep route pd day_end F windows s acc t = some b →
      CandOK route windows F E s b := by
  intro b hb
  unfold findBestStep at hb
  split at hb
  · exact hacc b hb
  · cases hw : lookupWindow windows t.id with
    | none =>
      rw [hw] at hb
      exact hacc b hb
    | some w =>
      rw [hw] at hb
      dsimp only at hb
      split at hb
      · exact hacc b hb
      · split at hb
        · exact hacc b hb
        · split at hb
          · exact hacc b hb
          · split at hb
            · exact hacc b hb
            · rename_i hnc
              push_neg at hnc
              cases acc with
              | none =>
                cases hb
                refine ⟨ht, rfl, rfl, w, hw, ?_, ?_⟩
                · intro bl hbl hov
                  exact hnc.1 (List.any_eq_true.mpr ⟨bl, hbl, decide_eq_true hov⟩)
                · intro it hit hov
                  exact hnc.2 (List.any_eq_true.mpr ⟨it, hit, decide_eq_true hov⟩)
              | some b0 =>
                dsimp only at hb
                by_cases hsc : b0.score < calculate_priority_score t pd -
                    (route s.current_lat s.current_lon (t.lat.getD 0)
                      (t.lon.getD 0)).duration_minutes * 2
                · rw [if_pos hsc] at hb
                  cases hb
                  refine ⟨ht, rfl, rfl, w, hw, ?_, ?_⟩
                  · intro bl hbl hov
                    exact hnc.1 (List.any_eq_true.mpr ⟨bl, hbl, decide_eq_true hov⟩)
                  · intro it hit hov
                    exact hnc.2 (List.any_eq_true.mpr ⟨it, hit, decide_eq_true hov⟩)
                · rw [if_neg hsc] at hb
                  exact hacc b hb

theorem findBest_spec (route : RouteOracle) (pd : ℤ) (day_end : ℚ)
    (F : List FixedBlock) (windows : List (ℕ × TimeWindow)) (s : GreedyState)
    (E : List Task) :
    ∀ (l : List Task), (∀ t ∈ l, t ∈ E) →
    ∀ (acc : Option BestChoice), (∀ b0, acc = some b0 → CandOK route windows F E s b0) →
    ∀ b, l.foldl (findBestStep route pd day_end F windows s) acc = some b →
      CandOK route windows F E s b := by
  intro l
  induction l with
  | nil =>
    intro _ acc hacc b hb
    exact hacc b hb
  | cons t ts ih =>
    intro hsub acc hacc b hb
    rw [List.foldl_cons] at hb
    exact ih (fun x hx => hsub x (List.mem_cons_of_mem _ hx)) _
      (findBestStep_spec route pd day_end F windows s E acc t hacc
        (hsub t (List.mem_cons_self _ _))) b hb

theorem extendGood (s sp : GreedyState) (new : List ScheduledItem)
    (hsch : sp.scheduled = s.scheduled ++ new)
    (hct0 : s.current_time ≤ sp.current_time)
    (hgood : GoodState s)
    (hnew1 : ∀ j ∈ new, j.start ≤ j.endT)
    (hnew2 : ∀ j ∈ new, s.current_time ≤ j.start ∧ j.endT ≤ sp.current_time)
    (hnew3 : ∀ j ∈ new, j.type = "travel" ∨ j.type = "break" ∨
        (∀ i ∈ s.scheduled, ¬ TimeWindow.overlapsW
          { start := j.start, endT := j.endT } { start := i.start, endT := i.endT }))
    (hnewp : new.Pairwise overlapOK) :
    GoodState sp := by
  obtain ⟨hg1, hg2, hg3⟩ := hgood
  refine ⟨?_, ?_, ?_⟩
  · intro i hi
    rw [hsch] at hi
    rcases List.mem_append.mp hi with hi | hi
    · exact hg1 i hi
    · exact hnew1 i hi
  · intro i hi htype
    rw [hsch] at hi
    rcases List.mem_append.mp hi with hi | hi
    · exact le_trans (hg2 i hi htype) hct0
    · exact (hnew2 i hi).2
  · rw [hsch, List.pairwise_append]
    refine ⟨hg3, hnewp, ?_⟩
    intro i hi j hj hov
    rcases hnew3 j hj with ht | ht | ht
    · by_cases hfix : i.type = "fixed"
      · exact Or.inl ⟨hfix, Or.inl ht⟩
      · exact absurd hov.2 (not_lt.mpr (le_trans (hg2 i hi hfix) (hnew2 j hj).1))
    · by_cases hfix : i.type = "fixed"
      · exact Or.inl ⟨hfix, Or.inr ht⟩
      · exact absurd hov.2 (not_lt.mpr (le_trans (hg2 i hi hfix) (hnew2 j hj).1))
    · exact absurd ⟨hov.2, hov.1⟩ (ht i hi)

theorem applyBest_good (route : RouteOracle) (windows : List (ℕ × TimeWindow))
    (F : List FixedBlock) (E : List Task) (s : GreedyState) (b : BestChoice)
    (hgood : GoodState s)
    (hcand : CandOK route windows F E s b)
    (hdur : 0 ≤ (b.task.duration_minutes : ℚ))
    (htm : 0 ≤ b.travel_minutes) :
    GoodState (applyBest windows s b)
    ∧ s.current_time ≤ (applyBest windows s b).current_time := by
  obtain ⟨hmem, htmEq, harr, w, hw, hF, hS⟩ := hcand
  have harr0 : s.current_time ≤ b.arrival := by rw [harr]; linarith
  have has0 : b.arrival ≤ max b.arrival w.start := le_max_left _ _
  have hws0 : w.start ≤ max b.arrival w.start := le_max_right _ _
  simp only [applyBest, hw, Option.getD_some]
  by_cases h1 : 0 < b.travel_minutes <;> by_cases h2 : b.arrival < max b.arrival w.start
  · rw [if_pos h1, if_pos h2]
    try dsimp only
    constructor
    · refine extendGood s _
        [{ type := "travel", start := s.current_time, endT := b.arrival,
           title := "Drive to " ++ strOfOptStr (pyOrStr b.task.location_name b.task.address),
           task := none, from_place := s.current_place,
           to_place := pyOrStr b.task.location_name b.task.address,
           distance_km := some b.travel_km, travel_minutes := some (pyInt b.travel_minutes),
           lat := none, lon := none },
         { type := "break", start := b.arrival, endT := max b.arrival w.start,
           title := "Wait for " ++ strOfOptStr (pyOrStr b.task.location_name (some "location"))
             ++ " to open",
           task := none, from_place := none, to_place := none, distance_km := none,
           travel_minutes := none, lat := none, lon := none },
         { type := "task", start := max b.arrival w.start,
           endT := max b.arrival w.start + (b.task.duration_minutes : ℚ),
           title := b.task.title, task := some b.task, from_place := none, to_place := none,
           distance_km := none, travel_minutes := none, lat := b.task.lat, lon := b.task.lon }]
        ?_ ?_ hgood ?_ ?_ ?_ ?_
      · simp [List.append_assoc]
      · try dsimp only
        linarith
      · intro j hj
        simp only [List.mem_cons, List.mem_singleton, List.not_mem_nil, or_false] at hj
        rcases hj with rfl | rfl | rfl
        · try dsimp only
          linarith
        · try dsimp only
          linarith
        · try dsimp only
          linarith
      · intro j hj
        simp only [List.mem_cons, List.mem_singleton, List.not_mem_nil, or_false] at hj
        rcases hj with rfl | rfl | rfl
        · try dsimp only
          constructor <;> linarith
        · try dsimp only
          constructor <;> linarith
        · try dsimp only
          constructor <;> linarith
      · intro j hj
        simp only [List.mem_cons, List.mem_singleton, List.not_mem_nil, or_false] at hj
        rcases hj with rfl | rfl | rfl
        · exact Or.inl rfl
        · exact Or.inr (Or.inl rfl)
        · refine Or.inr (Or.inr ?_)
          intro i hi hov
          exact hS i hi hov
      · refine List.pairwise_cons.mpr ⟨?_, List.pairwise_cons.mpr ⟨?_, List.pairwise_singleton _ _⟩⟩
        · intro j hj
          simp only [List.mem_cons, List.mem_singleton, List.not_mem_nil, or_false] at hj
          rcases hj with rfl | rfl
          · intro hov
            try dsimp only [itemOverlap] at hov
            exact absurd hov.2 (fun hlt => by linarith)
          · intro hov
            try dsimp only [itemOverlap] at hov
            exact absurd hov.2 (fun hlt => by linarith)
        · intro j hj
          simp only [List.mem_singleton] at hj
          subst hj
          intro hov
          try dsimp only [itemOverlap] at hov
          exact absurd hov.2 (fun hlt => by linarith)
    · try dsimp only
      linarith
  · rw [if_pos h1, if_neg h2]
    try dsimp only
    constructor
    · refine extendGood s _
        [{ type := "travel", start := s.current_time, endT := b.arrival,
           title := "Drive to " ++ strOfOptStr (pyOrStr b.task.location_name b.task.address),
           task := none, from_place := s.current_place,
           to_place := pyOrStr b.task.location_name b.task.address,
           distance_km := some b.travel_km, travel_minutes := some (pyInt b.travel_minutes),
           lat := none, lon := none },
         { type := "task", start := max b.arrival w.start,
           endT := max b.arrival w.start + (b.task.duration_minutes : ℚ),
           title := b.task.title, task := some b.task, from_place := none, to_place := none,
           distance_km := none, travel_minutes := none, lat := b.task.lat, lon := b.task.lon }]
        ?_ ?_ hgood ?_ ?_ ?_ ?_
      · simp [List.append_assoc]
      · try dsimp only
        linarith
      · intro j hj
        simp only [List.mem_cons, List.mem_singleton, List.not_mem_nil, or_false] at hj
        rcases hj with rfl | rfl
        · try dsimp only
          linarith
        · try dsimp only
          linarith
      · intro j hj
        simp only [List.mem_cons, List.mem_singleton, List.not_mem_nil, or_false] at hj
        rcases hj with rfl | rfl
        · try dsimp only
          constructor <;> linarith
        · try dsimp only
          constructor <;> linarith
      · intro j hj
        simp only [List.mem_cons, List.mem_singleton, List.not_mem_nil, or_false] at hj
        rcases hj with rfl | rfl
        · exact Or.inl rfl
        · refine Or.inr (Or.inr ?_)
          intro i hi hov
          exact hS i hi hov
      · refine List.pairwise_cons.mpr ⟨?_, List.pairwise_singleton _ _⟩
        intro j hj
        simp only [List.mem_singleton] at hj
        subst hj
        intro hov
        try dsimp only [itemOverlap] at hov
        exact absurd hov.2 (fun hlt => by linarith)
    · try dsimp only
      linarith
  · rw [if_neg h1, if_pos h2]
    try dsimp only
    constructor
    · refine extendGood s _
        [{ type := "break", start := b.arrival, endT := max b.arrival w.start,
           title := "Wait for " ++ strOfOptStr (pyOrStr b.task.location_name (some "location"))
             ++ " to open",
           task := none, from_place := none, to_place := none, distance_km := none,
           travel_minutes := none, lat := none, lon := none },
         { type := "task", start := max b.arrival w.start,
           endT := max b.arrival w.start + (b.task.duration_minutes : ℚ),
           title := b.task.title, task := some b.task, from_place := none, to_place := none,
           distance_km := none, travel_minutes := none, lat := b.task.lat, lon := b.task.lon }]
        ?_ ?_ hgood ?_ ?_ ?_ ?_
      · simp [List.append_assoc]
      · try dsimp only
        linarith
      · intro j hj
        simp only [List.mem_cons, List.mem_singleton, List.not_mem_nil, or_false] at hj
        rcases hj with rfl | rfl
        · try dsimp only
          linarith
        · try dsimp only
          linarith
      · intro j hj
        simp only [List.mem_cons, List.mem_singleton, List.not_mem_nil, or_false] at hj
        rcases hj with rfl | rfl
        · try dsimp only
          constructor <;> linarith
        · try dsimp only
          constructor <;> linarith
      · intro j hj
        simp only [List.mem_cons, List.mem_singleton, List.not_mem_nil, or_false] at hj
        rcases hj with rfl | rfl
        · exact Or.inr (Or.inl rfl)
        · refine Or.inr (Or.inr ?_)
          intro i hi hov
          exact hS i hi hov
      · refine List.pairwise_cons.mpr ⟨?_, List.pairwise_singleton _ _⟩
        intro j hj
        simp only [List.mem_singleton] at hj
        subst hj
        intro hov
        try dsimp only [itemOverlap] at hov
        exact absurd hov.2 (fun hlt => by linarith)
    · try dsimp only
      linarith
  · rw [if_neg h1, if_neg h2]
    try dsimp only
    constructor
    · refine extendGood s _
        [{ type := "task", start := max b.arrival w.start,
           endT := max b.arrival w.start + (b.task.duration_minutes : ℚ),
           title := b.task.title, task := some b.task, from_place := none, to_place := none,
           distance_km := none, travel_minutes := none, lat := b.task.lat, lon := b.task.lon }]
        ?_ ?_ hgood ?_ ?_ ?_ ?_
      · simp [List.append_assoc]
      · try dsimp only
        linarith
      · intro j hj
        simp only [List.mem_cons, List.mem_singleton, List.not_mem_nil, or_false] at hj
        rcases hj with rfl
        · try dsimp only
          linarith
      · intro j hj
        simp only [List.mem_cons, List.mem_singleton, List.not_mem_nil, or_false] at hj
        rcases hj with rfl
        · try dsimp only
          constructor <;> linarith
      · intro j hj
        simp only [List.mem_cons, List.mem_singleton, List.not_mem_nil, or_false] at hj
        rcases hj with rfl
        · refine Or.inr (Or.inr ?_)
          intro i hi hov
          exact hS i hi hov
      · exact List.pairwise_singleton _ _
    · try dsimp only
      linarith

theorem greedyLoop_good (route : RouteOracle) (pd : ℤ) (day_end : ℚ)
    (F : List FixedBlock) (windows : List (ℕ × TimeWindow)) (E : List Task)
    (hE : ∀ t ∈ E, (0:ℚ) ≤ (t.duration_minutes : ℚ))
    (hroute : ∀ a b c d : ℚ, 0 ≤ (route a b c d).duration_minutes)
    (errands : List Task) (hsub : ∀ t ∈ errands, t ∈ E) :
    ∀ (fuel : ℕ) (s : GreedyState), GoodState s →
      GoodState (greedyLoop route pd day_end F windows errands fuel s) := by
  intro fuel
  induction fuel with
  | zero => intro s h; exact h
  | succ fuel ih =>
    intro s h
    simp only [greedyLoop]
    cases hfb : findBest route pd day_end F windows errands s with
    | none => exact h
    | some b =>
      have hcand : CandOK route windows F E s b :=
        findBest_spec route pd day_end F windows s E errands hsub none
          (by intro b0 hb0; cases hb0) b hfb
      have hdur : 0 ≤ (b.task.duration_minutes : ℚ) := hE _ hcand.1
      have htm : 0 ≤ b.travel_minutes := by
        rw [hcand.2.1]
        exact hroute _ _ _ _
      obtain ⟨hg, _⟩ := applyBest_good route windows F E s b h hcand hdur htm
      exact ih _ hg

theorem getLast_decomp (m : List TimeWindow) (lst : TimeWindow)
    (h : m.getLast? = some lst) : m.dropLast ++ [lst] = m := by
  cases m with
  | nil => simp at h
  | cons a l =>
    have hne : a :: l ≠ [] := by simp
    rw [List.getLast?_eq_getLast _ hne] at h
    injection h with h
    rw [← h]
    exact List.dropLast_append_getLast hne

theorem mergeStep_starts (m : List TimeWindow) (w : TimeWindow) :
    ∀ y ∈ mergeStep m w, (∃ z ∈ m, y.start = z.start) ∨ y.start = w.start := by
  intro y hy
  unfold mergeStep at hy
  split at hy
  · rename_i lst hlst
    split at hy
    · rcases List.mem_append.mp hy with hy | hy
      · exact Or.inl ⟨y, (List.dropLast_sublist m).mem hy, rfl⟩
      · simp only [List.mem_singleton] at hy
        subst hy
        have hlstm : lst ∈ m := by
          rw [← getLast_decomp m lst hlst]
          exact List.mem_append_right _ (List.mem_singleton_self _)
        exact Or.inl ⟨lst, hlstm, rfl⟩
    · rcases List.mem_append.mp hy with hy | hy
      · exact Or.inl ⟨y, hy, rfl⟩
      · simp only [List.mem_singleton] at hy
        subst hy
        exact Or.inr rfl
  · simp only [List.mem_singleton] at hy
    subst hy
    exact Or.inr rfl

theorem mergeStep_cover (m : List TimeWindow) (w : TimeWindow) :
    ∀ x ∈ m, ∃ y ∈ mergeStep m w, y.start ≤ x.start ∧ x.endT ≤ y.endT := by
  intro x hx
  cases hlst : m.getLast? with
  | none =>
    cases m with
    | nil => simp at hx
    | cons a l => simp at hlst
  | some lst =>
    simp only [mergeStep, hlst]
    by_cases hcond : w.start ≤ lst.endT
    · rw [if_pos hcond]
      have hdec := getLast_decomp m lst hlst
      rw [← hdec] at hx
      rcases List.mem_append.mp hx with hx | hx
      · exact ⟨x, List.mem_append_left _ hx, le_refl _, le_refl _⟩
      · simp only [List.mem_singleton] at hx
        rw [hx]
        exact ⟨({ start := lst.start, endT := max lst.endT w.endT } : TimeWindow),
          List.mem_append_right _ (List.mem_singleton_self _), le_refl _, le_max_left _ _⟩
    · rw [if_neg hcond]
      exact ⟨x, List.mem_append_left _ hx, le_refl _, le_refl _⟩

theorem mergeStep_cover_w (m : List TimeWindow) (w : TimeWindow)
    (hpre : ∀ x ∈ m, x.start ≤ w.start) :
    ∃ y ∈ mergeStep m w, y.start ≤ w.start ∧ w.endT ≤ y.endT := by
  cases hlst : m.getLast? with
  | none =>
    simp only [mergeStep, hlst]
    exact ⟨w, List.mem_singleton_self _, le_refl _, le_refl _⟩
  | some lst =>
    simp only [mergeStep, hlst]
    have hlstm : lst ∈ m := by
      rw [← getLast_decomp m lst hlst]
      exact List.mem_append_right _ (List.mem_singleton_self _)
    by_cases hcond : w.start ≤ lst.endT
    · rw [if_pos hcond]
      exact ⟨({ start := lst.start, endT := max lst.endT w.endT } : TimeWindow),
        List.mem_append_right _ (List.mem_singleton_self _), hpre lst hlstm,
        le_max_right _ _⟩
    · rw [if_neg hcond]
      exact ⟨w, List.mem_append_right _ (List.mem_singleton_self _), le_refl _, le_refl _⟩

theorem mergeStep_sorted (m : List TimeWindow) (w : TimeWindow)
    (hs : m.Pairwise fun a b => a.start ≤ b.start)
    (hpre : ∀ x ∈ m, x.start ≤ w.start) :
    (mergeStep m w).Pairwise fun a b => a.start ≤ b.start := by
  cases hlst : m.getLast? with
  | none =>
    simp only [mergeStep, hlst]
    exact List.pairwise_singleton _ _
  | some lst =>
    simp only [mergeStep, hlst]
    by_cases hcond : w.start ≤ lst.endT
    · rw [if_pos hcond]
      have hdec := getLast_decomp m lst hlst
      rw [List.pairwise_append]
      refine ⟨hs.sublist (List.dropLast_sublist m), List.pairwise_singleton _ _, ?_⟩
      intro x hx y hy
      simp only [List.mem_singleton] at hy
      subst hy
      have hs2 := hs
      rw [← hdec, List.pairwise_append] at hs2
      exact hs2.2.2 x hx lst (List.mem_singleton_self _)
    · rw [if_neg hcond]
      rw [List.pairwise_append]
      refine ⟨hs, List.pairwise_singleton _ _, ?_⟩
      intro x hx y hy
      simp only [List.mem_singleton] at hy
      subst hy
      exact hpre x hx

theorem mergeStep_wf (m : List TimeWindow) (w : TimeWindow)
    (hwfm : ∀ x ∈ m, x.start ≤ x.endT) (hwfw : w.start ≤ w.endT) :
    ∀ y ∈ mergeStep m w, y.start ≤ y.endT := by
  intro y hy
  cases hlst : m.getLast? with
  | none =>
    simp only [mergeStep, hlst, List.mem_singleton] at hy
    subst hy
    exact hwfw
  | some lst =>
    have hlstm : lst ∈ m := by
      rw [← getLast_decomp m lst hlst]
      exact List.mem_append_right _ (List.mem_singleton_self _)
    simp only [mergeStep, hlst] at hy
    split at hy
    · rcases List.mem_append.mp hy with hy | hy
      · exact hwfm y ((List.dropLast_sublist m).mem hy)
      · simp only [List.mem_singleton] at hy
        subst hy
        exact le_trans (hwfm lst hlstm) (le_max_left _ _)
    · rcases List.mem_append.mp hy with hy | hy
      · exact hwfm y hy
      · simp only [List.mem_singleton] at hy
        subst hy
        exact hwfw

theorem mergeBusy_fold :
    ∀ (ws m : List TimeWindow),
      ws.Pairwise (fun a b => a.start ≤ b.start) →
      (∀ x ∈ m, ∀ w ∈ ws, x.start ≤ w.start) →
      m.Pairwise (fun a b => a.start ≤ b.start) →
      (∀ x ∈ m, x.start ≤ x.endT) →
      (∀ w ∈ ws, w.start ≤ w.endT) →
      (∀ x ∈ m, ∃ y ∈ ws.foldl mergeStep m, y.start ≤ x.start ∧ x.endT ≤ y.endT)
      ∧ (∀ w ∈ ws, ∃ y ∈ ws.foldl mergeStep m, y.start ≤ w.start ∧ w.endT ≤ y.endT)
      ∧ (ws.foldl mergeStep m).Pairwise (fun a b => a.start ≤ b.start)
      ∧ (∀ y ∈ ws.foldl mergeStep m, ∃ z ∈ m ++ ws, y.start = z.start)
      ∧ (∀ y ∈ ws.foldl mergeStep m, y.start ≤ y.endT) := by
  intro ws
  induction ws with
  | nil =>
    intro m _ _ hsm hwfm _
    refine ⟨?_, ?_, hsm, ?_, hwfm⟩
    · intro x hx
      exact ⟨x, hx, le_refl _, le_refl _⟩
    · intro w hw
      simp at hw
    · intro y hy
      exact ⟨y, by simpa using hy, rfl⟩
  | cons w rest ih =>
    intro m hws hpre hsm hwfm hwfw
    rw [List.foldl_cons]
    obtain ⟨hw_rest, hws_rest⟩ := List.pairwise_cons.mp hws
    have hprew : ∀ x ∈ m, x.start ≤ w.start := fun x hx =>
      hpre x hx w (List.mem_cons_self _ _)
    have hstarts := mergeStep_starts m w
    have hpre1 : ∀ x ∈ mergeStep m w, ∀ v ∈ rest, x.start ≤ v.start := by
      intro x hx v hv
      rcases hstarts x hx with ⟨z, hz, hxz⟩ | hxz
      · rw [hxz]
        exact hpre z hz v (List.mem_cons_of_mem _ hv)
      · rw [hxz]
        exact hw_rest v hv
    have hs1 : (mergeStep m w).Pairwise (fun a b => a.start ≤ b.start) :=
      mergeStep_sorted m w hsm hprew
    have hwf1 : ∀ x ∈ mergeStep m w, x.start ≤ x.endT :=
      mergeStep_wf m w hwfm (hwfw w (List.mem_cons_self _ _))
    obtain ⟨ih1, ih2, ih3, ih4, ih5⟩ := ih (mergeStep m w) hws_rest hpre1 hs1 hwf1
      (fun v hv => hwfw v (List.mem_cons_of_mem _ hv))
    refine ⟨?_, ?_, ih3, ?_, ih5⟩
    · intro x hx
      obtain ⟨y1, hy1, hc1, hc2⟩ := mergeStep_cover m w x hx
      obtain ⟨y, hy, hd1, hd2⟩ := ih1 y1 hy1
      exact ⟨y, hy, le_trans hd1 hc1, le_trans hc2 hd2⟩
    · intro v hv
      rcases List.mem_cons.mp hv with rfl | hv
      · obtain ⟨y1, hy1, hc1, hc2⟩ := mergeStep_cover_w m v hprew
        obtain ⟨y, hy, hd1, hd2⟩ := ih1 y1 hy1
        exact ⟨y, hy, le_trans hd1 hc1, le_trans hc2 hd2⟩
      · exact ih2 v hv
    · intro y hy
      obtain ⟨z, hz, hyz⟩ := ih4 y hy
      rcases List.mem_append.mp hz with hz | hz
      · rcases hstarts z hz with ⟨z2, hz2, hzz⟩ | hzz
        · exact ⟨z2, List.mem_append_left _ hz2, hyz.trans hzz⟩
        · exact ⟨w, List.mem_append_right _ (List.mem_cons_self _ _), hyz.trans hzz⟩
      · exact ⟨z, List.mem_append_right _ (List.mem_cons_of_mem _ hz), hyz⟩

theorem freeGaps_fold :
    ∀ (ms gs : List TimeWindow) (cur : ℚ),
      ms.Pairwise (fun a b => a.start ≤ b.start) →
      (∀ m ∈ ms, m.start ≤ m.endT) →
      (∀ g ∈ gs, ∀ m ∈ ms, g.endT ≤ m.start) →
      (∀ g ∈ gs, g.endT ≤ cur) →
      gs.Pairwise (fun g1 g2 => g1.endT ≤ g2.start) →
      (∀ g ∈ (ms.foldl gapStep (gs, cur)).1, g ∈ gs ∨ cur ≤ g.start)
      ∧ (∀ g ∈ (ms.foldl gapStep (gs, cur)).1, g.endT ≤ (ms.foldl gapStep (gs, cur)).2)
      ∧ cur ≤ (ms.foldl gapStep (gs, cur)).2
      ∧ (∀ m ∈ ms, m.endT ≤ (ms.foldl gapStep (gs, cur)).2)
      ∧ (ms.foldl gapStep (gs, cur)).1.Pairwise (fun g1 g2 => g1.endT ≤ g2.start)
      ∧ (∀ g ∈ (ms.foldl gapStep (gs, cur)).1, ∀ m ∈ ms,
          g.endT ≤ m.start ∨ m.endT ≤ g.start) := by
  intro ms
  induction ms with
  | nil =>
    intro gs cur _ _ _ hcur hp
    refine ⟨fun g hg => Or.inl hg, hcur, le_refl _, ?_, hp, ?_⟩
    · intro m hm
      simp at hm
    · intro g _ m hm
      simp at hm
  | cons busy rest ih =>
    intro gs cur hsort hwf hpre hcur hp
    rw [List.foldl_cons]
    obtain ⟨hbusy_rest, hsort_rest⟩ := List.pairwise_cons.mp hsort
    have hbwf : busy.start ≤ busy.endT := hwf busy (List.mem_cons_self _ _)
    have hgs1 : ∀ g ∈ (gapStep (gs, cur) busy).1,
        g ∈ gs ∨ (g.start = cur ∧ g.endT = busy.start) := by
      intro g hg
      unfold gapStep at hg
      dsimp only at hg
      split at hg
      · rcases List.mem_append.mp hg with hg | hg
        · exact Or.inl hg
        · simp only [List.mem_singleton] at hg
          rw [hg]
          exact Or.inr ⟨rfl, rfl⟩
      · exact Or.inl hg
    have hcur1 : (gapStep (gs, cur) busy).2 = max cur busy.endT := rfl
    have hpre1 : ∀ g ∈ (gapStep (gs, cur) busy).1, ∀ m ∈ rest, g.endT ≤ m.start := by
      intro g hg m hm
      rcases hgs1 g hg with hg2 | ⟨_, hge⟩
      · exact hpre g hg2 m (List.mem_cons_of_mem _ hm)
      · rw [hge]
        exact hbusy_rest m hm
    have hcur2 : ∀ g ∈ (gapStep (gs, cur) busy).1, g.endT ≤ max cur busy.endT := by
      intro g hg
      rcases hgs1 g hg with hg2 | ⟨_, hge⟩
      · exact le_trans (hcur g hg2) (le_max_left _ _)
      · rw [hge]
        exact le_trans hbwf (le_max_right _ _)
    have hp1 : (gapStep (gs, cur) busy).1.Pairwise (fun g1 g2 => g1.endT ≤ g2.start) := by
      unfold gapStep
      dsimp only
      split
      · rw [List.pairwise_append]
        refine ⟨hp, List.pairwise_singleton _ _, ?_⟩
        intro g hg y hy
        simp only [List.mem_singleton] at hy
        rw [hy]
        exact hcur g hg
      · exact hp
    have hpair : gapStep (gs, cur) busy = ((gapStep (gs, cur) busy).1, max cur busy.endT) := by
      rw [← hcur1]
    rw [hpair]
    obtain ⟨ih1, ih2, ih3, ih4, ih5, ih6⟩ := ih (gapStep (gs, cur) busy).1
      (max cur busy.endT) hsort_rest (fun m hm => hwf m (List.mem_cons_of_mem _ hm))
      hpre1 hcur2 hp1
    refine ⟨?_, ih2, le_trans (le_max_left _ _) ih3, ?_, ih5, ?_⟩
    · intro g hg
      rcases ih1 g hg with hg2 | hg2
      · rcases hgs1 g hg2 with hg3 | ⟨hgs, _⟩
        · exact Or.inl hg3
        · exact Or.inr (le_of_eq hgs.symm)
      · exact Or.inr (le_trans (le_max_left _ _) hg2)
    · intro m hm
      rcases List.mem_cons.mp hm with rfl | hm
      · exact le_trans (le_max_right _ _) ih3
      · exact ih4 m hm
    · intro g hg m hm
      rcases List.mem_cons.mp hm with rfl | hm
      · rcases ih1 g hg with hg2 | hg2
        · rcases hgs1 g hg2 with hg3 | ⟨_, hge⟩
          · exact Or.inl (hpre g hg3 m (List.mem_cons_self _ _))
          · exact Or.inl (le_of_eq hge)
        · exact Or.inr (le_trans (le_max_right _ _) hg2)
      · exact ih6 g hg m hm

theorem freeGaps_spec (ds de : ℚ) (merged : List TimeWindow)
    (hsort : merged.Pairwise (fun a b => a.start ≤ b.start))
    (hwf : ∀ m ∈ merged, m.start ≤ m.endT) :
    (∀ g ∈ freeGaps ds de merged, ∀ m ∈ merged, g.endT ≤ m.start ∨ m.endT ≤ g.start)
    ∧ (freeGaps ds de merged).Pairwise (fun g1 g2 => g1.endT ≤ g2.start) := by
  obtain ⟨h1, h2, h3, h4, h5, h6⟩ := freeGaps_fold merged [] ds hsort hwf
    (by intro g hg; simp at hg) (by intro g hg; simp at hg) List.Pairwise.nil
  unfold freeGaps
  dsimp only
  split
  · constructor
    · intro g hg m hm
      rcases List.mem_append.mp hg with hg | hg
      · exact h6 g hg m hm
      · simp only [List.mem_singleton] at hg
        rw [hg]
        exact Or.inr (h4 m hm)
    · rw [List.pairwise_append]
      refine ⟨h5, List.pairwise_singleton _ _, ?_⟩
      intro g hg y hy
      simp only [List.mem_singleton] at hy
      rw [hy]
      exact h2 g hg
  · exact ⟨h6, h5⟩

theorem mem_eraseIdx_getElem {α : Type} :
    ∀ (l : List α) (i : ℕ) (x : α), x ∈ l.eraseIdx i →
      ∃ j, ∃ h : j < l.length, j ≠ i ∧ l[j] = x := by
  intro l
  induction l with
  | nil =>
    intro i x hx
    simp [List.eraseIdx] at hx
  | cons a l ih =>
    intro i x hx
    cases i with
    | zero =>
      rw [List.eraseIdx_cons_zero] at hx
      obtain ⟨j, hj, hxj⟩ := List.mem_iff_getElem.mp hx
      exact ⟨j + 1, by simpa using Nat.succ_lt_succ hj, by omega, by simpa using hxj⟩
    | succ i =>
      rw [List.eraseIdx_cons_succ] at hx
      rcases List.mem_cons.mp hx with rfl | hx
      · exact ⟨0, by simp, by omega, rfl⟩
      · obtain ⟨j, hj, hne, hxj⟩ := ih i x hx
        exact ⟨j + 1, by simpa using Nat.succ_lt_succ hj, by omega, by simpa using hxj⟩

theorem placeHomeTask_good (hl hlon : Option ℚ) (hs : HomeState) (t : Task)
    (hdur : 0 ≤ (t.duration_minutes : ℚ)) (hg : HGood hs) :
    HGood (placeHomeTask hl hlon hs t) := by
  obtain ⟨h1, h2, h3, h4⟩ := hg
  unfold placeHomeTask
  split
  case h_2 =>
    split
    · exact ⟨h1, h2, h3, h4⟩
    · exact ⟨h1, h2, h3, h4⟩
  case h_1 gi hfi =>
    obtain ⟨hlt, hpred, _⟩ := List.findIdx?_eq_some_iff_getElem.mp hfi
    have hpred2 : (t.duration_minutes : ℚ) ≤ (hs.gaps[gi]).duration_minutes :=
      of_decide_eq_true hpred
    have hgetD : hs.gaps.getD gi { start := 0, endT := 0 } = hs.gaps[gi] := by
      rw [List.getD_eq_getElem?_getD, List.getElem?_eq_getElem hlt]
      rfl
    rw [hgetD]
    dsimp only
    have hgapmem : hs.gaps[gi] ∈ hs.gaps := List.getElem_mem hlt
    have hsub1 : hs.gaps[gi].start ≤ hs.gaps[gi].start + (t.duration_minutes : ℚ) := by
      linarith
    have hsub2 : hs.gaps[gi].start + (t.duration_minutes : ℚ) ≤ hs.gaps[gi].endT := by
      have h0 := hpred2
      unfold TimeWindow.duration_minutes at h0
      linarith
    have hdisjele : ∀ j, ∀ hj : j < hs.gaps.length, j ≠ gi → winDisj hs.gaps[j] hs.gaps[gi] := by
      intro j hj hne
      rcases Nat.lt_or_ge j gi with hlt2 | hge
      · exact (List.pairwise_iff_getElem.mp h4) j gi hj hlt hlt2
      · have hgt : gi < j := by omega
        exact winDisj_symm ((List.pairwise_iff_getElem.mp h4) gi j hlt hj hgt)
    refine ⟨?_, ?_, ?_, ?_⟩
    · intro i hi
      rcases List.mem_append.mp hi with hi | hi
      · exact h1 i hi
      · simp only [List.mem_singleton] at hi
        rw [hi]
        exact hsub1
    · rw [List.pairwise_append]
      refine ⟨h2, List.pairwise_singleton _ _, ?_⟩
      intro i hi j hj
      simp only [List.mem_singleton] at hj
      rw [hj]
      intro hov
      dsimp only [itemOverlap] at hov
      rcases h3 hs.gaps[gi] hgapmem i hi with hd | hd
      · exact absurd hov.2 (by intro hc; linarith)
      · exact absurd hov.1 (by intro hc; linarith)
    · intro g hg i hi
      rcases List.mem_append.mp hi with hi | hi
      · split at hg
        · rcases List.mem_or_eq_of_mem_set hg with hg2 | hg2
          · exact h3 g hg2 i hi
          · rcases h3 hs.gaps[gi] hgapmem i hi with hd | hd
            · rw [hg2]
              exact Or.inl (by dsimp only; linarith)
            · rw [hg2]
              exact Or.inr (by dsimp only; linarith)
        · exact h3 g ((List.eraseIdx_sublist _ _).mem hg) i hi
      · simp only [List.mem_singleton] at hi
        rw [hi]
        split at hg
        · obtain ⟨j, hj, hgj⟩ := List.mem_iff_getElem.mp hg
          have hj2 : j < hs.gaps.length := by
            have hj3 := hj
            rw [List.length_set] at hj3
            exact hj3
          rw [List.getElem_set] at hgj
          by_cases hje : gi = j
          · rw [if_pos hje] at hgj
            rw [← hgj]
            exact Or.inl (by dsimp only; exact le_refl _)
          · rw [if_neg hje] at hgj
            rcases hdisjele j hj2 (fun hc => hje hc.symm) with hd | hd
            · refine Or.inr ?_
              rw [← hgj]
              dsimp only
              linarith [hd]
            · refine Or.inl ?_
              rw [← hgj]
              dsimp only
              linarith [hd]
        · obtain ⟨j, hj2, hne, hgj⟩ := mem_eraseIdx_getElem hs.gaps gi g hg
          rcases hdisjele j hj2 hne with hd | hd
          · refine Or.inr ?_
            rw [← hgj]
            dsimp only
            linarith [hd]
          · refine Or.inl ?_
            rw [← hgj]
            dsimp only
            linarith [hd]
    · split
      · rw [List.pairwise_iff_getElem]
        intro j1 j2 hj1 hj2 hlt12
        have hj1b : j1 < hs.gaps.length := by
          have h0 := hj1
          rw [List.length_set] at h0
          exact h0
        have hj2b : j2 < hs.gaps.length := by
          have h0 := hj2
          rw [List.length_set] at h0
          exact h0
        rw [List.getElem_set, List.getElem_set]
        by_cases he1 : gi = j1
        · rw [if_pos he1]
          have hne2 : gi ≠ j2 := by omega
          rw [if_neg hne2]
          rcases hdisjele j2 hj2b (fun hc => hne2 hc.symm) with hd | hd
          · exact Or.inr (by dsimp only; linarith [hd, hsub2])
          · exact Or.inl (by dsimp only; linarith [hd, hsub2])
        · rw [if_neg he1]
          by_cases he2 : gi = j2
          · rw [if_pos he2]
            rcases hdisjele j1 hj1b (fun hc => he1 hc.symm) with hd | hd
            · exact Or.inl (by dsimp only; linarith [hd, hsub2])
            · exact Or.inr (by dsimp only; linarith [hd, hsub2])
          · rw [if_neg he2]
            exact (List.pairwise_iff_getElem.mp h4) j1 j2 hj1b hj2b hlt12
      · exact h4.sublist (List.eraseIdx_sublist _ _)

theorem homeFold_good (hl hlon : Option ℚ) :
    ∀ (ts : List Task) (hs : HomeState), (∀ t ∈ ts, 0 ≤ (t.duration_minutes : ℚ)) →
      HGood hs → HGood (ts.foldl (placeHomeTask hl hlon) hs) := by
  intro ts
  induction ts with
  | nil => intro hs _ h; exact h
  | cons t ts ih =>
    intro hs hdur h
    rw [List.foldl_cons]
    exact ih _ (fun x hx => hdur x (List.mem_cons_of_mem _ hx))
      (placeHomeTask_good hl hlon hs t (hdur t (List.mem_cons_self _ _)) h)

theorem initState_good (settings : Settings ℚ) (ds : ℚ) (F : List FixedBlock)
    (h1 : ∀ b ∈ F, b.start_dt ≤ b.endT_dt) (h2 : F.Pairwise blockDisj) :
    GoodState
      { scheduled := F.map fun block =>
          ({ type := "fixed", start := block.start_dt, endT := block.endT_dt
             title := block.title } : ScheduledItem)
        current_time := ds
        current_lat := settings.home_lat.getD 0
        current_lon := settings.home_lon.getD 0
        current_place := some settings.home_name
        scheduled_ids := []
        total_km := 0
        total_min := 0 } := by
  refine ⟨?_, ?_, ?_⟩
  · intro i hi
    obtain ⟨b, hb, rfl⟩ := List.mem_map.mp hi
    exact h1 b hb
  · intro i hi htype
    obtain ⟨b, hb, rfl⟩ := List.mem_map.mp hi
    exact absurd rfl htype
  · rw [List.pairwise_map]
    refine h2.imp ?_
    intro b1 b2 hd hov
    exfalso
    rcases hd with hd | hd
    · exact absurd hov.2 (not_lt.mpr hd)
    · exact absurd hov.1 (not_lt.mpr hd)

theorem returnHome_good (route : RouteOracle) (settings : Settings ℚ)
    (return_home : Bool) (de : ℚ) (s1 : GreedyState)
    (hroute : ∀ a b c d : ℚ, 0 ≤ (route a b c d).duration_minutes)
    (hg : GoodState s1) :
    GoodState
      (if return_home = true
          ∧ (s1.current_lat ≠ settings.home_lat.getD 0 ∨ s1.current_lon ≠ settings.home_lon.getD 0)
          ∧ s1.current_time < de then
        { s1 with
          scheduled := s1.scheduled ++
            [{ type := "travel", start := s1.current_time
               endT := s1.current_time + (route s1.current_lat s1.current_lon
                 (settings.home_lat.getD 0) (settings.home_lon.getD 0)).duration_minutes
               title := "Return to " ++ settings.home_name
               from_place := s1.current_place, to_place := some settings.home_name
               distance_km := some (route s1.current_lat s1.current_lon
                 (settings.home_lat.getD 0) (settings.home_lon.getD 0)).distance_km
               travel_minutes := some (pyInt (route s1.current_lat s1.current_lon
                 (settings.home_lat.getD 0) (settings.home_lon.getD 0)).duration_minutes) }]
          total_km := s1.total_km + (route s1.current_lat s1.current_lon
            (settings.home_lat.getD 0) (settings.home_lon.getD 0)).distance_km
          total_min := s1.total_min + (route s1.current_lat s1.current_lon
            (settings.home_lat.getD 0) (settings.home_lon.getD 0)).duration_minutes
          current_time := s1.current_time + (route s1.current_lat s1.current_lon
            (settings.home_lat.getD 0) (settings.home_lon.getD 0)).duration_minutes }
      else s1) := by
  split
  · refine extendGood s1 _ _ rfl ?_ hg ?_ ?_ ?_ ?_
    · exact le_add_of_nonneg_right (hroute _ _ _ _)
    · intro j hj
      simp only [List.mem_singleton] at hj
      subst hj
      exact le_add_of_nonneg_right (hroute _ _ _ _)
    · intro j hj
      simp only [List.mem_singleton] at hj
      subst hj
      exact ⟨le_refl _, le_refl _⟩
    · intro j hj
      simp only [List.mem_singleton] at hj
      subst hj
      exact Or.inl rfl
    · exact List.pairwise_singleton _ _
  · exact hg

theorem backfill_good (ds de : ℚ) (hl hlon : Option ℚ) (s2 : GreedyState)
    (home_sorted : List Task) (ov : List OverflowTask)
    (hdur : ∀ t ∈ home_sorted, 0 ≤ (t.duration_minutes : ℚ))
    (hg : GoodState s2) :
    ((home_sorted.foldl (placeHomeTask hl hlon)
        { gaps := freeGaps ds de (mergeBusy ((s2.scheduled.map fun item =>
            ({ start := item.start, endT := item.endT } : TimeWindow)).insertionSort
              fun a b => a.start ≤ b.start))
          scheduled := s2.scheduled
          scheduled_ids := s2.scheduled_ids
          overflow := ov }).scheduled.insertionSort
        fun a b => a.start ≤ b.start).Pairwise (fun a b => a.start ≤ b.start)
    ∧ (∀ i ∈ (home_sorted.foldl (placeHomeTask hl hlon)
        { gaps := freeGaps ds de (mergeBusy ((s2.scheduled.map fun item =>
            ({ start := item.start, endT := item.endT } : TimeWindow)).insertionSort
              fun a b => a.start ≤ b.start))
          scheduled := s2.scheduled
          scheduled_ids := s2.scheduled_ids
          overflow := ov }).scheduled.insertionSort
        fun a b => a.start ≤ b.start, i.start ≤ i.endT)
    ∧ ((home_sorted.foldl (placeHomeTask hl hlon)
        { gaps := freeGaps ds de (mergeBusy ((s2.scheduled.map fun item =>
            ({ start := item.start, endT := item.endT } : TimeWindow)).insertionSort
              fun a b => a.start ≤ b.start))
          scheduled := s2.scheduled
          scheduled_ids := s2.scheduled_ids
          overflow := ov }).scheduled.insertionSort
        fun a b => a.start ≤ b.start).Pairwise
        (fun a b => itemOverlap a b → fixedTravelPair a b) := by
  obtain ⟨hg1, hg2, hg3⟩ := hg
  set AB := ((s2.scheduled.map fun item =>
    ({ start := item.start, endT := item.endT } : TimeWindow)).insertionSort
      fun a b => a.start ≤ b.start) with hAB
  have hABsort : AB.Pairwise (fun a b : TimeWindow => a.start ≤ b.start) :=
    List.sorted_insertionSort _ _
  have hABwf : ∀ w ∈ AB, w.start ≤ w.endT := by
    intro w hw
    rw [hAB] at hw
    obtain ⟨i, hi, rfl⟩ := List.mem_map.mp ((List.perm_insertionSort _ _).mem_iff.mp hw)
    exact hg1 i hi
  obtain ⟨_, hcov, hMsort, _, hMwf⟩ := mergeBusy_fold AB [] hABsort
    (by intro x hx; cases hx) List.Pairwise.nil (by intro x hx; cases hx) hABwf
  obtain ⟨hgapdisj, hgappair⟩ := freeGaps_spec ds de (mergeBusy AB) hMsort hMwf
  have hinit : HGood
      { gaps := freeGaps ds de (mergeBusy AB), scheduled := s2.scheduled
        scheduled_ids := s2.scheduled_ids, overflow := ov } := by
    refine ⟨hg1, hg3, ?_, ?_⟩
    · intro g hgm i hi
      have hwin : ({ start := i.start, endT := i.endT } : TimeWindow) ∈ AB := by
        rw [hAB]
        exact (List.perm_insertionSort _ _).mem_iff.mpr (List.mem_map_of_mem _ hi)
      obtain ⟨y, hy, hys, hye⟩ := hcov _ hwin
      rcases hgapdisj g hgm y hy with h | h
      · exact Or.inr (le_trans h hys)
      · exact Or.inl (le_trans hye h)
    · exact hgappair.imp (fun h => Or.inl h)
  obtain ⟨hf1, hf2, _, _⟩ := homeFold_good hl hlon home_sorted _ hdur hinit
  refine ⟨List.sorted_insertionSort _ _, ?_, ?_⟩
  · intro i hi
    exact hf1 i ((List.perm_insertionSort _ _).mem_iff.mp hi)
  · exact (List.Perm.pairwise_iff (fun h12 => overlapOK_symm h12)
      (List.perm_insertionSort _ _)).mpr hf2

theorem cx_ps : parse_time "09:00" = ⟨9, 0⟩ := by decide
theorem cx_pe : parse_time "17:00" = ⟨17, 0⟩ := by decide
theorem cx_fix : get_fixed_blocks_for_date [cxBlock] 0 = [cxBlock] := by decide
theorem cx_tasks : get_tasks_for_date [cxTask] 0 "Mon" = [cxTask] := by decide
theorem cx_err : get_location_based_tasks [cxTask] = [cxTask] := by decide
theorem cx_home : get_home_based_tasks [cxTask] = [] := by decide

theorem cx_win : get_task_feasible_window cxTask 0 ⟨9, 0⟩ ⟨17, 0⟩ = some ⟨540, 1020⟩ := by
  norm_num [get_task_feasible_window, combine_date_time, cxTask]

theorem cx_pre : errandPrepass [cxTask] 0 ⟨9, 0⟩ ⟨17, 0⟩
    = ([(1, ⟨540, 1020⟩)], []) := by
  have h1 : cxTask.has_location = true := by decide
  have h2 : cxTask.id = 1 := rfl
  simp [errandPrepass, h1, h2, cx_win, upsertWindow]

theorem cx_fb1 : findBest cxRoute 0 1020 [cxBlock] [(1, ⟨540, 1020⟩)] [cxTask] cxS0
    = some { task := cxTask, score := -160, arrival := 630, travel_minutes := 90
             travel_km := 10 } := by
  norm_num [findBest, findBestStep, lookupWindow, cxS0, cxRoute, cxBlock, cxFixedItem,
    calculate_priority_score, TimeWindow.overlapsW, max_def, List.find?, cxTask]

theorem cx_app : applyBest [(1, ⟨540, 1020⟩)] cxS0
    { task := cxTask, score := -160, arrival := 630, travel_minutes := 90, travel_km := 10 }
    = cxS1 := by
  have hne : ¬ ("Shop" = "") := by decide
  have hdr : "Drive to " ++ "Shop" = "Drive to Shop" := by decide
  norm_num [applyBest, lookupWindow, List.find?, cxS0, cxS1, cxTask, pyOrStr, strOfOptStr,
    pyInt, max_def, cxTravel1, cxTaskItem, hne, hdr]

theorem cx_fb2 : findBest cxRoute 0 1020 [cxBlock] [(1, ⟨540, 1020⟩)] [cxTask] cxS1
    = none := by
  norm_num [findBest, findBestStep, cxS1, cxTask]

theorem cx_loop : greedyLoop cxRoute 0 1020 [cxBlock] [(1, ⟨540, 1020⟩)] [cxTask] 2 cxS0
    = cxS1 := by
  simp only [greedyLoop, cx_fb1, cx_app, cx_fb2]

theorem cx_loopL : greedyLoop cxRoute 0 1020 [cxBlock] [(1, ⟨540, 1020⟩)] [cxTask] 2
    { scheduled := [{ type := "fixed", start := 540, endT := 600, title := "Meeting",
                      task := none, from_place := none, to_place := none, distance_km := none,
                      travel_minutes := none, lat := none, lon := none }],
      current_time := 540, current_lat := 0, current_lon := 0,
      current_place := some "Home", scheduled_ids := [], total_km := 0, total_min := 0 }
    = cxS1 := cx_loop

/-- C1 (amended): every plan returned by `generate_plan` — given well-formed
inputs: fixed blocks are proper intervals and pairwise disjoint, and all task
and route durations are nonnegative — has its `items` sorted ascending by
`start`, every item satisfies `start ≤ end`, and any two overlapping items are
a fixed block paired with an unchecked travel or wait segment. -/
theorem C1_plan_invariants
    (plan_date : ℤ) (settings : Settings ℚ) (return_home : Bool) (day_name : String)
    (db_blocks : List FixedBlock) (db_tasks : List Task) (route : RouteOracle) (r : PlanResult)
    (hblocks1 : ∀ b ∈ db_blocks, b.start_dt ≤ b.endT_dt)
    (hblocks2 : db_blocks.Pairwise blockDisj)
    (htasks : ∀ t ∈ db_tasks, 0 ≤ (t.duration_minutes : ℚ))
    (hroute : ∀ a b c d : ℚ, 0 ≤ (route a b c d).duration_minutes)
    (hok : generate_plan plan_date settings return_home day_name db_blocks db_tasks route
      = Except.ok r) :
    r.items.Pairwise (fun a b => a.start ≤ b.start)
    ∧ (∀ i ∈ r.items, i.start ≤ i.endT)
    ∧ r.items.Pairwise (fun a b => itemOverlap a b → fixedTravelPair a b) := by
  rw [generate_plan] at hok
  split at hok
  · simp at hok
  · dsimp only at hok
    rw [Except.ok.injEq] at hok
    subst hok
    dsimp only
    refine backfill_good _ _ _ _ _ _ _ ?_ ?_
    · intro t ht
      exact htasks t (home_mem_db db_tasks plan_date day_name t
        ((List.perm_insertionSort _ _).mem_iff.mp ht))
    · refine returnHome_good route settings return_home _ _ hroute ?_
      refine greedyLoop_good route plan_date _ _ _
        (get_location_based_tasks (get_tasks_for_date db_tasks plan_date day_name))
        ?_ hroute _ (fun t ht => ht) _ _ ?_
      · intro t ht
        exact htasks t (errand_mem_db db_tasks plan_date day_name t ht)
      · exact initState_good settings _ _
          (fun b hb => hblocks1 b (fixedBlocks_mem db_blocks plan_date b hb))
          (fixedBlocks_pairwise db_blocks plan_date hblocks2)

/-- Witness for C1 (amended) at a concrete scenario: one fixed block and one
errand task; the hypotheses are discharged by computation. -/
theorem C1_plan_invariants_witness :
    ∃ r, generate_plan 0 cxSettings true "Mon" [cxBlock] [cxTask] cxRoute = Except.ok r ∧
      (r.items.Pairwise (fun a b => a.start ≤ b.start)
       ∧ (∀ i ∈ r.items, i.start ≤ i.endT)
       ∧ r.items.Pairwise (fun a b => itemOverlap a b → fixedTravelPair a b)) := by
  refine ⟨_, rfl, C1_plan_invariants 0 cxSettings true "Mon" [cxBlock] [cxTask] cxRoute _
    ?_ ?_ ?_ ?_ rfl⟩
  · intro b hb
    simp only [List.mem_singleton] at hb
    subst hb
    norm_num [cxBlock]
  · exact List.pairwise_singleton _ _
  · intro t ht
    simp only [List.mem_singleton] at ht
    subst ht
    norm_num [cxTask]
  · intro a b c d
    norm_num [cxRoute]

/-- C1 counterexample: as stated, the claim is false. In this concrete run the
greedy scheduler books travel 540–630 to an errand while the fixed block
occupies 540–600: `generate_plan` never checks travel or wait segments against
fixed blocks, so the returned items are not pairwise disjoint. -/
theorem C1_counterexample : ∃ r, generate_plan 0 cxSettings true "Mon" [cxBlock] [cxTask] cxRoute
    = Except.ok r ∧ cxFixedItem ∈ r.items ∧ cxTravel1 ∈ r.items
      ∧ cxFixedItem ≠ cxTravel1 ∧ itemOverlap cxFixedItem cxTravel1 := by
  have hds : combine_date_time 0 (⟨9, 0⟩ : TimeHM) = 540 := by norm_num [combine_date_time]
  have hde : combine_date_time 0 (⟨17, 0⟩ : TimeHM) = 1020 := by norm_num [combine_date_time]
  have hset1 : cxSettings.default_work_start = "09:00" := rfl
  have hset2 : cxSettings.default_work_end = "17:00" := rfl
  have hset3 : cxSettings.home_lat = some 0 := rfl
  have hset4 : cxSettings.home_lon = some 0 := rfl
  have hset5 : cxSettings.home_name = "Home" := rfl
  have hb1 : cxBlock.start_dt = 540 := rfl
  have hb2 : cxBlock.endT_dt = 600 := rfl
  have hb3 : cxBlock.title = "Meeting" := rfl
  refine ⟨_, rfl, ?_⟩
  simp only [List.Perm.mem_iff (List.perm_insertionSort _ _)]
  simp only [hset1, hset2, hset3, hset4, hset5, cx_ps, cx_pe, hds, hde, cx_fix, hb1, hb2, hb3,
    cx_tasks, cx_err, cx_home, cx_pre, List.map_cons, List.map_nil, List.length_cons,
    List.length_nil, Option.getD_some]
  norm_num
  have hc1 : cxS1.current_lat = 1 := rfl
  have hc2 : cxS1.current_lon = 1 := rfl
  have hc3 : cxS1.current_time = 660 := rfl
  have hc5 : cxS1.scheduled = [cxFixedItem, cxTravel1, cxTaskItem] := rfl
  have hr1 : ∀ a b c d : ℚ, (cxRoute a b c d).duration_minutes = 90 := fun _ _ _ _ => rfl
  have hr2 : ∀ a b c d : ℚ, (cxRoute a b c d).distance_km = 10 := fun _ _ _ _ => rfl
  have hins : List.insertionSort homeTaskLE [] = [] := rfl
  simp only [cx_loopL, hc1, hc2, hc3, hc5, hr1, hr2, hins, List.foldl_nil]
  norm_num [itemOverlap, cxFixedItem, cxTravel1, cxTaskItem]

end Orbit
